import Mathlib

/-!
# Moirai land data system: land-cell reconciliation and reference-vegetation set-up

A shallow embedding of `get_land_cells.c` and `calc_refveg_area.c`.

Conventions of the embedding.

* Input rasters are functions from the cell id to the stored value.  The
  per-cell arrays the functions write are kept as one record per cell id:
  `a[i]` is the field `a` of `cell i`.  Arrays that hold areas (C `float` or
  `double`) are rational valued: arithmetic is exact.  Arrays that hold
  integer codes, also the `float` ones, are integer valued.
* C `int` quantities that count cells, rows or columns are natural numbers;
  C `int` quantities that carry a sentinel (`NOMATCH`, `NODATA`) are integers.
* The header `moirai.h` is not part of the sources, so its constants are the
  fields of `Consts`; only `OK = 0` is fixed, as the header comments of the
  functions state.
* Memory allocation and the raster writers are taken to succeed.
* In `calc_refveg_area` the outcome of the readers `read_hyde32` and
  `read_lulc_isam`, the function `proc_lulc_area` (not part of the sources)
  and the values returned by `rand()` are parameters.  The products and sums
  of cell counts are taken not to overflow a C `int`, and `lulc_input_ncols`
  not to be zero where the code divides by it.
-/

namespace Moirai

/-- Return code of a successful call (`OK = 0` in the header comments). -/
def OK : Int := 0

/-- The constants of `moirai.h` used by the embedded functions. -/
structure Consts where
  ERROR_IND : Int
  NODATA : Int
  NOMATCH : Int
  FAOCTRY2GCAMCTRYAEZID : Int
  NUM_CELLS : Nat
  NUM_FAO_CTRY : Nat
  NUM_LON : Nat
  NUM_HYDE_TYPES : Nat
  NUM_HYDE_TYPES_MAIN : Nat
  NUM_LULC_TYPES : Nat
  MIN_SAGE_FOREST_CODE : Int
  MAX_SAGE_FOREST_CODE : Int

/-- The fields of `rinfo_struct` read by the embedded functions.  The column and cell counts
are natural numbers here; the index loops on column counts of either sign are
`index_loops_of`. -/
structure rinfo_struct where
  aez_orig_nodata : Int
  aez_new_nodata : Int
  land_area_sage_nodata : ℚ
  land_area_hyde_nodata : ℚ
  cell_area_hyde_nodata : ℚ
  country_fao_nodata : Int
  potveg_nodata : Int
  lu_ncols : Nat
  lulc_input_ncols : Nat
  lulc_input_ncells : Nat

/-- The global input rasters and lookup tables; the embedded functions only read them.
Tables are indexed by a C `int`, so that a read through an index holding `NOMATCH`
is expressible: it yields whatever the table function gives there. -/
structure Grids where
  aez_bounds_orig : Nat → Int
  aez_bounds_new : Nat → Int
  land_area_sage : Nat → ℚ
  land_area_hyde : Nat → ℚ
  cell_area_hyde : Nat → ℚ
  country_fao : Nat → Int
  potveg_thematic : Nat → Int
  countrycodes_fao : Int → Int
  ctry2ctry87codes_gtap : Int → Int
  ctry2regioncodes_gcam : Int → Int
  lulc_input_grid : Nat → Nat → ℚ

/-- The values held at one cell id by the per-cell arrays: the land masks, the canonical
(overall land mask) rasters, the non-land rasters, the working areas and the diagnostics.
The code rasters `region_raster`, `ctryaez_raster`, `regionaez_raster`, `country_out`,
`aez_out` and their non-land counterparts are float arrays; the integers kept for them here
are the float values, a conversion to float being `float_round`. -/
structure Cell where
  land_mask_aez_orig : Int
  land_mask_aez_new : Int
  land_mask_sage : Int
  land_mask_hyde : Int
  land_mask_fao : Int
  land_mask_potveg : Int
  land_mask_refveg : Int
  land_mask_forest : Int
  land_mask_ctryaez : Int
  country87_gtap : Int
  region_gcam : Int
  region_raster : Int
  ctryaez_raster : Int
  regionaez_raster : Int
  country_out : Int
  aez_out : Int
  valid_land_area : ℚ
  region_raster_noland : Int
  ctryaez_raster_noland : Int
  regionaez_raster_noland : Int
  country_out_noland : Int
  aez_out_noland : Int
  cropland_area : ℚ
  pasture_area : ℚ
  urban_area : ℚ
  refveg_area : ℚ
  lu_detail_area : Nat → ℚ
  refveg_thematic : Int
  sage_minus_hyde_land_area : ℚ
  glacier_water_area_hyde : ℚ
  missing_aez_mask : Int

/-- The land-cell index lists with their counters. -/
structure CellLists where
  land_cells_aez_new : Nat → Nat
  num_land_cells_aez_new : Nat
  land_cells_sage : Nat → Nat
  num_land_cells_sage : Nat
  land_cells_hyde : Nat → Nat
  num_land_cells_hyde : Nat
  forest_cells : Nat → Nat
  num_forest_cells : Nat

/-- The area-tracking accumulators of `get_land_cells`. -/
structure Ledger where
  total_sage_land_area : ℚ
  extra_sage_area : ℚ
  new_aez_sage_area_lost : ℚ
  orig_aez_sage_area_lost : ℚ
  potveg_sage_area_lost : ℚ
  fao_sage_area_lost : ℚ
  fao_new_aez_sage_area_lost : ℚ
  total_hyde_land_area : ℚ
  extra_hyde_area : ℚ
  new_aez_hyde_area_lost : ℚ
  orig_aez_hyde_area_lost : ℚ
  potveg_hyde_area_lost : ℚ
  fao_hyde_area_lost : ℚ
  fao_new_aez_hyde_area_lost : ℚ

/-- The mutable program state touched by the embedded functions. -/
structure State where
  cell : Nat → Cell
  lists : CellLists
  ledger : Ledger
  NUM_LU_CELLS : Nat
  rand_order : List (List Nat)

/-- Array store `a[i] = v`. -/
def store {α : Type} (a : Nat → α) (i : Nat) (v : α) : Nat → α :=
  fun j => if j = i then v else a j

/-- The assignments `a[i] = ...` of one statement group: `f` rewrites the record of cell `i`. -/
def State.upd (s : State) (i : Nat) (f : Cell → Cell) : State :=
  { s with cell := store s.cell i (f (s.cell i)) }

/-- Control flow out of one pass through the body of the cell loop:
fall through to the end of the body, `continue`, or `return err`. -/
inductive Flow where
  | next (s : State)
  | cont (s : State)
  | ret (err : Int) (s : State)

/-- The state carried by a `Flow`. -/
def Flow.state : Flow → State
  | .next s => s
  | .cont s => s
  | .ret _ s => s

/-- The table search `for (j = 0; j < NUM_FAO_CTRY; j++) if (countrycodes_fao[j] == code) ...break`,
started at `j` with `n` entries left; the result is `NOMATCH` when no entry matches. -/
def find_code (NOMATCH : Int) (countrycodes_fao : Int → Int) (code : Int) : Nat → Nat → Int
  | 0, _ => NOMATCH
  | n + 1, j =>
    if countrycodes_fao (j : Int) = code then (j : Int)
    else find_code NOMATCH countrycodes_fao code n (j + 1)

/-- The index of `code` in the country table, `NOMATCH` when absent. -/
def fao_index_of (c : Consts) (g : Grids) (code : Int) : Int :=
  find_code c.NOMATCH g.countrycodes_fao code c.NUM_FAO_CTRY 0

/-- The fao code for serbia and montenegro. -/
def scg_code : Int := 186

/-- The fao code for serbia. -/
def srb_code : Int := 272

/-- The fao code for montenegro. -/
def mne_code : Int := 273

/-- Lines 226-248: reset the masks and the country maps of cell `i`. -/
def init_cell (c : Consts) (i : Nat) (s : State) : State :=
  s.upd i fun r =>
    { r with
      land_mask_aez_orig := 0
      land_mask_aez_new := 0
      land_mask_sage := 0
      land_mask_hyde := 0
      land_mask_fao := 0
      land_mask_potveg := 0
      land_mask_refveg := 0
      land_mask_forest := 0
      land_mask_ctryaez := 0
      country87_gtap := c.NODATA
      glacier_water_area_hyde := (c.NODATA : ℚ)
      region_gcam := c.NODATA
      region_raster := c.NODATA
      region_raster_noland := c.NODATA
      ctryaez_raster := c.NODATA
      ctryaez_raster_noland := c.NODATA
      regionaez_raster := c.NODATA
      regionaez_raster_noland := c.NODATA
      country_out := c.NODATA
      country_out_noland := c.NODATA
      aez_out := c.NODATA
      aez_out_noland := c.NODATA }

/-- Lines 250-253: the original aez mask. -/
def mask_aez_orig (ri : rinfo_struct) (g : Grids) (i : Nat) (s : State) : State :=
  if g.aez_bounds_orig i ≠ ri.aez_orig_nodata then
    s.upd i fun r => { r with land_mask_aez_orig := 1 }
  else s

/-- Lines 254-258: the new aez mask and cell list. -/
def mask_aez_new (ri : rinfo_struct) (g : Grids) (i : Nat) (s : State) : State :=
  if g.aez_bounds_new i ≠ ri.aez_new_nodata then
    { s with
      lists :=
        { s.lists with
          land_cells_aez_new := store s.lists.land_cells_aez_new s.lists.num_land_cells_aez_new i
          num_land_cells_aez_new := s.lists.num_land_cells_aez_new + 1 } }.upd i
      fun r => { r with land_mask_aez_new := 1 }
  else s

/-- Lines 259-263: the sage mask and cell list. -/
def mask_sage (ri : rinfo_struct) (g : Grids) (i : Nat) (s : State) : State :=
  if g.land_area_sage i ≠ ri.land_area_sage_nodata then
    { s with
      lists :=
        { s.lists with
          land_cells_sage := store s.lists.land_cells_sage s.lists.num_land_cells_sage i
          num_land_cells_sage := s.lists.num_land_cells_sage + 1 } }.upd i
      fun r => { r with land_mask_sage := 1 }
  else s

/-- Lines 264-274: the hyde mask and cell list, and the residual water/ice area. -/
def mask_hyde (ri : rinfo_struct) (g : Grids) (i : Nat) (s : State) : State :=
  if g.land_area_hyde i ≠ ri.land_area_hyde_nodata then
    let s1 : State :=
      { s with
        lists :=
          { s.lists with
            land_cells_hyde := store s.lists.land_cells_hyde s.lists.num_land_cells_hyde i
            num_land_cells_hyde := s.lists.num_land_cells_hyde + 1 } }.upd i
        fun r => { r with land_mask_hyde := 1 }
    if g.cell_area_hyde i ≠ ri.cell_area_hyde_nodata then
      s1.upd i fun r =>
        { r with glacier_water_area_hyde := g.cell_area_hyde i - g.land_area_hyde i }
    else s1
  else s

/-- Lines 275-283: the fao country mask. -/
def mask_fao (ri : rinfo_struct) (g : Grids) (i : Nat) (s : State) : State :=
  if g.country_fao i ≠ ri.country_fao_nodata then
    s.upd i fun r => { r with land_mask_fao := 1 }
  else s

/-- Lines 284-287: the potential vegetation mask. -/
def mask_potveg (ri : rinfo_struct) (g : Grids) (i : Nat) (s : State) : State :=
  if g.potveg_thematic i ≠ ri.potveg_nodata then
    s.upd i fun r => { r with land_mask_potveg := 1 }
  else s

/-- Lines 250-287: the six per-dataset masks, in source order. -/
def set_masks (ri : rinfo_struct) (g : Grids) (i : Nat) (s : State) : State :=
  mask_potveg ri g i (mask_fao ri g i (mask_hyde ri g i (mask_sage ri g i
    (mask_aez_new ri g i (mask_aez_orig ri g i s)))))

/-- The statement `if (guard) acc = acc + a;`. -/
def add_if (b : Prop) [Decidable b] (acc a : ℚ) : ℚ :=
  if b then acc + a else acc

/-- Lines 290-311: the sage area differences of a cell with record `m`. -/
def track_sage (g : Grids) (i : Nat) (m : Cell) (l : Ledger) : Ledger :=
  if m.land_mask_sage = 1 then
    { l with
      total_sage_land_area := l.total_sage_land_area + g.land_area_sage i
      extra_sage_area := add_if (m.land_mask_hyde = 0) l.extra_sage_area (g.land_area_sage i)
      new_aez_sage_area_lost :=
        add_if (m.land_mask_aez_new = 0) l.new_aez_sage_area_lost (g.land_area_sage i)
      orig_aez_sage_area_lost :=
        add_if (m.land_mask_aez_orig = 0) l.orig_aez_sage_area_lost (g.land_area_sage i)
      potveg_sage_area_lost :=
        add_if (m.land_mask_potveg = 0) l.potveg_sage_area_lost (g.land_area_sage i)
      fao_sage_area_lost :=
        add_if (m.land_mask_fao = 0) l.fao_sage_area_lost (g.land_area_sage i)
      fao_new_aez_sage_area_lost :=
        add_if (m.land_mask_fao = 0 ∨ m.land_mask_aez_new = 0)
          l.fao_new_aez_sage_area_lost (g.land_area_sage i) }
  else l

/-- Lines 312-333: the hyde area differences of a cell with record `m`. -/
def track_hyde (g : Grids) (i : Nat) (m : Cell) (l : Ledger) : Ledger :=
  if m.land_mask_hyde = 1 then
    { l with
      total_hyde_land_area := l.total_hyde_land_area + g.land_area_hyde i
      extra_hyde_area := add_if (m.land_mask_sage = 0) l.extra_hyde_area (g.land_area_hyde i)
      new_aez_hyde_area_lost :=
        add_if (m.land_mask_aez_new = 0) l.new_aez_hyde_area_lost (g.land_area_hyde i)
      orig_aez_hyde_area_lost :=
        add_if (m.land_mask_aez_orig = 0) l.orig_aez_hyde_area_lost (g.land_area_hyde i)
      potveg_hyde_area_lost :=
        add_if (m.land_mask_potveg = 0) l.potveg_hyde_area_lost (g.land_area_hyde i)
      fao_hyde_area_lost :=
        add_if (m.land_mask_fao = 0) l.fao_hyde_area_lost (g.land_area_hyde i)
      fao_new_aez_hyde_area_lost :=
        add_if (m.land_mask_fao = 0 ∨ m.land_mask_aez_new = 0)
          l.fao_new_aez_hyde_area_lost (g.land_area_hyde i) }
  else l

/-- Lines 289-333: both groups of area accumulators. -/
def track_area (g : Grids) (i : Nat) (s : State) : State :=
  { s with ledger := track_hyde g i (s.cell i) (track_sage g i (s.cell i) s.ledger) }

/-- Lines 349-351 for one cell:
`for (k = 0; k < NUM_HYDE_TYPES - NUM_HYDE_TYPES_MAIN; k++) lu_detail_area[k][i] = v`. -/
def set_detail (K : Nat) (d : Nat → ℚ) (v : ℚ) : Nat → ℚ :=
  fun k => if k < K then v else d k

/-- Lines 335-341: the sage-minus-hyde difference where the two land areas overlap. -/
def overlap_diff (ri : rinfo_struct) (g : Grids) (i : Nat) (s : State) : State :=
  if g.land_area_hyde i ≠ ri.land_area_hyde_nodata ∧
      g.land_area_sage i ≠ ri.land_area_sage_nodata then
    s.upd i fun r =>
      { r with sage_minus_hyde_land_area := g.land_area_sage i - g.land_area_hyde i }
  else s

/-- Lines 343-354: reset the working area arrays and the aez diagnostic mask. -/
def init_working (c : Consts) (i : Nat) (s : State) : State :=
  s.upd i fun r =>
    { r with
      cropland_area := (c.NODATA : ℚ)
      pasture_area := (c.NODATA : ℚ)
      urban_area := (c.NODATA : ℚ)
      refveg_area := (c.NODATA : ℚ)
      sage_minus_hyde_land_area := (c.NODATA : ℚ)
      lu_detail_area :=
        set_detail (c.NUM_HYDE_TYPES - c.NUM_HYDE_TYPES_MAIN) r.lu_detail_area (c.NODATA : ℚ)
      missing_aez_mask := 0 }

/-- The exponent of the unit in the last place of a float of magnitude `a`: the least `e`
with `a / 2 ^ e < 2 ^ 24`, found by halving at most `fuel` times. -/
def float_ulp_exp : Nat → Nat → Nat
  | 0, _ => 0
  | fuel + 1, a => if a < 2 ^ 24 then 0 else float_ulp_exp fuel (a / 2) + 1

/-- The magnitude `a` rounded to a float: the nearest integer with a significand of 24
bits, a tie going to the even significand.  Magnitudes up to `2 ^ 24` are kept. -/
def float_mag (a : Nat) : Nat :=
  let e := float_ulp_exp a a
  let q := a / 2 ^ e
  let r := a % 2 ^ e
  let m := if 2 ^ e < 2 * r ∨ (2 * r = 2 ^ e ∧ q % 2 = 1) then q + 1 else q
  m * 2 ^ e

/-- The C conversion `(float) n` of an integer, and the rounding of an integer result of
float arithmetic, to the nearest float.  The codes are C `int`s, so no value comes near the
largest float. -/
def float_round (n : Int) : Int :=
  if n < 0 then -(float_mag n.natAbs : Int) else (float_mag n.natAbs : Int)

/-- The integer `n` is a float value for certain: its magnitude is at most `2 ^ 24`. -/
def float_exact (n : Int) : Prop := n.natAbs ≤ 2 ^ 24

instance (n : Int) : Decidable (float_exact n) := by
  unfold float_exact; infer_instance

/-- Lines 396-398, 418-420, 459-461 and 476-478: the C expression
`(float) p * FAOCTRY2GCAMCTRYAEZID + z` for a code `p` and an `int` zone code `z`.  The code
is converted to float, the integer multiplier and the zone code are converted to float by
the usual arithmetic conversions, and the product and the sum are each rounded to float. -/
def composite_code (c : Consts) (p z : Int) : Int :=
  float_round (float_round (float_round p * float_round c.FAOCTRY2GCAMCTRYAEZID) + float_round z)

/-- Lines 384-422: store the codes of a working land cell whose country index is `fao_index`.
The rasters `region_raster`, `country_out`, `aez_out`, `ctryaez_raster` and
`regionaez_raster` are float arrays: what they hold is the float value of the code. -/
def canonical_store (c : Consts) (g : Grids) (i : Nat) (fao_index : Int) (s : State) : State :=
  if g.ctry2ctry87codes_gtap fao_index ≠ c.NOMATCH then
    let s1 : State := s.upd i fun r => { r with country87_gtap := g.ctry2ctry87codes_gtap fao_index }
    let s2 : State :=
      if g.ctry2regioncodes_gcam fao_index ≠ c.NOMATCH then
        s1.upd i fun r =>
          { r with
            region_gcam := g.ctry2regioncodes_gcam fao_index
            valid_land_area := g.land_area_hyde i
            region_raster := float_round (g.ctry2regioncodes_gcam fao_index) }
      else s1
    s2.upd i fun r =>
      { r with
        aez_out := float_round (g.aez_bounds_new i)
        country_out := float_round (g.country_fao i)
        ctryaez_raster := composite_code c (g.country_fao i) (g.aez_bounds_new i)
        regionaez_raster :=
          composite_code c (g.ctry2regioncodes_gcam fao_index) (g.aez_bounds_new i) }
  else if g.countrycodes_fao fao_index = srb_code ∨ g.countrycodes_fao fao_index = mne_code then
    let scg_index := fao_index_of c g scg_code
    let s1 : State :=
      s.upd i fun r =>
        { r with
          country87_gtap := g.ctry2ctry87codes_gtap scg_index
          region_gcam := g.ctry2regioncodes_gcam scg_index
          region_raster := float_round (g.ctry2regioncodes_gcam scg_index)
          valid_land_area := g.land_area_hyde i
          aez_out := float_round (g.aez_bounds_new i)
          country_out := float_round scg_code }
    let s2 : State :=
      s1.upd i fun r =>
        { r with ctryaez_raster := composite_code c r.country_out (g.aez_bounds_new i) }
    s2.upd i fun r =>
      { r with regionaez_raster := composite_code c r.region_gcam (g.aez_bounds_new i) }
  else s

/-- Lines 360-424: the working land cell block. -/
def canonical_block (c : Consts) (ri : rinfo_struct) (g : Grids) (i : Nat) (s : State) : Flow :=
  if (s.cell i).land_mask_hyde = 1 ∧ (s.cell i).land_mask_aez_new = 1 then
    if g.country_fao i ≠ ri.country_fao_nodata then
      if fao_index_of c g (g.country_fao i) = c.NOMATCH then .ret c.ERROR_IND s
      else .next (canonical_store c g i (fao_index_of c g (g.country_fao i)) s)
    else .cont s
  else .next s

/-- Lines 451-482: store the codes of a non-land cell whose country index is `fao_index`.
The non-land rasters are float arrays as well. -/
def noland_store (c : Consts) (g : Grids) (i : Nat) (fao_index : Int) (s : State) : State :=
  if g.ctry2ctry87codes_gtap fao_index ≠ c.NOMATCH then
    let s1 : State :=
      if g.ctry2regioncodes_gcam fao_index ≠ c.NOMATCH then
        s.upd i fun r =>
          { r with region_raster_noland := float_round (g.ctry2regioncodes_gcam fao_index) }
      else s
    s1.upd i fun r =>
      { r with
        country_out_noland := float_round (g.country_fao i)
        aez_out_noland := float_round (g.aez_bounds_new i)
        ctryaez_raster_noland := composite_code c (g.country_fao i) (g.aez_bounds_new i)
        regionaez_raster_noland :=
          composite_code c (g.ctry2regioncodes_gcam fao_index) (g.aez_bounds_new i) }
  else if g.countrycodes_fao fao_index = srb_code ∨ g.countrycodes_fao fao_index = mne_code then
    let scg_index := fao_index_of c g scg_code
    let s1 : State :=
      s.upd i fun r =>
        { r with
          region_raster_noland := float_round (g.ctry2regioncodes_gcam scg_index)
          country_out_noland := float_round scg_code
          aez_out_noland := float_round (g.aez_bounds_new i) }
    let s2 : State :=
      s1.upd i fun r =>
        { r with
          ctryaez_raster_noland := composite_code c r.country_out_noland (g.aez_bounds_new i) }
    s2.upd i fun r =>
      { r with
        regionaez_raster_noland :=
          composite_code c r.region_raster_noland (g.aez_bounds_new i) }
  else s

/-- Lines 427-484: the non-land cell block. -/
def noland_block (c : Consts) (ri : rinfo_struct) (g : Grids) (i : Nat) (s : State) : Flow :=
  if (s.cell i).land_mask_hyde ≠ 1 ∧ (s.cell i).land_mask_aez_new = 1 then
    if g.country_fao i ≠ ri.country_fao_nodata then
      if fao_index_of c g (g.country_fao i) = c.NOMATCH then .ret c.ERROR_IND s
      else .next (noland_store c g i (fao_index_of c g (g.country_fao i)) s)
    else .cont s
  else .next s

/-- Lines 226-354: the body of the cell loop up to the working land cell block. -/
def pre_blocks (c : Consts) (ri : rinfo_struct) (g : Grids) (i : Nat) (s : State) : State :=
  init_working c i (overlap_diff ri g i (track_area g i (set_masks ri g i (init_cell c i s))))

/-- Lines 226-484: one pass through the body of the loop over all grid cells. -/
def cell_body (c : Consts) (ri : rinfo_struct) (g : Grids) (i : Nat) (s : State) : Flow :=
  match canonical_block c ri g i (pre_blocks c ri g i s) with
  | .next s1 => noland_block c ri g i s1
  | .cont s1 => .cont s1
  | .ret err s1 => .ret err s1

/-- Lines 225-492: `for (i = ...; i < NUM_CELLS; i++)` with `n` cells left; a `return`
inside the body leaves the function with its error code, otherwise the function goes on
to the raster writers and returns `OK`. -/
def cell_loop (c : Consts) (ri : rinfo_struct) (g : Grids) : Nat → Nat → State → Int × State
  | 0, _, s => (OK, s)
  | n + 1, i, s =>
    match cell_body c ri g i s with
    | .next s1 => cell_loop c ri g n (i + 1) s1
    | .cont s1 => cell_loop c ri g n (i + 1) s1
    | .ret err s1 => (err, s1)

/-- Lines 116-129 and 162-221: the accumulators start at zero and the local rasters are
allocated with `calloc`. -/
def enter_get_land_cells (s : State) : State :=
  { s with
    ledger :=
      { total_sage_land_area := 0, extra_sage_area := 0, new_aez_sage_area_lost := 0
        orig_aez_sage_area_lost := 0, potveg_sage_area_lost := 0, fao_sage_area_lost := 0
        fao_new_aez_sage_area_lost := 0, total_hyde_land_area := 0, extra_hyde_area := 0
        new_aez_hyde_area_lost := 0, orig_aez_hyde_area_lost := 0, potveg_hyde_area_lost := 0
        fao_hyde_area_lost := 0, fao_new_aez_hyde_area_lost := 0 }
    cell := fun j =>
      { s.cell j with
        ctryaez_raster := 0, regionaez_raster := 0, country_out := 0, aez_out := 0
        region_raster := 0, ctryaez_raster_noland := 0, regionaez_raster_noland := 0
        country_out_noland := 0, region_raster_noland := 0, aez_out_noland := 0
        valid_land_area := 0 } }

/-- The function `get_land_cells`: its return code and the state it leaves. -/
def get_land_cells (c : Consts) (ri : rinfo_struct) (g : Grids) (s : State) : Int × State :=
  cell_loop c ri g c.NUM_CELLS 0 (enter_get_land_cells s)

/-- The code occurs in the country-code table `countrycodes_fao[0..NUM_FAO_CTRY)`. -/
def in_table (c : Consts) (g : Grids) (code : Int) : Prop :=
  ∃ j, j < c.NUM_FAO_CTRY ∧ g.countrycodes_fao (j : Int) = code

instance (c : Consts) (g : Grids) (code : Int) : Decidable (in_table c g code) := by
  unfold in_table; infer_instance

/-- The condition under which the pass through the loop body at cell `i` executes
`return ERROR_IND`: valid new zone, valid raw country code, and a table search that
ends with `fao_index == NOMATCH`. -/
def index_error (c : Consts) (ri : rinfo_struct) (g : Grids) (i : Nat) : Prop :=
  g.aez_bounds_new i ≠ ri.aez_new_nodata ∧ g.country_fao i ≠ ri.country_fao_nodata ∧
    fao_index_of c g (g.country_fao i) = c.NOMATCH

instance (c : Consts) (ri : rinfo_struct) (g : Grids) (i : Nat) :
    Decidable (index_error c ri g i) := by
  unfold index_error; infer_instance

/-- Two grids hold the same input values at cell `i` and the same lookup tables. -/
structure SameAt (g g' : Grids) (i : Nat) : Prop where
  aez_bounds_orig : g.aez_bounds_orig i = g'.aez_bounds_orig i
  aez_bounds_new : g.aez_bounds_new i = g'.aez_bounds_new i
  land_area_sage : g.land_area_sage i = g'.land_area_sage i
  land_area_hyde : g.land_area_hyde i = g'.land_area_hyde i
  cell_area_hyde : g.cell_area_hyde i = g'.cell_area_hyde i
  country_fao : g.country_fao i = g'.country_fao i
  potveg_thematic : g.potveg_thematic i = g'.potveg_thematic i
  countrycodes_fao : g.countrycodes_fao = g'.countrycodes_fao
  ctry2ctry87codes_gtap : g.ctry2ctry87codes_gtap = g'.ctry2ctry87codes_gtap
  ctry2regioncodes_gcam : g.ctry2regioncodes_gcam = g'.ctry2regioncodes_gcam

/-- The working land cell block stores composite codes for cell `i`: the cell has hyde land
area, a new zone and a country code, and the country either has a ctry87 code or is
serbia or montenegro (lines 360, 362, 384 and 401). -/
def canonical_written (c : Consts) (ri : rinfo_struct) (g : Grids) (i : Nat) : Prop :=
  g.land_area_hyde i ≠ ri.land_area_hyde_nodata ∧ g.aez_bounds_new i ≠ ri.aez_new_nodata ∧
    g.country_fao i ≠ ri.country_fao_nodata ∧
    (g.ctry2ctry87codes_gtap (fao_index_of c g (g.country_fao i)) ≠ c.NOMATCH ∨
      g.countrycodes_fao (fao_index_of c g (g.country_fao i)) = srb_code ∨
      g.countrycodes_fao (fao_index_of c g (g.country_fao i)) = mne_code)

instance (c : Consts) (ri : rinfo_struct) (g : Grids) (i : Nat) :
    Decidable (canonical_written c ri g i) := by
  unfold canonical_written; infer_instance

/-- A lookup value that is a code: it is neither of the sentinels `NOMATCH` and `NODATA`. -/
def resolved (c : Consts) (v : Int) : Prop :=
  v ≠ c.NOMATCH ∧ v ≠ c.NODATA

instance (c : Consts) (v : Int) : Decidable (resolved c v) := by
  unfold resolved; infer_instance

/-- The seven canonical outputs of a cell record all hold `NODATA`. -/
def canonical_nodata (c : Consts) (r : Cell) : Prop :=
  r.country_out = c.NODATA ∧ r.ctryaez_raster = c.NODATA ∧ r.region_raster = c.NODATA ∧
    r.regionaez_raster = c.NODATA ∧ r.aez_out = c.NODATA ∧ r.country87_gtap = c.NODATA ∧
    r.region_gcam = c.NODATA

instance (c : Consts) (r : Cell) : Decidable (canonical_nodata c r) := by
  unfold canonical_nodata; infer_instance

/-- The five non-land rasters of a cell record all hold `NODATA`. -/
def noland_nodata (c : Consts) (r : Cell) : Prop :=
  r.country_out_noland = c.NODATA ∧ r.region_raster_noland = c.NODATA ∧
    r.aez_out_noland = c.NODATA ∧ r.ctryaez_raster_noland = c.NODATA ∧
    r.regionaez_raster_noland = c.NODATA

instance (c : Consts) (r : Cell) : Decidable (noland_nodata c r) := by
  unfold noland_nodata; infer_instance

/-- A cell record with every field zero. -/
def zero_cell : Cell :=
  { land_mask_aez_orig := 0, land_mask_aez_new := 0, land_mask_sage := 0, land_mask_hyde := 0
    land_mask_fao := 0, land_mask_potveg := 0, land_mask_refveg := 0, land_mask_forest := 0
    land_mask_ctryaez := 0, country87_gtap := 0, region_gcam := 0, region_raster := 0
    ctryaez_raster := 0, regionaez_raster := 0, country_out := 0, aez_out := 0
    valid_land_area := 0, region_raster_noland := 0, ctryaez_raster_noland := 0
    regionaez_raster_noland := 0, country_out_noland := 0, aez_out_noland := 0
    cropland_area := 0, pasture_area := 0, urban_area := 0, refveg_area := 0
    lu_detail_area := fun _ => 0, refveg_thematic := 0, sage_minus_hyde_land_area := 0
    glacier_water_area_hyde := 0, missing_aez_mask := 0 }

/-- The state at program start: zeroed arrays, empty lists (as set up by `init_moirai`). -/
def zero_state : State :=
  { cell := fun _ => zero_cell
    lists :=
      { land_cells_aez_new := fun _ => 0, num_land_cells_aez_new := 0
        land_cells_sage := fun _ => 0, num_land_cells_sage := 0
        land_cells_hyde := fun _ => 0, num_land_cells_hyde := 0
        forest_cells := fun _ => 0, num_forest_cells := 0 }
    ledger :=
      { total_sage_land_area := 0, extra_sage_area := 0, new_aez_sage_area_lost := 0
        orig_aez_sage_area_lost := 0, potveg_sage_area_lost := 0, fao_sage_area_lost := 0
        fao_new_aez_sage_area_lost := 0, total_hyde_land_area := 0, extra_hyde_area := 0
        new_aez_hyde_area_lost := 0, orig_aez_hyde_area_lost := 0, potveg_hyde_area_lost := 0
        fao_hyde_area_lost := 0, fao_new_aez_hyde_area_lost := 0 }
    NUM_LU_CELLS := 0
    rand_order := [] }

/-- Sample constants: a working grid of 2 rows and 4 columns, a country table of five
entries, multiplier 1000. -/
def demo_consts : Consts :=
  { ERROR_IND := 4, NODATA := -9999, NOMATCH := -1, FAOCTRY2GCAMCTRYAEZID := 1000
    NUM_CELLS := 8, NUM_FAO_CTRY := 5, NUM_LON := 4, NUM_HYDE_TYPES := 5
    NUM_HYDE_TYPES_MAIN := 3, NUM_LULC_TYPES := 2, MIN_SAGE_FOREST_CODE := 1
    MAX_SAGE_FOREST_CODE := 8 }

/-- Sample raster information: every dataset uses -9999 as nodata; the fine grid has 4
columns, the coarse grid 1 row of 2 cells, so each coarse cell covers 2 by 2 fine cells. -/
def demo_rinfo : rinfo_struct :=
  { aez_orig_nodata := -9999, aez_new_nodata := -9999, land_area_sage_nodata := -9999
    land_area_hyde_nodata := -9999, cell_area_hyde_nodata := -9999
    country_fao_nodata := -9999, potveg_nodata := -9999
    lu_ncols := 4, lulc_input_ncols := 2, lulc_input_ncells := 2 }

/-- Sample country table: codes 8, 272, 273, 186, 300. -/
def demo_codes : Int → Int := fun k =>
  if k = 0 then 8 else if k = 1 then 272 else if k = 2 then 273 else if k = 3 then 186
  else if k = 4 then 300 else 0

/-- Sample ctry87 lookup: country 8 maps to 3, the merged entry 186 to 40. -/
def demo_ctry87 : Int → Int := fun k => if k = 0 then 3 else if k = 3 then 40 else -1

/-- Sample region lookup: country 8 maps to region 5, the merged entry 186 to 13. -/
def demo_region : Int → Int := fun k => if k = 0 then 5 else if k = 3 then 13 else -1

/-- Sample grid.  Cell 0: land, zone 12, country 8.  Cell 1: no land, zone 12, country 8.
Cell 2: land, zone 7, serbia.  Cell 3: land, zone 7, montenegro.  Cell 4: land, zone 9, no
country.  Cell 5: land, zone 9, country 300 (no ctry87 code).  Cells 6 and 7: no land, no zone, no
country. -/
def demo_grid : Grids :=
  { aez_bounds_orig := fun _ => 1
    aez_bounds_new := fun i => if i ≤ 1 then 12 else if i ≤ 3 then 7 else if i ≤ 5 then 9 else -9999
    land_area_sage := fun i => if i ≤ 2 then 40 else -9999
    land_area_hyde := fun i => if i = 1 then -9999 else if i ≤ 5 then 50 else -9999
    cell_area_hyde := fun _ => 60
    country_fao := fun i =>
      if i ≤ 1 then 8 else if i = 2 then 272 else if i = 3 then 273 else if i = 5 then 300
      else -9999
    potveg_thematic := fun i => if i ≤ 3 then 4 else -9999
    countrycodes_fao := demo_codes
    ctry2ctry87codes_gtap := demo_ctry87
    ctry2regioncodes_gcam := demo_region
    lulc_input_grid := fun _ _ => 10 }

/-- The sample grid with a stray country code: cell 0 has no new zone and the raw country
code 999, which is not in the table. -/
def stray_grid : Grids :=
  { demo_grid with
    aez_bounds_new := fun i => if i = 0 then -9999 else demo_grid.aez_bounds_new i
    country_fao := fun i => if i = 0 then 999 else demo_grid.country_fao i }

/-- The sample grid with an unknown country at a zoned cell: cell 5 carries the raw country
code 999. -/
def unknown_grid : Grids :=
  { demo_grid with country_fao := fun i => if i = 5 then 999 else demo_grid.country_fao i }

/-- The sample grid with a country table in which the merged entry 186 has no ctry87 code
and no region. -/
def unmerged_grid : Grids :=
  { demo_grid with
    ctry2ctry87codes_gtap := fun k => if k = 0 then 3 else -1
    ctry2regioncodes_gcam := fun k => if k = 0 then 5 else -1 }

/-- The counted loop `for (k = lo; k < lo + n; k++) body`, without `break` or `return`. -/
def for_loop {σ : Type} (body : Nat → σ → σ) : Nat → Nat → σ → σ
  | 0, _, s => s
  | n + 1, lo, s => for_loop body n (lo + 1) (body lo s)

/-- Lines 157-159: `for (j = 0; j < NUM_LU_CELLS; j++) rand_order[i][j] = j`. -/
def fill_identity (N : Nat) (row : List Nat) : List Nat :=
  for_loop (fun j r => r.set j j) N 0 row

/-- Lines 162-164: exchange the entries `j` and `m` of a row through `temp_int`. -/
def swap_entries (row : List Nat) (j m : Nat) : List Nat :=
  (row.set j (row.getD m 0)).set m (row.getD j 0)

/-- Lines 160-165: `for (j = NUM_LU_CELLS - 1; j > 0; j--)` entered with loop variable `j`;
the state is the row and the number of calls of `rand()` made so far, and `rnd k` is the
value returned by call number `k`. -/
def shuffle_loop (rnd : Nat → Nat) : Nat → List Nat × Nat → List Nat × Nat
  | 0, p => p
  | j + 1, p => shuffle_loop rnd j (swap_entries p.1 (j + 1) (rnd p.2 % (j + 1 + 1)), p.2 + 1)

/-- Lines 149-165: allocate one row of `rand_order` with `calloc`, fill it with the
identity and shuffle it. -/
def build_row (rnd : Nat → Nat) (N : Nat) (k : Nat) : List Nat × Nat :=
  shuffle_loop rnd (N - 1) (fill_identity N (List.replicate N 0), k)

/-- Lines 143-166: allocate `rand_order` and build the row of every coarse cell. -/
def build_rand_order (rnd : Nat → Nat) (ncells_lulc N : Nat) : List (List Nat) × Nat :=
  for_loop
    (fun i (p : List (List Nat) × Nat) =>
      ((p.1.set i (build_row rnd N p.2).1), (build_row rnd N p.2).2))
    ncells_lulc 0 (List.replicate ncells_lulc [], 0)

/-- Index in `lu_area` of urban values. -/
def urban_ind : Nat := 0

/-- Index in `lu_area` of cropland values. -/
def crop_ind : Nat := 1

/-- Index in `lu_area` of pasture values. -/
def pasture_ind : Nat := 2

/-- The block buffers of `calc_refveg_area`, indexed by the position in the block. -/
structure Buffers where
  lu_indices : Nat → Nat
  lu_area : Nat → Nat → ℚ
  refveg_area_out : Nat → ℚ
  refveg_them : Nat → Int

/-- Lines 224-233: the body of the column loop, for row `m` and column `n`; the state is
the buffers and `count`. -/
def fill_cell (c : Consts) (s : State) (m n : Nat) (p : Buffers × Nat) : Buffers × Nat :=
  let idx := m * c.NUM_LON + n
  let row0 := store (store (store (p.1.lu_area p.2) urban_ind (s.cell idx).urban_area)
    crop_ind (s.cell idx).cropland_area) pasture_ind (s.cell idx).pasture_area
  let row1 := for_loop
    (fun j r => store r j ((s.cell idx).lu_detail_area (j - c.NUM_HYDE_TYPES_MAIN)))
    (c.NUM_HYDE_TYPES - c.NUM_HYDE_TYPES_MAIN) c.NUM_HYDE_TYPES_MAIN row0
  ({ lu_indices := store p.1.lu_indices p.2 idx
     lu_area := store p.1.lu_area p.2 row1
     refveg_area_out := store p.1.refveg_area_out p.2 0
     refveg_them := store p.1.refveg_them p.2 0 }, p.2 + 1)

/-- Lines 221-235: `count = 0` and the row and column loops over the block whose upper
left corner is `(grid_y_ul, grid_x_ul)`. -/
def fill_block (c : Consts) (s : State) (num_split grid_y_ul grid_x_ul : Nat) (b : Buffers) :
    Buffers × Nat :=
  for_loop (fun m p => for_loop (fun n q => fill_cell c s m n q) num_split grid_x_ul p)
    num_split grid_y_ul (b, 0)

/-- Line 138, for column counts that are natural numbers: the number of working grid cells
in one dimension of one lulc cell.  The line on C `int`s, which a hyde header with a negative
column count reaches, is `num_split_int`. -/
def num_split (ri : rinfo_struct) : Nat :=
  ri.lu_ncols / ri.lulc_input_ncols

/-- Lines 216-219: the row of the upper left corner of coarse cell `i`.  For the integer
values at hand `modf` of the integer quotient is that quotient. -/
def grid_y_ul (ri : rinfo_struct) (i : Nat) : Nat :=
  (i / ri.lulc_input_ncols) * num_split ri

/-- Lines 216-219: the column of the upper left corner of coarse cell `i`.  For the integer
values at hand `fmod` is the integer remainder. -/
def grid_x_ul (ri : rinfo_struct) (i : Nat) : Nat :=
  (i % ri.lulc_input_ncols) * num_split ri

/-- Lines 214-235: the buffers and `count` after the index loops of coarse cell `i`. -/
def fill_coarse (c : Consts) (ri : rinfo_struct) (s : State) (i : Nat) (b : Buffers) :
    Buffers × Nat :=
  fill_block c s (num_split ri) (grid_y_ul ri i) (grid_x_ul ri i) b

/-- What a call of `proc_lulc_area` leaves: its return code and the contents of the
buffers it may write. -/
structure LulcOut where
  err : Int
  lu_area : Nat → Nat → ℚ
  refveg_area_out : Nat → ℚ
  refveg_them : Nat → Int

/-- The function `proc_lulc_area` is not part of the sources; it is a parameter of the
embedding.  Arguments: `lulc_area`, `lu_indices`, `lu_area`, `refveg_area_out`,
`refveg_them`, `num_lu_cells`, `lulc_index`, and the globals it can read. -/
abbrev ProcLulc : Type :=
  (Nat → ℚ) → (Nat → Nat) → (Nat → Nat → ℚ) → (Nat → ℚ) → (Nat → Int) → Nat → Nat →
    Grids → State → LulcOut

/-- What the readers `read_hyde32` and `read_lulc_isam` leave: their return codes and the
contents of the land use arrays after `read_hyde32`. -/
structure Reads where
  hyde_err : Int
  lulc_err : Int
  crop_grid : Nat → ℚ
  pasture_grid : Nat → ℚ
  urban_grid : Nat → ℚ
  lu_detail_area : Nat → Nat → ℚ

/-- Line 115: the land use arrays after `read_hyde32`. -/
def load_hyde (rd : Reads) (s : State) : State :=
  { s with
    cell := fun j =>
      { s.cell j with
        cropland_area := rd.crop_grid j
        pasture_area := rd.pasture_grid j
        urban_area := rd.urban_grid j
        lu_detail_area := fun k => rd.lu_detail_area k j } }

/-- Lines 254-286: store the areas of block position `j` in the working grid. -/
def store_back (c : Consts) (ri : rinfo_struct) (g : Grids) (b : Buffers) (j : Nat)
    (s : State) : State :=
  if g.land_area_hyde (b.lu_indices j) ≠ ri.land_area_hyde_nodata then
    let s1 : State :=
      s.upd (b.lu_indices j) fun r =>
        { r with
          cropland_area := b.lu_area j crop_ind
          pasture_area := b.lu_area j pasture_ind
          urban_area := b.lu_area j urban_ind
          lu_detail_area :=
            for_loop (fun m d => store d (m - c.NUM_HYDE_TYPES_MAIN) (b.lu_area j m))
              (c.NUM_HYDE_TYPES - c.NUM_HYDE_TYPES_MAIN) c.NUM_HYDE_TYPES_MAIN r.lu_detail_area
          refveg_area := b.refveg_area_out j
          refveg_thematic := b.refveg_them j }
    if (s1.cell (b.lu_indices j)).refveg_thematic ≠ ri.potveg_nodata then
      let s2 : State := s1.upd (b.lu_indices j) fun r => { r with land_mask_refveg := 1 }
      if (s2.cell (b.lu_indices j)).refveg_thematic ≤ c.MAX_SAGE_FOREST_CODE ∧
          (s2.cell (b.lu_indices j)).refveg_thematic ≥ c.MIN_SAGE_FOREST_CODE then
        { s2 with
          lists :=
            { s2.lists with
              forest_cells := store s2.lists.forest_cells s2.lists.num_forest_cells (b.lu_indices j)
              num_forest_cells := s2.lists.num_forest_cells + 1 } }.upd (b.lu_indices j)
          fun r => { r with land_mask_forest := 1 }
      else s2
    else s1
  else
    s.upd (b.lu_indices j) fun r =>
      { r with
        cropland_area := (c.NODATA : ℚ)
        pasture_area := (c.NODATA : ℚ)
        urban_area := (c.NODATA : ℚ)
        lu_detail_area :=
          for_loop (fun m d => store d (m - c.NUM_HYDE_TYPES_MAIN) (c.NODATA : ℚ))
            (c.NUM_HYDE_TYPES - c.NUM_HYDE_TYPES_MAIN) c.NUM_HYDE_TYPES_MAIN r.lu_detail_area
        refveg_area := (c.NODATA : ℚ)
        refveg_thematic := ri.potveg_nodata }

/-- The local variables that live across the passes of the loop over the coarse cells. -/
structure Locals where
  err : Int
  buf : Buffers
  s : State

/-- Lines 203-294: one pass through the body of the loop over the coarse lulc cells; an
`error` result is a `return` with the given code. -/
def coarse_body (c : Consts) (ri : rinfo_struct) (g : Grids) (proc : ProcLulc)
    (i : Nat) (L : Locals) : Except (Int × State) Locals :=
  let lulc_area : Nat → ℚ := fun j => if j < c.NUM_LULC_TYPES then g.lulc_input_grid j i else 0
  let filled := fill_coarse c ri L.s i L.buf
  if filled.2 ≠ L.s.NUM_LU_CELLS then .error (L.err, L.s)
  else
    let out := proc lulc_area filled.1.lu_indices filled.1.lu_area filled.1.refveg_area_out
      filled.1.refveg_them L.s.NUM_LU_CELLS i g L.s
    if out.err ≠ OK then .error (out.err, L.s)
    else
      let b : Buffers :=
        { lu_indices := filled.1.lu_indices, lu_area := out.lu_area
          refveg_area_out := out.refveg_area_out, refveg_them := out.refveg_them }
      .ok { err := out.err, buf := b, s := for_loop (store_back c ri g b) L.s.NUM_LU_CELLS 0 L.s }

/-- Lines 203-335: `for (i = ...; i < ncells_lulc; i++)` with `n` coarse cells left; after
the loop the function returns `OK`. -/
def coarse_loop (c : Consts) (ri : rinfo_struct) (g : Grids) (proc : ProcLulc) :
    Nat → Nat → Locals → Int × State
  | 0, _, L => (OK, L.s)
  | n + 1, i, L =>
    match coarse_body c ri g proc i L with
    | .error r => r
    | .ok L1 => coarse_loop c ri g proc n (i + 1) L1

/-- The block buffers as allocated with `calloc`. -/
def zero_buffers : Buffers :=
  { lu_indices := fun _ => 0, lu_area := fun _ _ => 0, refveg_area_out := fun _ => 0
    refveg_them := fun _ => 0 }

/-- The function `calc_refveg_area`: its return code and the state it leaves.  The
raster information `ri` is the one the two readers have filled in. -/
def calc_refveg_area (c : Consts) (ri : rinfo_struct) (g : Grids) (rnd : Nat → Nat)
    (rd : Reads) (proc : ProcLulc) (s : State) : Int × State :=
  if rd.hyde_err ≠ OK then (rd.hyde_err, load_hyde rd s)
  else if rd.lulc_err ≠ OK then (rd.lulc_err, load_hyde rd s)
  else
    let s1 : State :=
      { load_hyde rd s with
        NUM_LU_CELLS := num_split ri * num_split ri
        rand_order :=
          (build_rand_order rnd ri.lulc_input_ncells (num_split ri * num_split ri)).1 }
    coarse_loop c ri g proc ri.lulc_input_ncells 0
      { err := rd.lulc_err, buf := zero_buffers, s := s1 }

/-- Sample raster information of a coarse grid that covers only the first row of the fine
grid: one row of 4 coarse cells, each as large as one fine cell. -/
def flat_rinfo : rinfo_struct :=
  { demo_rinfo with lulc_input_ncols := 4, lulc_input_ncells := 4 }

/-- Sample outcome of the readers: both succeed; cropland 7, pasture 2, urban 1 and detail
areas 3 in every cell. -/
def demo_reads : Reads :=
  { hyde_err := 0, lulc_err := 0, crop_grid := fun _ => 7, pasture_grid := fun _ => 2
    urban_grid := fun _ => 1, lu_detail_area := fun _ _ => 3 }

/-- Sample behaviour of `proc_lulc_area`: it succeeds, keeps the land use areas, and gives
every cell of the block the reference vegetation area 1, with the forest class 4 at block
position 0 and class 11 elsewhere. -/
def demo_proc : ProcLulc :=
  fun _ _ lu_area _ _ _ _ _ _ =>
    { err := 0, lu_area := lu_area, refveg_area_out := fun _ => 1
      refveg_them := fun j => if j = 0 then 4 else 11 }

/-- Sample values returned by `rand()`. -/
def demo_rand : Nat → Nat := fun k => k * 7 + 3

/-- Mask hierarchy of a state: forest implies reference vegetation, reference vegetation
implies hyde land area, and every stored forest cell has reference vegetation and hyde
land area. -/
def mask_hierarchy (ri : rinfo_struct) (g : Grids) (s : State) : Prop :=
  (∀ f, (s.cell f).land_mask_forest = 1 → (s.cell f).land_mask_refveg = 1) ∧
  (∀ f, (s.cell f).land_mask_refveg = 1 → g.land_area_hyde f ≠ ri.land_area_hyde_nodata) ∧
  (∀ k, k < s.lists.num_forest_cells →
    (s.cell (s.lists.forest_cells k)).land_mask_refveg = 1 ∧
      g.land_area_hyde (s.lists.forest_cells k) ≠ ri.land_area_hyde_nodata)

/-- The land use areas, the reference vegetation area and class of a cell record hold
their nodata values. -/
def nodata_areas (c : Consts) (ri : rinfo_struct) (r : Cell) : Prop :=
  r.cropland_area = (c.NODATA : ℚ) ∧ r.pasture_area = (c.NODATA : ℚ) ∧
    r.urban_area = (c.NODATA : ℚ) ∧
    (∀ k, k < c.NUM_HYDE_TYPES - c.NUM_HYDE_TYPES_MAIN → r.lu_detail_area k = (c.NODATA : ℚ)) ∧
    r.refveg_area = (c.NODATA : ℚ) ∧ r.refveg_thematic = ri.potveg_nodata

/-- The fine cell at position `k` of the block of coarse cell `i` (lines 216-224). -/
def block_cell (c : Consts) (ri : rinfo_struct) (i k : Nat) : Nat :=
  (grid_y_ul ri i + k / num_split ri) * c.NUM_LON + (grid_x_ul ri i + k % num_split ri)

/-- No fine cell is enumerated twice by the index loops of lines 216-235: two positions of
coarse blocks that hold the same fine cell id are the same position of the same block.  The
blocks of two coarse cells are then disjoint. -/
def blocks_disjoint (c : Consts) (ri : rinfo_struct) : Prop :=
  ∀ i, i < ri.lulc_input_ncells → ∀ k, k < num_split ri * num_split ri →
    ∀ i', i' < ri.lulc_input_ncells → ∀ k', k' < num_split ri * num_split ri →
      block_cell c ri i k = block_cell c ri i' k' → i = i' ∧ k = k'

instance (c : Consts) (ri : rinfo_struct) : Decidable (blocks_disjoint c ri) :=
  Nat.decidableBallLT _ _

/-- The fine cell id `f` occurs in `forest_cells[0 .. num_forest_cells)`. -/
def in_forest_cells (s : State) (f : Nat) : Prop :=
  ∃ k, k < s.lists.num_forest_cells ∧ s.lists.forest_cells k = f

instance (s : State) (f : Nat) : Decidable (in_forest_cells s f) := by
  unfold in_forest_cells; infer_instance

/-- No id occurs more than once in `forest_cells[0 .. num_forest_cells)`. -/
def forest_cells_distinct (s : State) : Prop :=
  ∀ k, k < s.lists.num_forest_cells → ∀ k', k' < s.lists.num_forest_cells →
    s.lists.forest_cells k = s.lists.forest_cells k' → k = k'

instance (s : State) : Decidable (forest_cells_distinct s) := by
  unfold forest_cells_distinct; infer_instance

/-- The cell `f` has hyde land area and its `refveg_thematic` is a forest class: it differs
from the potential vegetation nodata value and lies between `MIN_SAGE_FOREST_CODE` and
`MAX_SAGE_FOREST_CODE`. -/
def forest_class (c : Consts) (ri : rinfo_struct) (g : Grids) (s : State) (f : Nat) : Prop :=
  g.land_area_hyde f ≠ ri.land_area_hyde_nodata ∧
    (s.cell f).refveg_thematic ≠ ri.potveg_nodata ∧
    c.MIN_SAGE_FOREST_CODE ≤ (s.cell f).refveg_thematic ∧
    (s.cell f).refveg_thematic ≤ c.MAX_SAGE_FOREST_CODE

instance (c : Consts) (ri : rinfo_struct) (g : Grids) (s : State) (f : Nat) :
    Decidable (forest_class c ri g s f) := by
  unfold forest_class; infer_instance

/-- The forest list and the forest mask agree, the list has no repetition, the forest mask
of a visited cell tells whether its class is a forest class, and the forest mask of a cell
not visited yet is 0; `V` is the set of the cells visited so far. -/
def forest_inv (c : Consts) (ri : rinfo_struct) (g : Grids) (V : Nat → Prop) (s : State) :
    Prop :=
  (∀ f, in_forest_cells s f ↔ (s.cell f).land_mask_forest = 1) ∧
  forest_cells_distinct s ∧
  (∀ f, V f → ((s.cell f).land_mask_forest = 1 ↔ forest_class c ri g s f)) ∧
  (∀ f, ¬ V f → (s.cell f).land_mask_forest = 0)

/-- The zeroed state in which cell 5 holds the forest class 4 in `refveg_thematic` from an
earlier use of the array. -/
def stale_state : State :=
  zero_state.upd 5 fun r => { r with refveg_thematic := 4 }

/-- Raster information of a hyde grid with no column: the index loops of lines 222-235 run
no pass, so `count` stays 0.  The loops of the C program run no pass when `num_split` is
not positive, as with the column count -4 in the hyde header. -/
def empty_rinfo : rinfo_struct :=
  { demo_rinfo with lu_ncols := 0 }

/-- The local variables at the entry of the loop over the coarse cells when both readers
have returned `OK` and line 139 has set `NUM_LU_CELLS` to 4. -/
def mismatch_locals : Locals :=
  { err := OK, buf := zero_buffers, s := { zero_state with NUM_LU_CELLS := 4 } }

/-- A value truncated towards zero: the conversion `(int)` of a `double`, and the integral
part that `fmod` and `modf` work with. -/
def trunc (x : ℚ) : Int :=
  if 0 ≤ x then ⌊x⌋ else ⌈x⌉

/-- The library function `fmod` on exact values: `x - n * y`, where `n` is the quotient
`x / y` truncated towards zero. -/
def fmod (x y : ℚ) : ℚ :=
  x - (trunc (x / y) : ℚ) * y

/-- The library function `modf` on exact values: the fractional part is returned and the
integral part is stored through the pointer; the pair is (returned, stored). -/
def modf (x : ℚ) : ℚ × ℚ :=
  (x - (trunc x : ℚ), (trunc x : ℚ))

/-- Lines 216-218: `grid_y_ul` as the source computes it, with `modf` on the integer
quotient `i / ncols_lulc` converted to `double`. -/
def grid_y_ul_dbl (ri : rinfo_struct) (i : Nat) : Int :=
  trunc (modf (((i / ri.lulc_input_ncols : Nat) : ℚ))).2 * (num_split ri : Int)

/-- Lines 216-219: `grid_x_ul` as the source computes it, with `fmod` on `i` and
`ncols_lulc` converted to `double`. -/
def grid_x_ul_dbl (ri : rinfo_struct) (i : Nat) : Int :=
  trunc (fmod (i : ℚ) (ri.lulc_input_ncols : ℚ)) * (num_split ri : Int)

/-- The row-major id of the cell at row `row` and column `col` of a grid of `ncols`
columns. -/
def row_major (ncols row col : Nat) : Nat :=
  row * ncols + col

/-- Sample raster information of a hyde grid of 8 columns, twice the 4 columns `NUM_LON` of
the working grid, over a coarse grid of 2 columns: `num_split` is 4. -/
def wide_rinfo : rinfo_struct :=
  { demo_rinfo with lu_ncols := 8 }

/-- Modelled from the spec: one fine cell draws `need` from the class pool, the classes in
their fixed order, taking from each class the smaller of what is still needed and what the
class still holds.  The result is the area drawn, the pool left, and the position of the
last class that gave a positive area; `k` is the position of the first class of the list. -/
def draw_pool : ℚ → Nat → List ℚ → ℚ × List ℚ × Option Nat
  | _, _, [] => (0, [], none)
  | need, k, p :: ps =>
    ((min need p) + (draw_pool (need - min need p) (k + 1) ps).1,
      (p - min need p) :: (draw_pool (need - min need p) (k + 1) ps).2.1,
      if 0 < (draw_pool (need - min need p) (k + 1) ps).1 then
        (draw_pool (need - min need p) (k + 1) ps).2.2
      else if 0 < min need p then some k else none)

/-- Modelled from the spec: what the disaggregation of one block carries from fine cell to
fine cell: the class pool left and the two output buffers. -/
structure Disagg where
  pool : List ℚ
  refveg_area_out : Nat → ℚ
  refveg_them : Nat → Int

/-- Modelled from the spec: the visit of the fine cell at block position `p`.  A cell
without available area contributes nothing, and nothing is done once the pool is exhausted;
otherwise the cell draws its available area from the pool and is tagged with the thematic
id of the last class that gave area. -/
def visit_cell (class_id : Nat → Int) (available : Nat → ℚ) (p : Nat) (d : Disagg) : Disagg :=
  if available p ≤ 0 then d
  else if d.pool.sum = 0 then d
  else
    { pool := (draw_pool (available p) 0 d.pool).2.1
      refveg_area_out := store d.refveg_area_out p (draw_pool (available p) 0 d.pool).1
      refveg_them :=
        match (draw_pool (available p) 0 d.pool).2.2 with
        | some k => store d.refveg_them p (class_id k)
        | none => d.refveg_them }

/-- Modelled from the spec: the available area of the fine cell at block position `p`, its
hyde land area minus the sum of its land use class areas. -/
def available_area (c : Consts) (g : Grids) (lu_indices : Nat → Nat) (lu_area : Nat → Nat → ℚ)
    (p : Nat) : ℚ :=
  g.land_area_hyde (lu_indices p) - ((List.range c.NUM_HYDE_TYPES).map (lu_area p)).sum

/-- Modelled from the spec: the function `proc_lulc_area`, the disaggregation of one coarse
cell.  The fine cells are visited in the order `rand_order[lulc_index]`; the land use areas
are kept; `class_id k` is the thematic id of the class at position `k` of `lulc_area`. -/
def proc_lulc_area (c : Consts) (class_id : Nat → Int) : ProcLulc :=
  fun lulc_area lu_indices lu_area refveg_area_out refveg_them _ lulc_index g s =>
    { err := OK
      lu_area := lu_area
      refveg_area_out :=
        ((s.rand_order.getD lulc_index []).foldl
          (fun d p => visit_cell class_id (available_area c g lu_indices lu_area) p d)
          { pool := (List.range c.NUM_LULC_TYPES).map lulc_area
            refveg_area_out := refveg_area_out, refveg_them := refveg_them }).refveg_area_out
      refveg_them :=
        ((s.rand_order.getD lulc_index []).foldl
          (fun d p => visit_cell class_id (available_area c g lu_indices lu_area) p d)
          { pool := (List.range c.NUM_LULC_TYPES).map lulc_area
            refveg_area_out := refveg_area_out, refveg_them := refveg_them }).refveg_them }

/-- The total unclaimed land area of a block of `N` fine cells: the sum of the available
areas of the cells that have one. -/
def unclaimed_total (c : Consts) (g : Grids) (lu_indices : Nat → Nat)
    (lu_area : Nat → Nat → ℚ) (N : Nat) : ℚ :=
  ((List.range N).map fun p => max (available_area c g lu_indices lu_area p) 0).sum

/-- The class pool of a coarse cell: the sum of its `NUM_LULC_TYPES` class areas. -/
def pool_total (c : Consts) (lulc_area : Nat → ℚ) : ℚ :=
  ((List.range c.NUM_LULC_TYPES).map lulc_area).sum

/-- The reference vegetation area assigned to a block of `N` fine cells. -/
def assigned_total (refveg_area_out : Nat → ℚ) (N : Nat) : ℚ :=
  ((List.range N).map refveg_area_out).sum

/-- Lines 209-243: the call of `proc_lulc_area` that the pass for coarse cell `i` makes, on
the class areas of the coarse cell and the block buffers as the index loops have filled
them. -/
def lulc_call (c : Consts) (ri : rinfo_struct) (g : Grids) (proc : ProcLulc) (i : Nat)
    (L : Locals) : LulcOut :=
  proc (fun j => if j < c.NUM_LULC_TYPES then g.lulc_input_grid j i else 0)
    (fill_coarse c ri L.s i L.buf).1.lu_indices (fill_coarse c ri L.s i L.buf).1.lu_area
    (fill_coarse c ri L.s i L.buf).1.refveg_area_out
    (fill_coarse c ri L.s i L.buf).1.refveg_them L.s.NUM_LU_CELLS i g L.s

/-- Sample grid for the block of coarse cell 0, the fine cells 0, 1, 4 and 5: 50 of hyde
land area, 20 in cell 0 and 10 in each of the cells 1, 4 and 5; the class areas of every
coarse cell are 40 in class 0 and 10 in class 1. -/
def block_grid : Grids :=
  { demo_grid with
    land_area_hyde := fun j =>
      if j = 0 then 20 else if j = 1 ∨ j = 4 ∨ j = 5 then 10 else -9999
    lulc_input_grid := fun k _ => if k = 0 then 40 else 10 }

/-- Sample outcome of the readers: both succeed; 5 of urban area in every cell and no other
land use. -/
def block_reads : Reads :=
  { hyde_err := 0, lulc_err := 0, crop_grid := fun _ => 0, pasture_grid := fun _ => 0
    urban_grid := fun _ => 5, lu_detail_area := fun _ _ => 0 }

/-- Sample local variables at the entry of the pass for coarse cell 0: the land use arrays
as the sample readers leave them, `NUM_LU_CELLS` 4, and the order 2, 0, 3, 1 for coarse
cell 0. -/
def block_locals : Locals :=
  { err := OK, buf := zero_buffers
    s := { load_hyde block_reads zero_state with
      NUM_LU_CELLS := 4
      rand_order := [[2, 0, 3, 1], [0, 1, 2, 3]] } }

/-- Sample local variables at the entry of a pass of the loop over the coarse cells, for
the sample grid: the land use arrays as the sample readers leave them, `NUM_LU_CELLS` 4 and
`rand_order` built for 2 coarse cells. -/
def demo_locals : Locals :=
  { err := OK, buf := zero_buffers
    s := { load_hyde demo_reads zero_state with
      NUM_LU_CELLS := 4
      rand_order := (build_rand_order demo_rand 2 4).1 } }

/-- What a call of `get_aez_val` leaves: its return code, the value stored through `value`,
the array `aez_array` and the state with the global `missing_aez_mask`. -/
structure AezOut where
  ret : Int
  value : Int
  aez_array : Nat → Int
  s : State

/-- The function `get_aez_val`.  The vicinity search of lines 62-125 stands under `if (0)`;
it is the parameter `search`, which gives the value the search would leave in `temp_val`
from `aez_array`, `index`, `nrows`, `ncols`, `nodata_val` and `temp_val`. -/
def get_aez_val (search : (Nat → Int) → Nat → Nat → Nat → Int → Int → Int)
    (aez_array : Nat → Int) (index nrows ncols : Nat) (nodata_val : Int) (s : State) :
    AezOut :=
  let temp_val0 := aez_array index
  let temp_val :=
    if (0 : Int) ≠ 0 then search aez_array index nrows ncols nodata_val temp_val0
    else temp_val0
  let s1 : State :=
    if temp_val = nodata_val then s.upd index fun r => { r with missing_aez_mask := 1 }
    else s
  { ret := OK, value := temp_val, aez_array := aez_array, s := s1 }

/-- A sample search: it returns the value of the next cell. -/
def demo_search : (Nat → Int) → Nat → Nat → Nat → Int → Int → Int :=
  fun aez_array index _ _ _ _ => aez_array (index + 1)

/-- The globals that `write_harvestarea_crop_aez` reads, with the constants
`NUM_SAGE_CROP` and `ERROR_FILE` of the header `moirai.h`; the country tables are indexed by
the country index and `ctry_aez_list`, the two area arrays by country, zone and crop. -/
structure CropTables where
  NUM_SAGE_CROP : Nat
  ERROR_FILE : Int
  ctry2ctry87codes_gtap : Nat → Int
  ctry_aez_num : Nat → Nat
  ctry_aez_list : Nat → Nat → Int
  harvestarea_crop_aez : Nat → Nat → Nat → ℚ
  production_crop_aez : Nat → Nat → Nat → ℚ

/-- One record of the output file (line 91): `ctry_index` and `crop_index` stand for the
strings `countryabbrs_iso[ctry_index]` and `cropnames_gtap[crop_index]`, `glu_code` is
`ctry_aez_list[ctry_index][aez_index]` and `value` is the value printed with `%.0f`. -/
structure Record where
  ctry_index : Nat
  aez_index : Nat
  glu_code : Int
  crop_index : Nat
  value : Int

/-- The output of `write_harvestarea_crop_aez`: the records written after the header, in
the order of writing, and the counters `nrecords` and `count_skip`. -/
structure Writer where
  records : List Record
  nrecords : Nat
  count_skip : Nat

/-- Line 81: the value `floor(0.5 + x)`, on exact values. -/
def round_half_up (x : ℚ) : Int :=
  ⌊(1 / 2 : ℚ) + x⌋

/-- Lines 80-100: the body of the loop over the crops. -/
def crop_body (t : CropTables) (ctry_index aez_index crop_index : Nat) (w : Writer) : Writer :=
  let outval : Int := round_half_up (t.harvestarea_crop_aez ctry_index aez_index crop_index)
  if outval > 0 then
    if round_half_up (t.production_crop_aez ctry_index aez_index crop_index) ≤ 0 then w
    else
      { w with
        records := w.records ++
          [{ ctry_index := ctry_index, aez_index := aez_index
             glu_code := t.ctry_aez_list ctry_index aez_index
             crop_index := crop_index, value := outval }]
        nrecords := w.nrecords + 1 }
  else w

/-- Lines 74-104: the body of the loop over the countries. -/
def ctry_body (c : Consts) (t : CropTables) (ctry_index : Nat) (w : Writer) : Writer :=
  if t.ctry2ctry87codes_gtap ctry_index = c.NOMATCH then
    { w with count_skip := w.count_skip + 1 }
  else
    for_loop
      (fun aez_index w1 =>
        for_loop (fun crop_index w2 => crop_body t ctry_index aez_index crop_index w2)
          t.NUM_SAGE_CROP 0 w1)
      (t.ctry_aez_num ctry_index) 0 w

/-- The function `write_harvestarea_crop_aez`: its return code and what it has written;
`fopen_ok` tells whether the output file could be opened. -/
def write_harvestarea_crop_aez (c : Consts) (t : CropTables) (fopen_ok : Bool) :
    Int × Writer :=
  if fopen_ok = false then (t.ERROR_FILE, { records := [], nrecords := 0, count_skip := 0 })
  else
    (OK, for_loop (ctry_body c t) c.NUM_FAO_CTRY 0
      { records := [], nrecords := 0, count_skip := 0 })

/-- The records that the pass of the crop loop for one country, zone and crop writes. -/
def crop_records (t : CropTables) (ctry_index aez_index crop_index : Nat) : List Record :=
  if 0 < round_half_up (t.harvestarea_crop_aez ctry_index aez_index crop_index) ∧
      0 < round_half_up (t.production_crop_aez ctry_index aez_index crop_index) then
    [{ ctry_index := ctry_index, aez_index := aez_index
       glu_code := t.ctry_aez_list ctry_index aez_index
       crop_index := crop_index
       value := round_half_up (t.harvestarea_crop_aez ctry_index aez_index crop_index) }]
  else []

/-- The records that the pass of the country loop for one country writes. -/
def ctry_records (c : Consts) (t : CropTables) (ctry_index : Nat) : List Record :=
  if t.ctry2ctry87codes_gtap ctry_index = c.NOMATCH then []
  else
    (List.range' 0 (t.ctry_aez_num ctry_index)).flatMap fun aez_index =>
      (List.range' 0 t.NUM_SAGE_CROP).flatMap fun crop_index =>
        crop_records t ctry_index aez_index crop_index

/-- Sample tables: 3 crops; country 0 is mapped and has 2 zones, country 1 is not mapped,
country 2 is mapped and has 1 zone, the other countries are mapped and have no zone.  The
harvested area is `7/2` for crop 0 and `2/5` for the other crops; the production is 0 for
crop 2 in zone 1 of country 0 and 12 elsewhere. -/
def demo_crops : CropTables :=
  { NUM_SAGE_CROP := 3
    ERROR_FILE := 3
    ctry2ctry87codes_gtap := fun ci => if ci = 1 then -1 else 10 + ci
    ctry_aez_num := fun ci => if ci = 0 then 2 else if ci = 2 then 1 else 0
    ctry_aez_list := fun ci ai => 100 * ci + ai + 1
    harvestarea_crop_aez := fun _ _ k => if k = 0 then 7 / 2 else 2 / 5
    production_crop_aez := fun ci ai k => if ci = 0 ∧ ai = 1 ∧ k = 2 then 0 else 12 }

/-- The lexicographic order of two records by country index, then zone index within the
country, then crop index. -/
def record_lt (r r' : Record) : Prop :=
  r.ctry_index < r'.ctry_index ∨
    (r.ctry_index = r'.ctry_index ∧
      (r.aez_index < r'.aez_index ∨
        (r.aez_index = r'.aez_index ∧ r.crop_index < r'.crop_index)))

instance (r r' : Record) : Decidable (record_lt r r') := by
  unfold record_lt; infer_instance

/-- The country, zone and crop of a record. -/
def record_triple (r : Record) : Nat × Nat × Nat :=
  (r.ctry_index, r.aez_index, r.crop_index)

/-- The list `L[0 .. num)` holds, in strictly increasing order, exactly the cells below `m`
that satisfy `valid`, and `num` is their number. -/
def cell_list_of (valid : Nat → Prop) [DecidablePred valid] (L : Nat → Nat) (num m : Nat) :
    Prop :=
  (∀ a b, a < b → b < num → L a < L b) ∧
  (∀ p, p < num → L p < m ∧ valid (L p)) ∧
  (∀ f, f < m → valid f → ∃ p, p < num ∧ L p = f) ∧
  num = ((Finset.range m).filter valid).card

/-- The list `L[0 .. num)` is strictly increasing and holds exactly the cell ids of the grid
of `N` cells whose mask is 1, and `num` is the number of these cells, which is at most
`N`. -/
def list_matches_mask (mask : Nat → Int) (L : Nat → Nat) (num N : Nat) : Prop :=
  (∀ a b, a < b → b < num → L a < L b) ∧
  (∀ p, p < num → L p < N) ∧
  (∀ f, f < N → ((∃ p, p < num ∧ L p = f) ↔ mask f = 1)) ∧
  num = ((Finset.range N).filter fun f => mask f = 1).card ∧
  num ≤ N

/-- The sum of `area` over the cells below `n` that satisfy `p`. -/
def area_sum (n : Nat) (p : Nat → Prop) [DecidablePred p] (area : Nat → ℚ) : ℚ :=
  Finset.sum (Finset.range n) fun i => if p i then area i else 0

/-- The cell `i` has a valid new zone and a valid raw country code that is absent from the
country table. -/
def unknown_country (c : Consts) (ri : rinfo_struct) (g : Grids) (i : Nat) : Prop :=
  g.aez_bounds_new i ≠ ri.aez_new_nodata ∧ g.country_fao i ≠ ri.country_fao_nodata ∧
    ¬ in_table c g (g.country_fao i)

instance (c : Consts) (ri : rinfo_struct) (g : Grids) (i : Nat) :
    Decidable (unknown_country c ri g i) := by
  unfold unknown_country; infer_instance

/-- The list `L[0 .. num)` is the list `L0[0 .. n0)` followed by cells below `m`, one for
each cell below `m` that satisfies `valid`. -/
def grown_list (valid : Nat → Prop) [DecidablePred valid] (L0 : Nat → Nat) (n0 : Nat)
    (L : Nat → Nat) (num m : Nat) : Prop :=
  num = n0 + ((Finset.range m).filter valid).card ∧
  (∀ p, n0 ≤ p → p < num → L p < m) ∧
  (∀ p, p < n0 → L p = L0 p)

/-- Line 138 on the C `int`s of the raster information: `num_split = ncols / ncols_lulc`,
the division truncating toward zero.  `read_hyde32` stores the column count of the hyde
header as `fscanf` reads it, of either sign.  A zero divisor stops the C program; the
definition then gives 0. -/
def num_split_int (lu_ncols lulc_input_ncols : Int) : Int :=
  Int.tdiv lu_ncols lulc_input_ncols

/-- Lines 216-219 on C `int`s: the row of the upper left corner of coarse cell `i`, the
integer part of the quotient `i / ncols_lulc` times `num_split`. -/
def grid_y_ul_int (lulc_input_ncols num_split i : Int) : Int :=
  Int.tdiv i lulc_input_ncols * num_split

/-- Lines 216-219 on C `int`s: the column of the upper left corner of coarse cell `i`, the
remainder `fmod(i, ncols_lulc)`, which has the sign of `i`, times `num_split`. -/
def grid_x_ul_int (lulc_input_ncols num_split i : Int) : Int :=
  Int.tmod i lulc_input_ncols * num_split

/-- The cell count that a reader stores for a raster of `nrows` rows and `ncols` columns
(`read_hyde32` line 145: `ncells = nrows * ncols`). -/
def raster_ncells (nrows ncols : Int) : Int :=
  nrows * ncols

/-- The counted loop `for (k = lo; k < hi; k++) body` on C `int`s: it runs `hi - lo` passes,
and none when `hi <= lo`. -/
def for_range {σ : Type} (body : Int → σ → σ) (lo hi : Int) (s : σ) : σ :=
  for_loop (fun d t => body (lo + (d : Int)) t) (hi - lo).toNat 0 s

/-- Lines 221-235 on C `int`s: `count = 0` and the row and column loops over the block whose
upper left corner is `(grid_y_ul, grid_x_ul)`; of the body, the store into `lu_indices` and
the increment of `count`.  The result is `lu_indices` and `count`. -/
def index_loops (NUM_LON num_split grid_y_ul grid_x_ul : Int) : (Nat → Int) × Nat :=
  for_range
    (fun m p =>
      for_range (fun n (q : (Nat → Int) × Nat) => (store q.1 q.2 (m * NUM_LON + n), q.2 + 1))
        grid_x_ul (grid_x_ul + num_split) p)
    grid_y_ul (grid_y_ul + num_split) (fun _ => 0, 0)

/-- Lines 134-139 and 214-235 on the C `int`s of the raster information: `lu_indices` and
`count` after the index loops of coarse cell `i`. -/
def index_loops_of (c : Consts) (lu_ncols lulc_input_ncols i : Int) : (Nat → Int) × Nat :=
  index_loops c.NUM_LON (num_split_int lu_ncols lulc_input_ncols)
    (grid_y_ul_int lulc_input_ncols (num_split_int lu_ncols lulc_input_ncols) i)
    (grid_x_ul_int lulc_input_ncols (num_split_int lu_ncols lulc_input_ncols) i)

end Moirai

set_option maxRecDepth 100000

namespace Moirai

section
variable {c : Consts} {ri : rinfo_struct} {g g' : Grids} {i j : Nat} {s s' : State}

@[simp] theorem upd_cell_self (s : State) (i : Nat) (f : Cell → Cell) :
    (s.upd i f).cell i = f (s.cell i) := by
  simp [State.upd, store]

theorem upd_cell_other (s : State) (f : Cell → Cell) (h : j ≠ i) :
    (s.upd i f).cell j = s.cell j := by
  simp [State.upd, store, h]

@[simp] theorem upd_lists (s : State) (i : Nat) (f : Cell → Cell) : (s.upd i f).lists = s.lists := rfl

@[simp] theorem upd_ledger (s : State) (i : Nat) (f : Cell → Cell) :
    (s.upd i f).ledger = s.ledger := rfl

theorem init_cell_frame (h : j ≠ i) : (init_cell c i s).cell j = s.cell j := by
  simp [init_cell, State.upd, store, h]

theorem mask_aez_orig_frame (h : j ≠ i) : (mask_aez_orig ri g i s).cell j = s.cell j := by
  unfold mask_aez_orig; split_ifs <;> simp [State.upd, store, h]

theorem mask_aez_new_frame (h : j ≠ i) : (mask_aez_new ri g i s).cell j = s.cell j := by
  unfold mask_aez_new; split_ifs <;> simp [State.upd, store, h]

theorem mask_sage_frame (h : j ≠ i) : (mask_sage ri g i s).cell j = s.cell j := by
  unfold mask_sage; split_ifs <;> simp [State.upd, store, h]

theorem mask_hyde_frame (h : j ≠ i) : (mask_hyde ri g i s).cell j = s.cell j := by
  unfold mask_hyde; split_ifs <;> simp [State.upd, store, h]

theorem mask_fao_frame (h : j ≠ i) : (mask_fao ri g i s).cell j = s.cell j := by
  unfold mask_fao; split_ifs <;> simp [State.upd, store, h]

theorem mask_potveg_frame (h : j ≠ i) : (mask_potveg ri g i s).cell j = s.cell j := by
  unfold mask_potveg; split_ifs <;> simp [State.upd, store, h]

theorem set_masks_frame (h : j ≠ i) : (set_masks ri g i s).cell j = s.cell j := by
  unfold set_masks
  rw [mask_potveg_frame h, mask_fao_frame h, mask_hyde_frame h, mask_sage_frame h,
    mask_aez_new_frame h, mask_aez_orig_frame h]

theorem track_area_cell (s : State) : (track_area g i s).cell = s.cell := rfl

theorem overlap_diff_frame (h : j ≠ i) : (overlap_diff ri g i s).cell j = s.cell j := by
  unfold overlap_diff; split_ifs <;> simp [State.upd, store, h]

theorem init_working_frame (h : j ≠ i) : (init_working c i s).cell j = s.cell j := by
  simp [init_working, State.upd, store, h]

theorem pre_blocks_frame (h : j ≠ i) : (pre_blocks c ri g i s).cell j = s.cell j := by
  unfold pre_blocks
  rw [init_working_frame h, overlap_diff_frame h, track_area_cell, set_masks_frame h,
    init_cell_frame h]

theorem canonical_store_frame (k : Int) (h : j ≠ i) :
    (canonical_store c g i k s).cell j = s.cell j := by
  unfold canonical_store
  split_ifs <;> simp [State.upd, store, h]

theorem noland_store_frame (k : Int) (h : j ≠ i) :
    (noland_store c g i k s).cell j = s.cell j := by
  unfold noland_store
  split_ifs <;> simp [State.upd, store, h]

theorem canonical_block_frame (h : j ≠ i) :
    (canonical_block c ri g i s).state.cell j = s.cell j := by
  unfold canonical_block
  split_ifs <;> simp [Flow.state, canonical_store_frame _ h]

theorem noland_block_frame (h : j ≠ i) :
    (noland_block c ri g i s).state.cell j = s.cell j := by
  unfold noland_block
  split_ifs <;> simp [Flow.state, noland_store_frame _ h]

theorem cell_body_frame (h : j ≠ i) : (cell_body c ri g i s).state.cell j = s.cell j := by
  have hc : (canonical_block c ri g i (pre_blocks c ri g i s)).state.cell j =
      (pre_blocks c ri g i s).cell j := canonical_block_frame h
  unfold cell_body
  cases hcb : canonical_block c ri g i (pre_blocks c ri g i s) with
  | next s1 =>
    rw [hcb] at hc
    simp only [Flow.state] at hc
    simp only [noland_block_frame h, hc, pre_blocks_frame h]
  | cont s1 =>
    rw [hcb] at hc
    simp only [Flow.state] at hc ⊢
    rw [hc, pre_blocks_frame h]
  | ret e s1 =>
    rw [hcb] at hc
    simp only [Flow.state] at hc ⊢
    rw [hc, pre_blocks_frame h]

end
end Moirai

namespace Moirai
section
variable {c : Consts} {ri : rinfo_struct} {g g' : Grids} {i j : Nat} {s s' : State}

theorem mask_aez_orig_cell (s : State) : (mask_aez_orig ri g i s).cell i =
    if g.aez_bounds_orig i ≠ ri.aez_orig_nodata then { s.cell i with land_mask_aez_orig := 1 }
    else s.cell i := by
  unfold mask_aez_orig; split_ifs <;> simp

theorem mask_aez_new_cell (s : State) : (mask_aez_new ri g i s).cell i =
    if g.aez_bounds_new i ≠ ri.aez_new_nodata then { s.cell i with land_mask_aez_new := 1 }
    else s.cell i := by
  unfold mask_aez_new; split_ifs <;> simp

theorem mask_sage_cell (s : State) : (mask_sage ri g i s).cell i =
    if g.land_area_sage i ≠ ri.land_area_sage_nodata then { s.cell i with land_mask_sage := 1 }
    else s.cell i := by
  unfold mask_sage; split_ifs <;> simp

theorem mask_hyde_cell (s : State) : (mask_hyde ri g i s).cell i =
    if g.land_area_hyde i ≠ ri.land_area_hyde_nodata then
      if g.cell_area_hyde i ≠ ri.cell_area_hyde_nodata then
        { s.cell i with
          land_mask_hyde := 1
          glacier_water_area_hyde := g.cell_area_hyde i - g.land_area_hyde i }
      else { s.cell i with land_mask_hyde := 1 }
    else s.cell i := by
  unfold mask_hyde; split_ifs <;> simp

theorem mask_fao_cell (s : State) : (mask_fao ri g i s).cell i =
    if g.country_fao i ≠ ri.country_fao_nodata then { s.cell i with land_mask_fao := 1 }
    else s.cell i := by
  unfold mask_fao; split_ifs <;> simp

theorem mask_potveg_cell (s : State) : (mask_potveg ri g i s).cell i =
    if g.potveg_thematic i ≠ ri.potveg_nodata then { s.cell i with land_mask_potveg := 1 }
    else s.cell i := by
  unfold mask_potveg; split_ifs <;> simp

theorem overlap_diff_cell (s : State) : (overlap_diff ri g i s).cell i =
    if g.land_area_hyde i ≠ ri.land_area_hyde_nodata ∧
        g.land_area_sage i ≠ ri.land_area_sage_nodata then
      { s.cell i with sage_minus_hyde_land_area := g.land_area_sage i - g.land_area_hyde i }
    else s.cell i := by
  unfold overlap_diff; split_ifs <;> simp

/-- The record of cell `i` when the body of the cell loop reaches the working land cell
block: every mask tells whether its dataset is valid at `i`, the country maps and the
working areas hold `NODATA`. -/
theorem pre_blocks_cell (c : Consts) (ri : rinfo_struct) (g : Grids) (i : Nat) (s : State) :
    (pre_blocks c ri g i s).cell i =
      { s.cell i with
        land_mask_aez_orig := if g.aez_bounds_orig i ≠ ri.aez_orig_nodata then 1 else 0
        land_mask_aez_new := if g.aez_bounds_new i ≠ ri.aez_new_nodata then 1 else 0
        land_mask_sage := if g.land_area_sage i ≠ ri.land_area_sage_nodata then 1 else 0
        land_mask_hyde := if g.land_area_hyde i ≠ ri.land_area_hyde_nodata then 1 else 0
        land_mask_fao := if g.country_fao i ≠ ri.country_fao_nodata then 1 else 0
        land_mask_potveg := if g.potveg_thematic i ≠ ri.potveg_nodata then 1 else 0
        land_mask_refveg := 0
        land_mask_forest := 0
        land_mask_ctryaez := 0
        country87_gtap := c.NODATA
        region_gcam := c.NODATA
        region_raster := c.NODATA
        ctryaez_raster := c.NODATA
        regionaez_raster := c.NODATA
        country_out := c.NODATA
        aez_out := c.NODATA
        region_raster_noland := c.NODATA
        ctryaez_raster_noland := c.NODATA
        regionaez_raster_noland := c.NODATA
        country_out_noland := c.NODATA
        aez_out_noland := c.NODATA
        cropland_area := (c.NODATA : ℚ)
        pasture_area := (c.NODATA : ℚ)
        urban_area := (c.NODATA : ℚ)
        refveg_area := (c.NODATA : ℚ)
        lu_detail_area :=
          set_detail (c.NUM_HYDE_TYPES - c.NUM_HYDE_TYPES_MAIN) (s.cell i).lu_detail_area
            (c.NODATA : ℚ)
        sage_minus_hyde_land_area := (c.NODATA : ℚ)
        glacier_water_area_hyde :=
          if g.land_area_hyde i ≠ ri.land_area_hyde_nodata ∧
              g.cell_area_hyde i ≠ ri.cell_area_hyde_nodata then
            g.cell_area_hyde i - g.land_area_hyde i
          else (c.NODATA : ℚ)
        missing_aez_mask := 0 } := by
  unfold pre_blocks set_masks
  simp only [init_working, upd_cell_self, overlap_diff_cell, track_area_cell, mask_potveg_cell,
    mask_fao_cell, mask_hyde_cell, mask_sage_cell, mask_aez_new_cell, mask_aez_orig_cell,
    init_cell]
  by_cases h1 : g.aez_bounds_orig i = ri.aez_orig_nodata <;>
  by_cases h2 : g.aez_bounds_new i = ri.aez_new_nodata <;>
  by_cases h3 : g.land_area_sage i = ri.land_area_sage_nodata <;>
  by_cases h4 : g.land_area_hyde i = ri.land_area_hyde_nodata <;>
  by_cases h5 : g.cell_area_hyde i = ri.cell_area_hyde_nodata <;>
  by_cases h6 : g.country_fao i = ri.country_fao_nodata <;>
  by_cases h7 : g.potveg_thematic i = ri.potveg_nodata <;>
  simp [h1, h2, h3, h4, h5, h6, h7]

end
end Moirai

namespace Moirai

theorem float_ulp_exp_small (fuel a : Nat) (h : a < 2 ^ 24) : float_ulp_exp fuel a = 0 := by
  cases fuel with
  | zero => rfl
  | succ f => simp only [float_ulp_exp, if_pos h]

theorem float_ulp_exp_big (f a : Nat) (h : ¬ a < 2 ^ 24) :
    float_ulp_exp (f + 1) a = float_ulp_exp f (a / 2) + 1 := by
  simp only [float_ulp_exp, if_neg h]

theorem float_ulp_exp_mul (m : Nat) (h1 : 2 ^ 23 ≤ m) (h2 : m < 2 ^ 24) :
    ∀ e fuel, m * 2 ^ e ≤ fuel → float_ulp_exp fuel (m * 2 ^ e) = e := by
  intro e
  induction e with
  | zero =>
    intro fuel _
    exact float_ulp_exp_small fuel _ (by rw [pow_zero, Nat.mul_one]; exact h2)
  | succ e ih =>
    intro fuel hf
    have hpos : 0 < 2 ^ e := Nat.two_pow_pos e
    have hms : m * 2 ^ (e + 1) = 2 * (m * 2 ^ e) := by rw [pow_succ]; ring
    have hge : 2 ^ 23 * 1 ≤ m * 2 ^ e := Nat.mul_le_mul h1 hpos
    rw [hms] at hf ⊢
    have hbig : ¬ 2 * (m * 2 ^ e) < 2 ^ 24 := by omega
    cases fuel with
    | zero => omega
    | succ f =>
      have hhalf : 2 * (m * 2 ^ e) / 2 = m * 2 ^ e := by omega
      have hf' : m * 2 ^ e ≤ f := by omega
      rw [float_ulp_exp_big f _ hbig, hhalf, ih f hf']

theorem float_ulp_exp_spec : ∀ fuel a, a ≤ fuel →
    a / 2 ^ float_ulp_exp fuel a < 2 ^ 24 ∧
      (0 < float_ulp_exp fuel a → 2 ^ 23 ≤ a / 2 ^ float_ulp_exp fuel a) := by
  intro fuel
  induction fuel with
  | zero =>
    intro a ha
    have : a = 0 := by omega
    subst this
    simp [float_ulp_exp]
  | succ f ih =>
    intro a ha
    by_cases h : a < 2 ^ 24
    · rw [float_ulp_exp_small _ a h, pow_zero, Nat.div_one]
      exact ⟨h, fun h0 => absurd h0 (by omega)⟩
    · have hf : a / 2 ≤ f := by omega
      obtain ⟨i1, i2⟩ := ih (a / 2) hf
      have hdiv : a / 2 ^ (float_ulp_exp f (a / 2) + 1) = a / 2 / 2 ^ float_ulp_exp f (a / 2) := by
        rw [pow_succ, Nat.mul_comm, Nat.div_div_eq_div_mul]
      rw [float_ulp_exp_big f a h, hdiv]
      refine ⟨i1, fun _ => ?_⟩
      by_cases h0 : 0 < float_ulp_exp f (a / 2)
      · exact i2 h0
      · have hz : float_ulp_exp f (a / 2) = 0 := by omega
        rw [hz, pow_zero, Nat.div_one]
        omega

theorem float_mag_eq (a : Nat) :
    float_mag a = (if 2 ^ float_ulp_exp a a < 2 * (a % 2 ^ float_ulp_exp a a) ∨
        (2 * (a % 2 ^ float_ulp_exp a a) = 2 ^ float_ulp_exp a a ∧
          a / 2 ^ float_ulp_exp a a % 2 = 1) then a / 2 ^ float_ulp_exp a a + 1
        else a / 2 ^ float_ulp_exp a a) * 2 ^ float_ulp_exp a a := rfl

theorem float_mag_small (a : Nat) (h : a < 2 ^ 24) : float_mag a = a := by
  rw [float_mag_eq, float_ulp_exp_small a a h, pow_zero, Nat.mod_one, Nat.div_one, Nat.mul_one]
  rw [if_neg (by omega)]

theorem float_mag_of_mul (m e : Nat) (h1 : 2 ^ 23 ≤ m) (h2 : m < 2 ^ 24) :
    float_mag (m * 2 ^ e) = m * 2 ^ e := by
  have he := float_ulp_exp_mul m h1 h2 e (m * 2 ^ e) (Nat.le_refl _)
  have hpos : 0 < 2 ^ e := Nat.two_pow_pos e
  rw [float_mag_eq, he, Nat.mul_mod_left, Nat.mul_div_cancel _ hpos]
  rw [if_neg (by omega)]

theorem float_ulp_exp_pos (a : Nat) (h : ¬ a < 2 ^ 24) : 0 < float_ulp_exp a a := by
  cases a with
  | zero => exact absurd (by norm_num) h
  | succ f => rw [float_ulp_exp_big f _ h]; omega

theorem float_mag_idem (a : Nat) : float_mag (float_mag a) = float_mag a := by
  by_cases h : a < 2 ^ 24
  · rw [float_mag_small a h, float_mag_small a h]
  · obtain ⟨i1, i2⟩ := float_ulp_exp_spec a a (Nat.le_refl _)
    have i3 := i2 (float_ulp_exp_pos a h)
    have key : ∀ m, (m = a / 2 ^ float_ulp_exp a a ∨ m = a / 2 ^ float_ulp_exp a a + 1) →
        float_mag (m * 2 ^ float_ulp_exp a a) = m * 2 ^ float_ulp_exp a a := by
      intro m hm
      by_cases hm2 : m < 2 ^ 24
      · exact float_mag_of_mul m _ (by omega) hm2
      · have hm3 : m = 2 ^ 23 * 2 := by omega
        rw [hm3, Nat.mul_assoc, ← pow_succ']
        exact float_mag_of_mul (2 ^ 23) _ (Nat.le_refl _) (by norm_num)
    rw [float_mag_eq a]
    split_ifs
    · exact key _ (Or.inr rfl)
    · exact key _ (Or.inl rfl)

theorem float_mag_pos (a : Nat) (h : 0 < a) : 0 < float_mag a := by
  by_cases h2 : a < 2 ^ 24
  · rw [float_mag_small a h2]; exact h
  · obtain ⟨_, i2⟩ := float_ulp_exp_spec a a (Nat.le_refl _)
    have i3 := i2 (float_ulp_exp_pos a h2)
    have hpos : 0 < 2 ^ float_ulp_exp a a := Nat.two_pow_pos _
    rw [float_mag_eq a]
    apply Nat.mul_pos _ hpos
    split_ifs <;> omega

/-- Converting a float value to float changes nothing. -/
theorem float_round_idem (n : Int) : float_round (float_round n) = float_round n := by
  unfold float_round
  by_cases h : n < 0
  · have hpos : 0 < float_mag n.natAbs := float_mag_pos _ (by omega)
    have hneg : -(float_mag n.natAbs : Int) < 0 := by omega
    simp only [if_pos h, if_pos hneg, Int.natAbs_neg, Int.natAbs_ofNat, float_mag_idem]
  · have hnn : ¬ ((float_mag n.natAbs : Int) < 0) := by omega
    simp only [if_neg h, if_neg hnn, Int.natAbs_ofNat, float_mag_idem]

/-- Integers up to `2 ^ 24` in magnitude are float values. -/
theorem float_round_exact (n : Int) (h : float_exact n) : float_round n = n := by
  unfold float_exact at h
  have hm : float_mag n.natAbs = n.natAbs := by
    rcases Nat.lt_or_ge n.natAbs (2 ^ 24) with h1 | h1
    · exact float_mag_small _ h1
    · have h2 : n.natAbs = 2 ^ 23 * 2 ^ 1 := by omega
      rw [h2]
      exact float_mag_of_mul (2 ^ 23) 1 (Nat.le_refl _) (by norm_num)
  unfold float_round
  rw [hm]
  split_ifs <;> omega

theorem composite_code_round_left (c : Consts) (p z : Int) :
    composite_code c (float_round p) z = composite_code c p z := by
  unfold composite_code; rw [float_round_idem]

theorem composite_code_round_right (c : Consts) (p z : Int) :
    composite_code c p (float_round z) = composite_code c p z := by
  unfold composite_code; rw [float_round_idem]

/-- The float composite is the exact composite when the operands, the product and the sum are
float values. -/
theorem composite_code_exact (c : Consts) (p z : Int) (hp : float_exact p)
    (hM : float_exact c.FAOCTRY2GCAMCTRYAEZID) (hz : float_exact z)
    (hprod : float_exact (p * c.FAOCTRY2GCAMCTRYAEZID))
    (hsum : float_exact (p * c.FAOCTRY2GCAMCTRYAEZID + z)) :
    composite_code c p z = p * c.FAOCTRY2GCAMCTRYAEZID + z := by
  unfold composite_code
  rw [float_round_exact p hp, float_round_exact _ hM, float_round_exact z hz,
    float_round_exact _ hprod, float_round_exact _ hsum]

end Moirai

namespace Moirai
section
variable {c : Consts} {ri : rinfo_struct} {g g' : Grids} {i j : Nat} {s s' : State}

theorem float_round_scg_code : float_round scg_code = scg_code := by decide

/-- What the working land cell block stores at cell `i`. -/
theorem canonical_store_cell (c : Consts) (g : Grids) (i : Nat) (k : Int) (s : State) :
    (canonical_store c g i k s).cell i =
      if g.ctry2ctry87codes_gtap k ≠ c.NOMATCH then
        { s.cell i with
          country87_gtap := g.ctry2ctry87codes_gtap k
          region_gcam :=
            if g.ctry2regioncodes_gcam k ≠ c.NOMATCH then g.ctry2regioncodes_gcam k
            else (s.cell i).region_gcam
          valid_land_area :=
            if g.ctry2regioncodes_gcam k ≠ c.NOMATCH then g.land_area_hyde i
            else (s.cell i).valid_land_area
          region_raster :=
            if g.ctry2regioncodes_gcam k ≠ c.NOMATCH then float_round (g.ctry2regioncodes_gcam k)
            else (s.cell i).region_raster
          aez_out := float_round (g.aez_bounds_new i)
          country_out := float_round (g.country_fao i)
          ctryaez_raster := composite_code c (g.country_fao i) (g.aez_bounds_new i)
          regionaez_raster := composite_code c (g.ctry2regioncodes_gcam k) (g.aez_bounds_new i) }
      else if g.countrycodes_fao k = srb_code ∨ g.countrycodes_fao k = mne_code then
        { s.cell i with
          country87_gtap := g.ctry2ctry87codes_gtap (fao_index_of c g scg_code)
          region_gcam := g.ctry2regioncodes_gcam (fao_index_of c g scg_code)
          region_raster := float_round (g.ctry2regioncodes_gcam (fao_index_of c g scg_code))
          valid_land_area := g.land_area_hyde i
          aez_out := float_round (g.aez_bounds_new i)
          country_out := scg_code
          ctryaez_raster := composite_code c scg_code (g.aez_bounds_new i)
          regionaez_raster :=
            composite_code c (g.ctry2regioncodes_gcam (fao_index_of c g scg_code))
              (g.aez_bounds_new i) }
      else s.cell i := by
  unfold canonical_store
  by_cases h1 : g.ctry2ctry87codes_gtap k = c.NOMATCH <;>
  by_cases h2 : g.ctry2regioncodes_gcam k = c.NOMATCH <;>
  by_cases h3 : (g.countrycodes_fao k = srb_code ∨ g.countrycodes_fao k = mne_code) <;>
  simp [h1, h2, h3, float_round_scg_code]

/-- What the non-land cell block stores at cell `i`. -/
theorem noland_store_cell (c : Consts) (g : Grids) (i : Nat) (k : Int) (s : State) :
    (noland_store c g i k s).cell i =
      if g.ctry2ctry87codes_gtap k ≠ c.NOMATCH then
        { s.cell i with
          region_raster_noland :=
            if g.ctry2regioncodes_gcam k ≠ c.NOMATCH then float_round (g.ctry2regioncodes_gcam k)
            else (s.cell i).region_raster_noland
          country_out_noland := float_round (g.country_fao i)
          aez_out_noland := float_round (g.aez_bounds_new i)
          ctryaez_raster_noland := composite_code c (g.country_fao i) (g.aez_bounds_new i)
          regionaez_raster_noland :=
            composite_code c (g.ctry2regioncodes_gcam k) (g.aez_bounds_new i) }
      else if g.countrycodes_fao k = srb_code ∨ g.countrycodes_fao k = mne_code then
        { s.cell i with
          region_raster_noland := float_round (g.ctry2regioncodes_gcam (fao_index_of c g scg_code))
          country_out_noland := scg_code
          aez_out_noland := float_round (g.aez_bounds_new i)
          ctryaez_raster_noland := composite_code c scg_code (g.aez_bounds_new i)
          regionaez_raster_noland :=
            composite_code c (g.ctry2regioncodes_gcam (fao_index_of c g scg_code))
              (g.aez_bounds_new i) }
      else s.cell i := by
  unfold noland_store
  by_cases h1 : g.ctry2ctry87codes_gtap k = c.NOMATCH <;>
  by_cases h2 : g.ctry2regioncodes_gcam k = c.NOMATCH <;>
  by_cases h3 : (g.countrycodes_fao k = srb_code ∨ g.countrycodes_fao k = mne_code) <;>
  simp [h1, h2, h3, float_round_scg_code, composite_code_round_left]

theorem canonical_store_mask_hyde (k : Int) :
    ((canonical_store c g i k s).cell i).land_mask_hyde = (s.cell i).land_mask_hyde := by
  rw [canonical_store_cell]; split_ifs <;> rfl

theorem canonical_store_mask_aez_new (k : Int) :
    ((canonical_store c g i k s).cell i).land_mask_aez_new = (s.cell i).land_mask_aez_new := by
  rw [canonical_store_cell]; split_ifs <;> rfl

theorem pre_mask_hyde : ((pre_blocks c ri g i s).cell i).land_mask_hyde = 1 ↔
    g.land_area_hyde i ≠ ri.land_area_hyde_nodata := by
  rw [pre_blocks_cell]; by_cases h : g.land_area_hyde i = ri.land_area_hyde_nodata <;> simp [h]

theorem pre_mask_aez_new : ((pre_blocks c ri g i s).cell i).land_mask_aez_new = 1 ↔
    g.aez_bounds_new i ≠ ri.aez_new_nodata := by
  rw [pre_blocks_cell]; by_cases h : g.aez_bounds_new i = ri.aez_new_nodata <;> simp [h]

/-- The pass through the loop body at cell `i`, by cases on the inputs at `i`. -/
theorem cell_body_eq (c : Consts) (ri : rinfo_struct) (g : Grids) (i : Nat) (s : State) :
    cell_body c ri g i s =
      if g.aez_bounds_new i = ri.aez_new_nodata then .next (pre_blocks c ri g i s)
      else if g.country_fao i = ri.country_fao_nodata then .cont (pre_blocks c ri g i s)
      else if fao_index_of c g (g.country_fao i) = c.NOMATCH then
        .ret c.ERROR_IND (pre_blocks c ri g i s)
      else if g.land_area_hyde i ≠ ri.land_area_hyde_nodata then
        .next (canonical_store c g i (fao_index_of c g (g.country_fao i)) (pre_blocks c ri g i s))
      else
        .next (noland_store c g i (fao_index_of c g (g.country_fao i)) (pre_blocks c ri g i s)) := by
  unfold cell_body canonical_block
  by_cases hz : g.aez_bounds_new i = ri.aez_new_nodata
  · have hz' : ¬ ((pre_blocks c ri g i s).cell i).land_mask_aez_new = 1 := by
      rw [pre_mask_aez_new]; simpa using hz
    simp [hz, hz', noland_block]
  · have hz' : ((pre_blocks c ri g i s).cell i).land_mask_aez_new = 1 := by
      rw [pre_mask_aez_new]; exact hz
    by_cases hh : g.land_area_hyde i = ri.land_area_hyde_nodata
    · have hh' : ¬ ((pre_blocks c ri g i s).cell i).land_mask_hyde = 1 := by
        rw [pre_mask_hyde]; simpa using hh
      simp only [hh', hz', false_and, if_false, noland_block, hz, hh]
      by_cases hc : g.country_fao i = ri.country_fao_nodata
      · simp [hc, hh']
      · by_cases hf : fao_index_of c g (g.country_fao i) = c.NOMATCH <;> simp [hc, hf, hh']
    · have hh' : ((pre_blocks c ri g i s).cell i).land_mask_hyde = 1 := by
        rw [pre_mask_hyde]; exact hh
      simp only [hh', hz', and_self, if_true, hz, hh, if_false]
      by_cases hc : g.country_fao i = ri.country_fao_nodata
      · simp [hc]
      · by_cases hf : fao_index_of c g (g.country_fao i) = c.NOMATCH
        · simp [hc, hf]
        · simp [hc, hf, noland_block, canonical_store_mask_hyde, hh', hh]

end
end Moirai

namespace Moirai
section
variable {c : Consts} {ri : rinfo_struct} {g g' : Grids} {i j : Nat} {s s' : State}

theorem find_code_cases (N : Int) (t : Int → Int) (code : Int) : ∀ n j,
    (find_code N t code n j = N ∧ ∀ k, j ≤ k → k < j + n → t (k : Int) ≠ code) ∨
    (∃ k : Nat, find_code N t code n j = (k : Int) ∧ j ≤ k ∧ k < j + n ∧ t (k : Int) = code ∧
      ∀ m, j ≤ m → m < k → t (m : Int) ≠ code) := by
  intro n
  induction n with
  | zero => intro j; left; exact ⟨rfl, fun k h1 h2 => by omega⟩
  | succ n ih =>
    intro j
    unfold find_code
    by_cases h : t (j : Int) = code
    · right; exact ⟨j, by simp [h], le_refl _, by omega, h, fun m h1 h2 => by omega⟩
    · rw [if_neg h]
      rcases ih (j + 1) with ⟨h1, h2⟩ | ⟨k, h1, h2, h3, h4, h5⟩
      · left
        refine ⟨h1, fun k hk1 hk2 => ?_⟩
        by_cases hkj : k = j
        · subst hkj; exact h
        · exact h2 k (by omega) (by omega)
      · right
        refine ⟨k, h1, by omega, by omega, h4, fun m hm1 hm2 => ?_⟩
        by_cases hmj : m = j
        · subst hmj; exact h
        · exact h5 m (by omega) hm2

/-- With a negative `NOMATCH`, the table search ends with `NOMATCH` exactly when the code
is absent from the table. -/
theorem fao_index_nomatch_iff (hN : c.NOMATCH < 0) (code : Int) :
    fao_index_of c g code = c.NOMATCH ↔ ¬ in_table c g code := by
  unfold fao_index_of in_table
  rcases find_code_cases c.NOMATCH g.countrycodes_fao code c.NUM_FAO_CTRY 0 with
    ⟨h1, h2⟩ | ⟨k, h1, _, h3, h4, _⟩
  · constructor
    · rintro _ ⟨j, hj, hjc⟩
      exact h2 j (Nat.zero_le _) (by omega) hjc
    · intro _; exact h1
  · constructor
    · intro h
      rw [h1] at h
      have : (0 : Int) ≤ (k : Int) := Int.ofNat_nonneg k
      omega
    · intro h
      exact absurd ⟨k, by omega, h4⟩ h

/-- A code found by the table search sits at the index the search returns. -/
theorem fao_index_found (h : fao_index_of c g code ≠ c.NOMATCH) :
    g.countrycodes_fao (fao_index_of c g code) = code := by
  unfold fao_index_of at h ⊢
  rcases find_code_cases c.NOMATCH g.countrycodes_fao code c.NUM_FAO_CTRY 0 with
    ⟨h1, _⟩ | ⟨k, h1, _, _, h4, _⟩
  · exact absurd h1 h
  · rw [h1]; exact h4

theorem SameAt.fao_index (h : SameAt g g' i) (code : Int) :
    fao_index_of c g code = fao_index_of c g' code := by
  unfold fao_index_of; rw [h.countrycodes_fao]

theorem SameAt.index_error (h : SameAt g g' i) :
    index_error c ri g i ↔ index_error c ri g' i := by
  unfold Moirai.index_error
  rw [h.aez_bounds_new, h.country_fao, h.fao_index]

theorem SameAt.rfl_at (g : Grids) (i : Nat) : SameAt g g i :=
  ⟨rfl, rfl, rfl, rfl, rfl, rfl, rfl, rfl, rfl, rfl⟩

theorem pre_blocks_congr (h : SameAt g g' i) (hs : s.cell i = s'.cell i) :
    (pre_blocks c ri g i s).cell i = (pre_blocks c ri g' i s').cell i := by
  rw [pre_blocks_cell, pre_blocks_cell, hs, h.aez_bounds_orig, h.aez_bounds_new, h.land_area_sage,
    h.land_area_hyde, h.cell_area_hyde, h.country_fao, h.potveg_thematic]

theorem canonical_store_congr (h : SameAt g g' i) (k : Int) (hs : s.cell i = s'.cell i) :
    (canonical_store c g i k s).cell i = (canonical_store c g' i k s').cell i := by
  rw [canonical_store_cell, canonical_store_cell, hs, h.fao_index, h.aez_bounds_new,
    h.land_area_hyde, h.country_fao, h.countrycodes_fao, h.ctry2ctry87codes_gtap,
    h.ctry2regioncodes_gcam]

theorem noland_store_congr (h : SameAt g g' i) (k : Int) (hs : s.cell i = s'.cell i) :
    (noland_store c g i k s).cell i = (noland_store c g' i k s').cell i := by
  rw [noland_store_cell, noland_store_cell, hs, h.fao_index, h.aez_bounds_new,
    h.country_fao, h.countrycodes_fao, h.ctry2ctry87codes_gtap,
    h.ctry2regioncodes_gcam]

/-- The record the loop body leaves at cell `i` depends only on the inputs at `i`, the
lookup tables and the record found at `i`. -/
theorem cell_body_congr (h : SameAt g g' i) (hs : s.cell i = s'.cell i) :
    (cell_body c ri g i s).state.cell i = (cell_body c ri g' i s').state.cell i := by
  have hp : (pre_blocks c ri g i s).cell i = (pre_blocks c ri g' i s').cell i :=
    pre_blocks_congr h hs
  rw [cell_body_eq, cell_body_eq, ← h.aez_bounds_new, ← h.country_fao, ← h.land_area_hyde,
    ← h.fao_index]
  split_ifs
  · exact hp
  · exact hp
  · exact hp
  · exact canonical_store_congr h _ hp
  · exact noland_store_congr h _ hp

theorem cell_body_is_ret_iff :
    (∃ e s1, cell_body c ri g i s = .ret e s1) ↔ index_error c ri g i := by
  rw [cell_body_eq]
  unfold index_error
  by_cases h1 : g.aez_bounds_new i = ri.aez_new_nodata
  · simp [h1]
  · by_cases h2 : g.country_fao i = ri.country_fao_nodata
    · simp [h1, h2]
    · by_cases h3 : fao_index_of c g (g.country_fao i) = c.NOMATCH
      · simp [h1, h2, h3]
      · by_cases h4 : g.land_area_hyde i = ri.land_area_hyde_nodata <;> simp [h1, h2, h3, h4]

theorem cell_body_error (h : index_error c ri g i) :
    cell_body c ri g i s = .ret c.ERROR_IND (pre_blocks c ri g i s) := by
  rw [cell_body_eq]
  obtain ⟨h1, h2, h3⟩ := h
  simp [h1, h2, h3]

/-- The return code of the cell loop: `ERROR_IND` when some cell of the range raises the
index error, `OK` otherwise. -/
theorem cell_loop_code (c : Consts) (ri : rinfo_struct) (g : Grids) : ∀ n i s,
    (cell_loop c ri g n i s).1 =
      if ∃ k, k < i + n ∧ (i ≤ k ∧ index_error c ri g k) then c.ERROR_IND else OK := by
  intro n
  induction n with
  | zero =>
    intro i s
    have : ¬ ∃ k, k < i + 0 ∧ (i ≤ k ∧ index_error c ri g k) := by
      rintro ⟨k, h1, h2, _⟩; omega
    rw [if_neg this]; rfl
  | succ n ih =>
    intro i s
    by_cases he : index_error c ri g i
    · have : ∃ k, k < i + (n + 1) ∧ (i ≤ k ∧ index_error c ri g k) :=
        ⟨i, by omega, le_refl _, he⟩
      rw [if_pos this]
      simp only [cell_loop, cell_body_error he]
    · have hiff : (∃ k, k < i + (n + 1) ∧ (i ≤ k ∧ index_error c ri g k)) ↔
          (∃ k, k < i + 1 + n ∧ (i + 1 ≤ k ∧ index_error c ri g k)) := by
        constructor
        · rintro ⟨k, h1, h2, h3⟩
          have : k ≠ i := fun hk => he (hk ▸ h3)
          exact ⟨k, by omega, by omega, h3⟩
        · rintro ⟨k, h1, h2, h3⟩
          exact ⟨k, by omega, by omega, h3⟩
      have hnr : ∀ e s1, cell_body c ri g i s ≠ .ret e s1 := fun e s1 hc =>
        he (cell_body_is_ret_iff.mp ⟨e, s1, hc⟩)
      unfold cell_loop
      cases hb : cell_body c ri g i s with
      | next s1 => simp only [ih, hiff]
      | cont s1 => simp only [ih, hiff]
      | ret e s1 => exact absurd hb (hnr e s1)

/-- The record of cell `j` after the cell loop: a cell reached by the loop (no index
error strictly before it) holds what one pass of the loop body stores for it, every other
cell keeps its record. -/
theorem cell_loop_cell (c : Consts) (ri : rinfo_struct) (g : Grids) (j : Nat) : ∀ n i s,
    (cell_loop c ri g n i s).2.cell j =
      if i ≤ j ∧ j < i + n ∧ ∀ k, k < j → i ≤ k → ¬ index_error c ri g k then
        (cell_body c ri g j s).state.cell j
      else s.cell j := by
  intro n
  induction n with
  | zero =>
    intro i s
    have : ¬ (i ≤ j ∧ j < i + 0 ∧ ∀ k, k < j → i ≤ k → ¬ index_error c ri g k) := by
      rintro ⟨h1, h2, _⟩; omega
    rw [if_neg this]; rfl
  | succ n ih =>
    intro i s
    by_cases he : index_error c ri g i
    · simp only [cell_loop, cell_body_error he]
      by_cases hji : j = i
      · subst hji
        have : (j ≤ j ∧ j < j + (n + 1) ∧ ∀ k, k < j → j ≤ k → ¬ index_error c ri g k) :=
          ⟨le_refl _, by omega, fun k h1 h2 => by omega⟩
        rw [if_pos this, cell_body_error he]; rfl
      · have : ¬ (i ≤ j ∧ j < i + (n + 1) ∧ ∀ k, k < j → i ≤ k → ¬ index_error c ri g k) := by
          rintro ⟨h1, _, h3⟩
          exact h3 i (by omega) (le_refl _) he
        rw [if_neg this]
        exact pre_blocks_frame hji
    · have hnr : ∀ e s1, cell_body c ri g i s ≠ .ret e s1 := fun e s1 hc =>
        he (cell_body_is_ret_iff.mp ⟨e, s1, hc⟩)
      have key : ∀ s1, (cell_body c ri g i s).state = s1 →
          (cell_loop c ri g n (i + 1) s1).2.cell j =
            if i ≤ j ∧ j < i + (n + 1) ∧ ∀ k, k < j → i ≤ k → ¬ index_error c ri g k then
              (cell_body c ri g j s).state.cell j
            else s.cell j := by
        intro s1 hs1
        rw [ih]
        by_cases hji : j = i
        · subst hji
          have h1 : ¬ (j + 1 ≤ j ∧ j < j + 1 + n ∧
              ∀ k, k < j → j + 1 ≤ k → ¬ index_error c ri g k) := by
            rintro ⟨h1, _, _⟩; omega
          have h2 : (j ≤ j ∧ j < j + (n + 1) ∧ ∀ k, k < j → j ≤ k → ¬ index_error c ri g k) :=
            ⟨le_refl _, by omega, fun k h1 h2 => by omega⟩
          rw [if_neg h1, if_pos h2, hs1]
        · have hfr : s1.cell j = s.cell j := by rw [← hs1]; exact cell_body_frame hji
          have hiff : (i + 1 ≤ j ∧ j < i + 1 + n ∧
              ∀ k, k < j → i + 1 ≤ k → ¬ index_error c ri g k) ↔
              (i ≤ j ∧ j < i + (n + 1) ∧ ∀ k, k < j → i ≤ k → ¬ index_error c ri g k) := by
            constructor
            · rintro ⟨h1, h2, h3⟩
              refine ⟨by omega, by omega, fun k hk2 hk1 => ?_⟩
              by_cases hki : k = i
              · subst hki; exact he
              · exact h3 k hk2 (by omega)
            · rintro ⟨h1, h2, h3⟩
              exact ⟨by omega, by omega, fun k hk2 hk1 => h3 k hk2 (by omega)⟩
          have hcb : (cell_body c ri g j s1).state.cell j = (cell_body c ri g j s).state.cell j :=
            cell_body_congr (SameAt.rfl_at g j) hfr
          simp only [hiff, hfr, hcb]
      unfold cell_loop
      cases hb : cell_body c ri g i s with
      | next s1 => exact key s1 (by rw [hb]; rfl)
      | cont s1 => exact key s1 (by rw [hb]; rfl)
      | ret e s1 => exact absurd hb (hnr e s1)

/-- A run of `get_land_cells` that returns `OK` met no index error, and leaves at every
cell of the grid what one pass of the loop body stores there. -/
theorem get_land_cells_ok (hE : c.ERROR_IND ≠ OK) (s : State)
    (hok : (get_land_cells c ri g s).1 = OK) :
    (∀ k, k < c.NUM_CELLS → ¬ index_error c ri g k) ∧
    ∀ i, i < c.NUM_CELLS → (get_land_cells c ri g s).2.cell i =
      (cell_body c ri g i (enter_get_land_cells s)).state.cell i := by
  unfold get_land_cells at hok ⊢
  rw [cell_loop_code] at hok
  have hno : ∀ k, k < c.NUM_CELLS → ¬ index_error c ri g k := by
    intro k hk he
    have : ∃ k, k < 0 + c.NUM_CELLS ∧ (0 ≤ k ∧ index_error c ri g k) :=
      ⟨k, by omega, Nat.zero_le _, he⟩
    rw [if_pos this] at hok
    exact hE hok
  refine ⟨hno, fun i hi => ?_⟩
  rw [cell_loop_cell]
  have : (0 ≤ i ∧ i < 0 + c.NUM_CELLS ∧ ∀ k, k < i → 0 ≤ k → ¬ index_error c ri g k) :=
    ⟨Nat.zero_le _, by omega, fun k hk _ => hno k (by omega)⟩
  rw [if_pos this]

end
end Moirai

namespace Moirai
section
variable {c : Consts} {ri : rinfo_struct} {g g' : Grids} {i j : Nat} {s s' : State}

/-- The record of a cell after a run that returned `OK`, by cases on the inputs at the cell. -/
theorem ok_cell (hE : c.ERROR_IND ≠ OK) (s : State) (hok : (get_land_cells c ri g s).1 = OK)
    (hi : i < c.NUM_CELLS) :
    (get_land_cells c ri g s).2.cell i =
      if g.aez_bounds_new i = ri.aez_new_nodata ∨ g.country_fao i = ri.country_fao_nodata then
        (pre_blocks c ri g i (enter_get_land_cells s)).cell i
      else if g.land_area_hyde i ≠ ri.land_area_hyde_nodata then
        (canonical_store c g i (fao_index_of c g (g.country_fao i))
          (pre_blocks c ri g i (enter_get_land_cells s))).cell i
      else
        (noland_store c g i (fao_index_of c g (g.country_fao i))
          (pre_blocks c ri g i (enter_get_land_cells s))).cell i := by
  obtain ⟨hno, hcell⟩ := get_land_cells_ok hE s hok
  rw [hcell i hi, cell_body_eq]
  have hne := hno i hi
  unfold index_error at hne
  by_cases h1 : g.aez_bounds_new i = ri.aez_new_nodata
  · simp [h1, Flow.state]
  · by_cases h2 : g.country_fao i = ri.country_fao_nodata
    · simp [h1, h2, Flow.state]
    · have h3 : ¬ fao_index_of c g (g.country_fao i) = c.NOMATCH := fun h => hne ⟨h1, h2, h⟩
      by_cases h4 : g.land_area_hyde i = ri.land_area_hyde_nodata <;>
        simp [h1, h2, h3, h4, Flow.state]

/-- The record of a cell for which the working land cell block stored composite codes, after
a run that returned `OK`: the float rasters hold the float values of the codes and of the
composites, except that the region raster keeps `NODATA` when the own table entry of the
cell has a ctry87 code and no region. -/
theorem ok_canonical (hE : c.ERROR_IND ≠ OK) (s : State)
    (hok : (get_land_cells c ri g s).1 = OK) (hi : i < c.NUM_CELLS)
    (hw : canonical_written c ri g i) :
    ((get_land_cells c ri g s).2.cell i).aez_out = float_round (g.aez_bounds_new i) ∧
    ((get_land_cells c ri g s).2.cell i).ctryaez_raster =
      composite_code c ((get_land_cells c ri g s).2.cell i).country_out (g.aez_bounds_new i) ∧
    ((g.ctry2ctry87codes_gtap (fao_index_of c g (g.country_fao i)) ≠ c.NOMATCH ∧
        g.ctry2regioncodes_gcam (fao_index_of c g (g.country_fao i)) = c.NOMATCH) →
      ((get_land_cells c ri g s).2.cell i).region_raster = c.NODATA ∧
      ((get_land_cells c ri g s).2.cell i).regionaez_raster =
        composite_code c c.NOMATCH (g.aez_bounds_new i)) ∧
    (¬ (g.ctry2ctry87codes_gtap (fao_index_of c g (g.country_fao i)) ≠ c.NOMATCH ∧
        g.ctry2regioncodes_gcam (fao_index_of c g (g.country_fao i)) = c.NOMATCH) →
      ((get_land_cells c ri g s).2.cell i).regionaez_raster =
        composite_code c ((get_land_cells c ri g s).2.cell i).region_raster
          (g.aez_bounds_new i)) := by
  obtain ⟨h1, h2, h3, h4⟩ := hw
  rw [ok_cell hE s hok hi]
  simp only [h1, h2, h3, or_self, if_false, ne_eq, not_false_eq_true, if_true]
  rw [canonical_store_cell, pre_blocks_cell]
  by_cases h5 : g.ctry2ctry87codes_gtap (fao_index_of c g (g.country_fao i)) = c.NOMATCH
  · have h6 : g.countrycodes_fao (fao_index_of c g (g.country_fao i)) = srb_code ∨
        g.countrycodes_fao (fao_index_of c g (g.country_fao i)) = mne_code := by
      rcases h4 with h | h
      · exact absurd h5 h
      · exact h
    simp [h5, h6, composite_code_round_left]
  · by_cases h7 : g.ctry2regioncodes_gcam (fao_index_of c g (g.country_fao i)) = c.NOMATCH
    · simp [h5, h7, composite_code_round_left]
    · simp [h5, h7, composite_code_round_left]

end
end Moirai

namespace Moirai
section
variable {c : Consts} {ri : rinfo_struct} {g g' : Grids} {i j : Nat} {s s' : State}

/-- C7. Merge rule: after `get_land_cells` returns `OK`, two cells with valid hyde land area
and the same valid new zone, one with raw country code 272 and the other 273, both codes
in the country table with ctry87 lookup `NOMATCH`, hold identical values in
`country87_gtap`, `region_gcam`, `region_raster`, `country_out`, `ctryaez_raster`,
`regionaez_raster` and `aez_out`; the values are those of the table entry of the merged
code 186, and `country87_gtap` and `region_gcam` are not `NODATA` when the lookups of
that entry are resolved.  The float rasters hold the float values of the codes and of
the composites, which are the codes and the exact composites when the operands, the product
and the sum are at most `2 ^ 24` in magnitude. -/
theorem C7_merge_rule (c : Consts) (ri : rinfo_struct) (g : Grids) (i j : Nat)
    (hE : c.ERROR_IND ≠ OK) (hN : c.NOMATCH < 0) (s : State)
    (hok : (get_land_cells c ri g s).1 = OK) (hi : i < c.NUM_CELLS) (hj : j < c.NUM_CELLS)
    (hhi : g.land_area_hyde i ≠ ri.land_area_hyde_nodata)
    (hhj : g.land_area_hyde j ≠ ri.land_area_hyde_nodata)
    (hzi : g.aez_bounds_new i ≠ ri.aez_new_nodata)
    (hz : g.aez_bounds_new i = g.aez_bounds_new j)
    (hci : g.country_fao i = srb_code) (hcj : g.country_fao j = mne_code)
    (hcv : srb_code ≠ ri.country_fao_nodata ∧ mne_code ≠ ri.country_fao_nodata)
    (hts : in_table c g srb_code) (htm : in_table c g mne_code) (htg : in_table c g scg_code)
    (hls : g.ctry2ctry87codes_gtap (fao_index_of c g srb_code) = c.NOMATCH)
    (hlm : g.ctry2ctry87codes_gtap (fao_index_of c g mne_code) = c.NOMATCH) :
    g.countrycodes_fao (fao_index_of c g scg_code) = scg_code ∧
    ((get_land_cells c ri g s).2.cell i).country87_gtap =
        g.ctry2ctry87codes_gtap (fao_index_of c g scg_code) ∧
      ((get_land_cells c ri g s).2.cell i).region_gcam =
        g.ctry2regioncodes_gcam (fao_index_of c g scg_code) ∧
      ((get_land_cells c ri g s).2.cell i).region_raster =
        float_round (g.ctry2regioncodes_gcam (fao_index_of c g scg_code)) ∧
      ((get_land_cells c ri g s).2.cell i).country_out = scg_code ∧
      ((get_land_cells c ri g s).2.cell i).ctryaez_raster =
        composite_code c scg_code (g.aez_bounds_new i) ∧
      ((get_land_cells c ri g s).2.cell i).regionaez_raster =
        composite_code c (g.ctry2regioncodes_gcam (fao_index_of c g scg_code))
          (g.aez_bounds_new i) ∧
      ((get_land_cells c ri g s).2.cell i).aez_out = float_round (g.aez_bounds_new i) ∧
    ((get_land_cells c ri g s).2.cell j).country87_gtap =
        ((get_land_cells c ri g s).2.cell i).country87_gtap ∧
      ((get_land_cells c ri g s).2.cell j).region_gcam =
        ((get_land_cells c ri g s).2.cell i).region_gcam ∧
      ((get_land_cells c ri g s).2.cell j).region_raster =
        ((get_land_cells c ri g s).2.cell i).region_raster ∧
      ((get_land_cells c ri g s).2.cell j).country_out =
        ((get_land_cells c ri g s).2.cell i).country_out ∧
      ((get_land_cells c ri g s).2.cell j).ctryaez_raster =
        ((get_land_cells c ri g s).2.cell i).ctryaez_raster ∧
      ((get_land_cells c ri g s).2.cell j).regionaez_raster =
        ((get_land_cells c ri g s).2.cell i).regionaez_raster ∧
      ((get_land_cells c ri g s).2.cell j).aez_out =
        ((get_land_cells c ri g s).2.cell i).aez_out ∧
    (resolved c (g.ctry2ctry87codes_gtap (fao_index_of c g scg_code)) →
      ((get_land_cells c ri g s).2.cell i).country87_gtap ≠ c.NODATA) ∧
    (resolved c (g.ctry2regioncodes_gcam (fao_index_of c g scg_code)) →
      ((get_land_cells c ri g s).2.cell i).region_gcam ≠ c.NODATA) ∧
    (float_exact c.FAOCTRY2GCAMCTRYAEZID → float_exact (g.aez_bounds_new i) →
      ((get_land_cells c ri g s).2.cell i).aez_out = g.aez_bounds_new i ∧
      (float_exact (scg_code * c.FAOCTRY2GCAMCTRYAEZID) →
        float_exact (scg_code * c.FAOCTRY2GCAMCTRYAEZID + g.aez_bounds_new i) →
        ((get_land_cells c ri g s).2.cell i).ctryaez_raster =
          scg_code * c.FAOCTRY2GCAMCTRYAEZID + g.aez_bounds_new i) ∧
      (float_exact (g.ctry2regioncodes_gcam (fao_index_of c g scg_code)) →
        ((get_land_cells c ri g s).2.cell i).region_raster =
          g.ctry2regioncodes_gcam (fao_index_of c g scg_code) ∧
        (float_exact
            (g.ctry2regioncodes_gcam (fao_index_of c g scg_code) * c.FAOCTRY2GCAMCTRYAEZID) →
          float_exact
            (g.ctry2regioncodes_gcam (fao_index_of c g scg_code) * c.FAOCTRY2GCAMCTRYAEZID
              + g.aez_bounds_new i) →
          ((get_land_cells c ri g s).2.cell i).regionaez_raster =
            g.ctry2regioncodes_gcam (fao_index_of c g scg_code) * c.FAOCTRY2GCAMCTRYAEZID
              + g.aez_bounds_new i))) := by
  have hzj : g.aez_bounds_new j ≠ ri.aez_new_nodata := hz ▸ hzi
  have hfs : g.countrycodes_fao (fao_index_of c g srb_code) = srb_code :=
    fao_index_found (fun h => (fao_index_nomatch_iff hN _).mp h hts)
  have hfm : g.countrycodes_fao (fao_index_of c g mne_code) = mne_code :=
    fao_index_found (fun h => (fao_index_nomatch_iff hN _).mp h htm)
  have hfg : g.countrycodes_fao (fao_index_of c g scg_code) = scg_code :=
    fao_index_found (fun h => (fao_index_nomatch_iff hN _).mp h htg)
  have hri : (get_land_cells c ri g s).2.cell i = _ := ok_cell hE s hok hi
  have hrj : (get_land_cells c ri g s).2.cell j = _ := ok_cell hE s hok hj
  simp only [hhi, hzi, hci, hcv.1, or_self, if_false, ne_eq, not_false_eq_true, if_true]
    at hri
  simp only [hhj, hzj, hcj, hcv.2, or_self, if_false, ne_eq, not_false_eq_true, if_true]
    at hrj
  rw [canonical_store_cell, pre_blocks_cell] at hri hrj
  simp only [hls, hfs, ne_eq, not_true_eq_false, if_false, true_or, if_true] at hri
  simp only [hlm, hfm, ne_eq, not_true_eq_false, if_false, or_true, if_true] at hrj
  rw [hri, hrj]
  refine ⟨hfg, rfl, rfl, rfl, rfl, rfl, rfl, rfl, rfl, rfl, rfl, rfl, ?_, ?_, ?_, ?_, ?_,
    fun hM hze => ⟨?_, ?_, ?_⟩⟩
  · simp only [hz]
  · simp only [hz]
  · simp only [hz]
  · exact fun h => h.2
  · exact fun h => h.2
  · exact float_round_exact _ hze
  · intro hprod hsum
    exact composite_code_exact c _ _ (by decide) hM hze hprod hsum
  · intro hp
    refine ⟨float_round_exact _ hp, fun hprod hsum => ?_⟩
    exact composite_code_exact c _ _ hp hM hze hprod hsum

/-- After a run that returned `OK`, the non-land rasters of a cell without hyde land area
equal the canonical rasters of a cell with hyde land area, the same zone and the same
country, and the canonical outputs of the former hold `NODATA`. -/
theorem noland_mirror (hE : c.ERROR_IND ≠ OK) (s : State)
    (hok : (get_land_cells c ri g s).1 = OK) (hi : i < c.NUM_CELLS) (hj : j < c.NUM_CELLS)
    (hhi : g.land_area_hyde i = ri.land_area_hyde_nodata)
    (hhj : g.land_area_hyde j ≠ ri.land_area_hyde_nodata)
    (hzi : g.aez_bounds_new i ≠ ri.aez_new_nodata)
    (hz : g.aez_bounds_new i = g.aez_bounds_new j)
    (hc : g.country_fao i = g.country_fao j) :
    ((get_land_cells c ri g s).2.cell i).country_out_noland =
        ((get_land_cells c ri g s).2.cell j).country_out ∧
      ((get_land_cells c ri g s).2.cell i).region_raster_noland =
        ((get_land_cells c ri g s).2.cell j).region_raster ∧
      ((get_land_cells c ri g s).2.cell i).aez_out_noland =
        ((get_land_cells c ri g s).2.cell j).aez_out ∧
      ((get_land_cells c ri g s).2.cell i).ctryaez_raster_noland =
        ((get_land_cells c ri g s).2.cell j).ctryaez_raster ∧
      ((get_land_cells c ri g s).2.cell i).regionaez_raster_noland =
        ((get_land_cells c ri g s).2.cell j).regionaez_raster ∧
    canonical_nodata c ((get_land_cells c ri g s).2.cell i) := by
  have hzj : g.aez_bounds_new j ≠ ri.aez_new_nodata := hz ▸ hzi
  have hri : (get_land_cells c ri g s).2.cell i = _ := ok_cell hE s hok hi
  have hrj : (get_land_cells c ri g s).2.cell j = _ := ok_cell hE s hok hj
  rw [hri, hrj, hc, hz]
  simp only [hhi, hhj, hzj, false_or, ne_eq, not_true_eq_false, not_false_eq_true, if_false,
    if_true]
  unfold canonical_nodata
  by_cases h1 : g.country_fao j = ri.country_fao_nodata
  · simp only [h1, if_true, pre_blocks_cell]
    simp
  · simp only [h1, if_false, canonical_store_cell, noland_store_cell, pre_blocks_cell, hz]
    by_cases h5 : g.ctry2ctry87codes_gtap (fao_index_of c g (g.country_fao j)) = c.NOMATCH
    · by_cases h6 : g.countrycodes_fao (fao_index_of c g (g.country_fao j)) = srb_code ∨
          g.countrycodes_fao (fao_index_of c g (g.country_fao j)) = mne_code
      · simp [h5, h6, hc]
      · simp [h5, h6, hc]
    · by_cases h7 : g.ctry2regioncodes_gcam (fao_index_of c g (g.country_fao j)) = c.NOMATCH <;>
        simp [h5, h7, hc]

/-- After a run that returned `OK`, a cell with hyde land area holds `NODATA` in every
non-land raster. -/
theorem land_cell_noland_nodata (hE : c.ERROR_IND ≠ OK) (s : State)
    (hok : (get_land_cells c ri g s).1 = OK) (m : Nat) (hm : m < c.NUM_CELLS)
    (hhm : g.land_area_hyde m ≠ ri.land_area_hyde_nodata) :
    noland_nodata c ((get_land_cells c ri g s).2.cell m) := by
  rw [ok_cell hE s hok hm]
  unfold noland_nodata
  by_cases h0 : g.aez_bounds_new m = ri.aez_new_nodata ∨
      g.country_fao m = ri.country_fao_nodata
  · simp only [h0, if_true, pre_blocks_cell]
    simp
  · simp only [h0, hhm, if_false, ne_eq, not_false_eq_true, if_true, canonical_store_cell,
      pre_blocks_cell]
    split_ifs <;> simp

/-- C8. After `get_land_cells` returns `OK`, a cell with invalid hyde land area and valid new
zone holds in the non-land rasters exactly the values that a cell with the same country and
zone but valid hyde land area holds in the canonical rasters, and all its canonical outputs
are `NODATA`; conversely every cell with valid hyde land area holds `NODATA` in every
non-land raster. -/
theorem C8_noland_mirrors_canonical (c : Consts) (ri : rinfo_struct) (g : Grids) (i j : Nat)
    (hE : c.ERROR_IND ≠ OK) (s : State)
    (hok : (get_land_cells c ri g s).1 = OK) (hi : i < c.NUM_CELLS) (hj : j < c.NUM_CELLS)
    (hhi : g.land_area_hyde i = ri.land_area_hyde_nodata)
    (hhj : g.land_area_hyde j ≠ ri.land_area_hyde_nodata)
    (hzi : g.aez_bounds_new i ≠ ri.aez_new_nodata)
    (hz : g.aez_bounds_new i = g.aez_bounds_new j)
    (hc : g.country_fao i = g.country_fao j) :
    ((get_land_cells c ri g s).2.cell i).country_out_noland =
        ((get_land_cells c ri g s).2.cell j).country_out ∧
      ((get_land_cells c ri g s).2.cell i).region_raster_noland =
        ((get_land_cells c ri g s).2.cell j).region_raster ∧
      ((get_land_cells c ri g s).2.cell i).aez_out_noland =
        ((get_land_cells c ri g s).2.cell j).aez_out ∧
      ((get_land_cells c ri g s).2.cell i).ctryaez_raster_noland =
        ((get_land_cells c ri g s).2.cell j).ctryaez_raster ∧
      ((get_land_cells c ri g s).2.cell i).regionaez_raster_noland =
        ((get_land_cells c ri g s).2.cell j).regionaez_raster ∧
    canonical_nodata c ((get_land_cells c ri g s).2.cell i) ∧
    (∀ m, m < c.NUM_CELLS → g.land_area_hyde m ≠ ri.land_area_hyde_nodata →
      noland_nodata c ((get_land_cells c ri g s).2.cell m)) := by
  obtain ⟨h1, h2, h3, h4, h5, h6⟩ := noland_mirror hE s hok hi hj hhi hhj hzi hz hc
  exact ⟨h1, h2, h3, h4, h5, h6, fun m hm hhm => land_cell_noland_nodata hE s hok m hm hhm⟩

end
end Moirai

namespace Moirai
section
variable {c : Consts} {ri : rinfo_struct} {g g' : Grids} {i j : Nat} {s s' : State}

theorem set_masks_ledger (s : State) : (set_masks ri g i s).ledger = s.ledger := by
  have h1 : ∀ t : State, (mask_aez_orig ri g i t).ledger = t.ledger := fun t => by
    unfold mask_aez_orig; split_ifs <;> rfl
  have h2 : ∀ t : State, (mask_aez_new ri g i t).ledger = t.ledger := fun t => by
    unfold mask_aez_new; split_ifs <;> rfl
  have h3 : ∀ t : State, (mask_sage ri g i t).ledger = t.ledger := fun t => by
    unfold mask_sage; split_ifs <;> rfl
  have h4 : ∀ t : State, (mask_hyde ri g i t).ledger = t.ledger := fun t => by
    unfold mask_hyde; split_ifs <;> rfl
  have h5 : ∀ t : State, (mask_fao ri g i t).ledger = t.ledger := fun t => by
    unfold mask_fao; split_ifs <;> rfl
  have h6 : ∀ t : State, (mask_potveg ri g i t).ledger = t.ledger := fun t => by
    unfold mask_potveg; split_ifs <;> rfl
  unfold set_masks
  rw [h6, h5, h4, h3, h2, h1]

/-- The masks of cell `i` when the area accumulators are updated. -/
theorem set_masks_init_cell (c : Consts) (ri : rinfo_struct) (g : Grids) (i : Nat) (s : State) :
    ((set_masks ri g i (init_cell c i s)).cell i).land_mask_aez_orig =
        (if g.aez_bounds_orig i ≠ ri.aez_orig_nodata then 1 else 0) ∧
      ((set_masks ri g i (init_cell c i s)).cell i).land_mask_aez_new =
        (if g.aez_bounds_new i ≠ ri.aez_new_nodata then 1 else 0) ∧
      ((set_masks ri g i (init_cell c i s)).cell i).land_mask_sage =
        (if g.land_area_sage i ≠ ri.land_area_sage_nodata then 1 else 0) ∧
      ((set_masks ri g i (init_cell c i s)).cell i).land_mask_hyde =
        (if g.land_area_hyde i ≠ ri.land_area_hyde_nodata then 1 else 0) ∧
      ((set_masks ri g i (init_cell c i s)).cell i).land_mask_fao =
        (if g.country_fao i ≠ ri.country_fao_nodata then 1 else 0) ∧
      ((set_masks ri g i (init_cell c i s)).cell i).land_mask_potveg =
        (if g.potveg_thematic i ≠ ri.potveg_nodata then 1 else 0) := by
  unfold set_masks
  simp only [mask_potveg_cell, mask_fao_cell, mask_hyde_cell, mask_sage_cell, mask_aez_new_cell,
    mask_aez_orig_cell, init_cell, upd_cell_self]
  by_cases h1 : g.aez_bounds_orig i = ri.aez_orig_nodata <;>
  by_cases h2 : g.aez_bounds_new i = ri.aez_new_nodata <;>
  by_cases h3 : g.land_area_sage i = ri.land_area_sage_nodata <;>
  by_cases h4 : g.land_area_hyde i = ri.land_area_hyde_nodata <;>
  by_cases h5 : g.cell_area_hyde i = ri.cell_area_hyde_nodata <;>
  by_cases h6 : g.country_fao i = ri.country_fao_nodata <;>
  by_cases h7 : g.potveg_thematic i = ri.potveg_nodata <;>
  simp [h1, h2, h3, h4, h5, h6, h7]

theorem pre_blocks_ledger (c : Consts) (ri : rinfo_struct) (g : Grids) (i : Nat) (s : State) :
    (pre_blocks c ri g i s).ledger =
      track_hyde g i ((set_masks ri g i (init_cell c i s)).cell i)
        (track_sage g i ((set_masks ri g i (init_cell c i s)).cell i) s.ledger) := by
  have h1 : ∀ t : State, (overlap_diff ri g i t).ledger = t.ledger := fun t => by
    unfold overlap_diff; split_ifs <;> rfl
  unfold pre_blocks
  rw [show ∀ t : State, (init_working c i t).ledger = t.ledger from fun _ => rfl, h1]
  simp only [track_area, set_masks_ledger]
  rfl

theorem canonical_store_ledger (k : Int) (s : State) :
    (canonical_store c g i k s).ledger = s.ledger := by
  unfold canonical_store; split_ifs <;> rfl

theorem noland_store_ledger (k : Int) (s : State) :
    (noland_store c g i k s).ledger = s.ledger := by
  unfold noland_store; split_ifs <;> rfl

theorem cell_body_ledger (c : Consts) (ri : rinfo_struct) (g : Grids) (i : Nat) (s : State) :
    (cell_body c ri g i s).state.ledger = (pre_blocks c ri g i s).ledger := by
  rw [cell_body_eq]
  split_ifs <;> simp [Flow.state, canonical_store_ledger, noland_store_ledger]

/-- C5, as amended. `get_land_cells` returns `ERROR_IND` exactly when some cell of the grid
with a valid new zone has a valid raw country code that occurs nowhere in
`countrycodes_fao`. -/
theorem C5_index_error_iff (c : Consts) (ri : rinfo_struct) (g : Grids)
    (hE : c.ERROR_IND ≠ OK) (hN : c.NOMATCH < 0) (s : State) :
    (get_land_cells c ri g s).1 = c.ERROR_IND ↔
      ∃ i, i < c.NUM_CELLS ∧ g.aez_bounds_new i ≠ ri.aez_new_nodata ∧
        g.country_fao i ≠ ri.country_fao_nodata ∧ ¬ in_table c g (g.country_fao i) := by
  unfold get_land_cells
  rw [cell_loop_code]
  constructor
  · intro h
    by_cases hex : ∃ k, k < 0 + c.NUM_CELLS ∧ (0 ≤ k ∧ index_error c ri g k)
    · obtain ⟨k, hk, _, h1, h2, h3⟩ := hex
      exact ⟨k, by omega, h1, h2, (fao_index_nomatch_iff hN _).mp h3⟩
    · rw [if_neg hex] at h
      exact absurd h.symm hE
  · rintro ⟨k, hk, h1, h2, h3⟩
    have : ∃ k, k < 0 + c.NUM_CELLS ∧ (0 ≤ k ∧ index_error c ri g k) :=
      ⟨k, by omega, Nat.zero_le _, h1, h2, (fao_index_nomatch_iff hN _).mpr h3⟩
    rw [if_pos this]

/-- C6. A cell with valid hyde land area and valid new zone, and with either no country code
or a country of the table whose ctry87 lookup is `NOMATCH` and whose code is neither 272
nor 273: the pass of the loop body through it never returns an error; after a run that
returned `OK` all its canonical outputs hold `NODATA`; in the no-country case the pass adds
its hyde land area to `fao_hyde_area_lost`; and the return code and the record of every
other cell are those of a run on any grid that differs only at this cell and raises no
index error there (in particular a grid where the cell has no data). -/
theorem C6_skipped_cell (c : Consts) (ri : rinfo_struct) (g : Grids) (i : Nat)
    (hE : c.ERROR_IND ≠ OK) (hN : c.NOMATCH < 0) (hi : i < c.NUM_CELLS)
    (hh : g.land_area_hyde i ≠ ri.land_area_hyde_nodata)
    (hz : g.aez_bounds_new i ≠ ri.aez_new_nodata)
    (hskip : g.country_fao i = ri.country_fao_nodata ∨
      (in_table c g (g.country_fao i) ∧
        g.ctry2ctry87codes_gtap (fao_index_of c g (g.country_fao i)) = c.NOMATCH ∧
        g.country_fao i ≠ srb_code ∧ g.country_fao i ≠ mne_code)) :
    (∀ s e s1, cell_body c ri g i s ≠ .ret e s1) ∧
    (∀ s, (get_land_cells c ri g s).1 = OK →
      canonical_nodata c ((get_land_cells c ri g s).2.cell i)) ∧
    (g.country_fao i = ri.country_fao_nodata → ∀ s,
      (cell_body c ri g i s).state.ledger.fao_hyde_area_lost =
        s.ledger.fao_hyde_area_lost + g.land_area_hyde i) ∧
    (∀ g' s, (∀ j, j ≠ i → SameAt g g' j) → ¬ index_error c ri g' i →
      (get_land_cells c ri g s).1 = (get_land_cells c ri g' s).1 ∧
      ∀ j, j ≠ i → (get_land_cells c ri g s).2.cell j = (get_land_cells c ri g' s).2.cell j) := by
  have hne : ¬ index_error c ri g i := by
    rintro ⟨_, h2, h3⟩
    rcases hskip with h | ⟨h, _⟩
    · exact h2 h
    · exact (fao_index_nomatch_iff hN _).mp h3 h
  refine ⟨fun s e s1 hc => hne (cell_body_is_ret_iff.mp ⟨e, s1, hc⟩), ?_, ?_, ?_⟩
  · intro s hok
    rw [ok_cell hE s hok hi]
    unfold canonical_nodata
    rcases hskip with h | ⟨h1, h2, h3, h4⟩
    · simp [h, pre_blocks_cell]
    · by_cases hcn : g.country_fao i = ri.country_fao_nodata
      · simp [hcn, pre_blocks_cell]
      · have hf : g.countrycodes_fao (fao_index_of c g (g.country_fao i)) = g.country_fao i :=
          fao_index_found (fun h => (fao_index_nomatch_iff hN _).mp h h1)
        simp [hz, hcn, hh, canonical_store_cell, h2, hf, h3, h4, pre_blocks_cell]
  · intro hcn s
    rw [cell_body_ledger, pre_blocks_ledger]
    obtain ⟨_, _, _, h4, h5, _⟩ := set_masks_init_cell c ri g i s
    simp only [hh, ne_eq, not_false_eq_true, if_true] at h4
    simp only [hcn, ne_eq, not_true_eq_false, if_false] at h5
    unfold track_hyde
    rw [if_pos h4]
    simp only [add_if, h5, if_true]
    unfold track_sage
    split_ifs <;> rfl
  · intro g' s hsame hne'
    have herr : ∀ k, index_error c ri g k ↔ index_error c ri g' k := by
      intro k
      by_cases hk : k = i
      · subst hk; exact ⟨fun h => absurd h hne, fun h => absurd h hne'⟩
      · exact (hsame k hk).index_error
    constructor
    · unfold get_land_cells
      rw [cell_loop_code, cell_loop_code]
      simp only [herr]
    · intro j hj
      unfold get_land_cells
      rw [cell_loop_cell, cell_loop_cell]
      have hcb : (cell_body c ri g j (enter_get_land_cells s)).state.cell j =
          (cell_body c ri g' j (enter_get_land_cells s)).state.cell j :=
        cell_body_congr (hsame j hj) rfl
      simp only [herr, hcb]

end
end Moirai

namespace Moirai

/-- C3, evaluated at a grid whose merged entry 186 has no ctry87 code and no region: the
run returns `OK`; cell 2 (hyde land, zone 7, serbia) has a country whose ctry87 lookup is
`NOMATCH` both directly and through the merged entry, yet its canonical outputs are
written: `country_out = 186`, `aez_out = 7`, `ctryaez_raster = 186007`, and `country87_gtap`,
`region_gcam`, `region_raster` hold `NOMATCH` instead of `NODATA`. -/
theorem C3_unresolved_merged_entry_is_written :
    (get_land_cells demo_consts demo_rinfo unmerged_grid zero_state).1 = OK ∧
    unmerged_grid.land_area_hyde 2 ≠ demo_rinfo.land_area_hyde_nodata ∧
    unmerged_grid.aez_bounds_new 2 ≠ demo_rinfo.aez_new_nodata ∧
    unmerged_grid.country_fao 2 = srb_code ∧
    unmerged_grid.ctry2ctry87codes_gtap (fao_index_of demo_consts unmerged_grid srb_code)
      = demo_consts.NOMATCH ∧
    unmerged_grid.ctry2ctry87codes_gtap (fao_index_of demo_consts unmerged_grid scg_code)
      = demo_consts.NOMATCH ∧
    unmerged_grid.ctry2regioncodes_gcam (fao_index_of demo_consts unmerged_grid scg_code)
      = demo_consts.NOMATCH ∧
    ((get_land_cells demo_consts demo_rinfo unmerged_grid zero_state).2.cell 2).country_out
      = 186 ∧
    ((get_land_cells demo_consts demo_rinfo unmerged_grid zero_state).2.cell 2).aez_out = 7 ∧
    ((get_land_cells demo_consts demo_rinfo unmerged_grid zero_state).2.cell 2).ctryaez_raster
      = 186007 ∧
    ((get_land_cells demo_consts demo_rinfo unmerged_grid zero_state).2.cell 2).regionaez_raster
      = -993 ∧
    ((get_land_cells demo_consts demo_rinfo unmerged_grid zero_state).2.cell 2).country87_gtap
      = -1 ∧
    ((get_land_cells demo_consts demo_rinfo unmerged_grid zero_state).2.cell 2).region_gcam
      = -1 ∧
    ((get_land_cells demo_consts demo_rinfo unmerged_grid zero_state).2.cell 2).region_raster
      = -1 ∧
    demo_consts.NODATA = -9999 := by
  decide

/-- C5 as stated fails: on the grid with a stray code the run returns `OK`, although cell 0
has a valid raw country code (999) that occurs nowhere in the country table; the cell has
no new zone, so the table is never searched for it. -/
theorem C5_counterexample :
    ¬ ((get_land_cells demo_consts demo_rinfo stray_grid zero_state).1 = demo_consts.ERROR_IND ↔
      ∃ i, i < demo_consts.NUM_CELLS ∧
        stray_grid.country_fao i ≠ demo_rinfo.country_fao_nodata ∧
        ¬ in_table demo_consts stray_grid (stray_grid.country_fao i)) := by
  decide

/-- C5, as amended, at the sample grid with an unknown country at a zoned cell: the run
returns `ERROR_IND`. -/
theorem C5_index_error_iff_witness :
    demo_consts.ERROR_IND ≠ OK ∧ demo_consts.NOMATCH < 0 ∧
    ((get_land_cells demo_consts demo_rinfo unknown_grid zero_state).1 = demo_consts.ERROR_IND ↔
      ∃ i, i < demo_consts.NUM_CELLS ∧ unknown_grid.aez_bounds_new i ≠ demo_rinfo.aez_new_nodata ∧
        unknown_grid.country_fao i ≠ demo_rinfo.country_fao_nodata ∧
        ¬ in_table demo_consts unknown_grid (unknown_grid.country_fao i)) :=
  ⟨by decide, by decide, C5_index_error_iff demo_consts demo_rinfo unknown_grid (by decide) (by decide) zero_state⟩

/-- C6 at the sample grid: cell 4 (land, zone 9, no country) keeps `NODATA` in every
canonical output. -/
theorem C6_skipped_cell_witness :
    canonical_nodata demo_consts
      ((get_land_cells demo_consts demo_rinfo demo_grid zero_state).2.cell 4) :=
  (C6_skipped_cell demo_consts demo_rinfo demo_grid 4
    (by decide) (by decide) (by decide) (by decide) (by decide) (by decide)).2.1
    zero_state (by decide)

/-- C7 at the sample grid: cells 2 (serbia) and 3 (montenegro) both carry the ctry87 code
40 of the merged entry. -/
theorem C7_merge_rule_witness :
    ((get_land_cells demo_consts demo_rinfo demo_grid zero_state).2.cell 2).country87_gtap
      = demo_grid.ctry2ctry87codes_gtap (fao_index_of demo_consts demo_grid scg_code) ∧
    ((get_land_cells demo_consts demo_rinfo demo_grid zero_state).2.cell 3).country87_gtap
      = ((get_land_cells demo_consts demo_rinfo demo_grid zero_state).2.cell 2).country87_gtap :=
  have h := C7_merge_rule demo_consts demo_rinfo demo_grid 2 3
    (by decide) (by decide) zero_state (by decide) (by decide) (by decide) (by decide)
    (by decide) (by decide) (by decide) (by decide) (by decide) (by decide) (by decide)
    (by decide) (by decide) (by decide) (by decide)
  ⟨h.2.1, h.2.2.2.2.2.2.2.2.1⟩

/-- C8 at the sample grid: cell 1 (no land, zone 12, country 8) holds in the non-land
rasters what cell 0 (land, zone 12, country 8) holds in the canonical ones. -/
theorem C8_noland_mirrors_canonical_witness :
    ((get_land_cells demo_consts demo_rinfo demo_grid zero_state).2.cell 1).ctryaez_raster_noland
      = ((get_land_cells demo_consts demo_rinfo demo_grid zero_state).2.cell 0).ctryaez_raster ∧
    canonical_nodata demo_consts
      ((get_land_cells demo_consts demo_rinfo demo_grid zero_state).2.cell 1) ∧
    noland_nodata demo_consts
      ((get_land_cells demo_consts demo_rinfo demo_grid zero_state).2.cell 0) :=
  have h := C8_noland_mirrors_canonical demo_consts demo_rinfo demo_grid 1 0
    (by decide) zero_state (by decide) (by decide) (by decide) (by decide)
    (by decide) (by decide) (by decide) (by decide)
  ⟨h.2.2.2.1, h.2.2.2.2.2.1, h.2.2.2.2.2.2 0 (by decide) (by decide)⟩

end Moirai

namespace Moirai

theorem for_loop_invariant {σ : Type} (body : Nat → σ → σ) (P : Nat → σ → Prop) :
    ∀ n lo s, P lo s → (∀ k t, lo ≤ k → k < lo + n → P k t → P (k + 1) (body k t)) →
      P (lo + n) (for_loop body n lo s) := by
  intro n
  induction n with
  | zero => intro lo s h _; simpa [for_loop] using h
  | succ n ih =>
    intro lo s h hstep
    have h1 := ih (lo + 1) (body lo s) (hstep lo s (le_refl _) (by omega) h)
      (fun k t hk1 hk2 hP => hstep k t (by omega) (by omega) hP)
    have : lo + (n + 1) = lo + 1 + n := by omega
    rw [this]
    exact h1

theorem swap_entries_length (row : List Nat) (j m : Nat) :
    (swap_entries row j m).length = row.length := by
  simp [swap_entries]

theorem swap_entries_perm (row : List Nat) (j m : Nat) (hj : j < row.length)
    (hm : m < row.length) : (swap_entries row j m).Perm row := by
  rw [List.perm_iff_count]
  intro a
  unfold swap_entries
  have hgj : row.getD j 0 = row[j] := by simp [List.getD_eq_getElem?_getD, hj]
  have hgm : row.getD m 0 = row[m] := by simp [List.getD_eq_getElem?_getD, hm]
  generalize row.getD m 0 = x at hgm
  generalize row.getD j 0 = y at hgj
  have hm' : m < (row.set j x).length := by simpa using hm
  have hx : (row.set j x)[m] = x := by
    by_cases hjm : j = m
    · subst hjm; simp
    · rw [List.getElem_set_ne hjm]; exact hgm.symm
  have hcj : (if row[j] == a then 1 else 0) ≤ row.count a := by
    split
    · next h =>
      have h1 : row[j] = a := by simpa using h
      have hmem : a ∈ row := h1 ▸ List.getElem_mem hj
      exact List.count_pos_iff.mpr hmem
    · exact Nat.zero_le _
  rw [List.count_set _ _ _ _ hm', List.count_set _ _ _ _ hj, hx, hgj]
  omega

theorem fill_identity_eq (N : Nat) : fill_identity N (List.replicate N 0) = List.range N := by
  have h := for_loop_invariant (fun j (r : List Nat) => r.set j j)
    (fun k r => r.length = N ∧ ∀ i (hi : i < r.length), i < k → r[i] = i) N 0
    (List.replicate N 0) ⟨by simp, fun i _ hi => by omega⟩
    (fun k t _ hk ⟨hl, hv⟩ => by
      refine ⟨by simpa using hl, fun i hi hik => ?_⟩
      by_cases hki : k = i
      · subst hki; simp
      · rw [List.getElem_set_ne hki]
        exact hv i (by simpa using hi) (by omega))
  unfold fill_identity
  apply List.ext_getElem
  · simpa using h.1
  · intro i h1 h2
    rw [h.2 i h1 (by simpa using h2)]
    simp

theorem shuffle_loop_perm (rnd : Nat → Nat) : ∀ j (p : List Nat × Nat), j < p.1.length →
    (shuffle_loop rnd j p).1.Perm p.1 := by
  intro j
  induction j with
  | zero => intro p _; exact List.Perm.refl _
  | succ j ih =>
    intro p hj
    unfold shuffle_loop
    have hm : rnd p.2 % (j + 1 + 1) < p.1.length := by
      have := Nat.mod_lt (rnd p.2) (show 0 < j + 1 + 1 by omega)
      omega
    have hp := swap_entries_perm p.1 (j + 1) (rnd p.2 % (j + 1 + 1)) hj hm
    exact (ih _ (by simp only [swap_entries_length]; omega)).trans hp

/-- Every row built for `rand_order` is a permutation of the identity row. -/
theorem build_row_perm (rnd : Nat → Nat) (N k : Nat) :
    (build_row rnd N k).1.Perm (List.range N) := by
  unfold build_row
  rw [fill_identity_eq]
  by_cases hN : N = 0
  · subst hN; exact List.Perm.refl _
  · exact shuffle_loop_perm rnd (N - 1) (List.range N, k) (by simp; omega)

theorem build_rand_order_rows (rnd : Nat → Nat) (ncells N : Nat) :
    (build_rand_order rnd ncells N).1.length = ncells ∧
    ∀ i, i < ncells → ∃ k, (build_rand_order rnd ncells N).1.getD i [] = (build_row rnd N k).1 := by
  have h := for_loop_invariant
    (fun i (p : List (List Nat) × Nat) =>
      ((p.1.set i (build_row rnd N p.2).1), (build_row rnd N p.2).2))
    (fun m p => p.1.length = ncells ∧
      ∀ i, i < m → i < ncells → ∃ k, p.1.getD i [] = (build_row rnd N k).1)
    ncells 0 (List.replicate ncells [], 0) ⟨by simp, fun i hi _ => by omega⟩
    (fun m p _ hm ⟨hl, hv⟩ => by
      refine ⟨by simpa using hl, fun i him hin => ?_⟩
      by_cases hmi : m = i
      · subst hmi
        exact ⟨p.2, by simp [List.getD_eq_getElem?_getD, hl, hin]⟩
      · obtain ⟨k, hk⟩ := hv i (by omega) hin
        refine ⟨k, ?_⟩
        rw [← hk]
        simp [List.getD_eq_getElem?_getD, List.getElem?_set_ne hmi])
  simp only [Nat.zero_add] at h
  exact ⟨h.1, fun i hi => h.2 i hi hi⟩

/-- C2. For every block size `N`, every number of coarse cells, every coarse cell id `i` and
every sequence `rnd` of values returned by `rand()`, the row `rand_order[i]` built by
`calc_refveg_area` is a permutation of `[0, N)`: it has length `N` and holds each of
`0, ..., N - 1` exactly once. -/
theorem C2_rand_order_is_permutation (rnd : Nat → Nat) (ncells_lulc N i : Nat) :
    i < ncells_lulc →
      ((build_rand_order rnd ncells_lulc N).1.getD i []).Perm (List.range N) ∧
      ((build_rand_order rnd ncells_lulc N).1.getD i []).length = N ∧
      ∀ v, v < N → ((build_rand_order rnd ncells_lulc N).1.getD i []).count v = 1 := by
  intro hi
  obtain ⟨k, hk⟩ := (build_rand_order_rows rnd ncells_lulc N).2 i hi
  have hp := build_row_perm rnd N k
  rw [hk]
  refine ⟨hp, ?_, fun v hv => ?_⟩
  · rw [hp.length_eq]; simp
  · rw [hp.count_eq]
    exact List.count_eq_one_of_mem (List.nodup_range N) (List.mem_range.mpr hv)

/-- C2 at a sample: two coarse cells, blocks of four fine cells. -/
theorem C2_rand_order_is_permutation_witness :
    (1 : Nat) < 2 ∧
    ((build_rand_order (fun k => k * 7 + 3) 2 4).1.getD 1 []).Perm (List.range 4) :=
  ⟨by decide, (C2_rand_order_is_permutation (fun k => k * 7 + 3) 2 4 1 (by decide)).1⟩

end Moirai

namespace Moirai

theorem for_loop_offset {σ : Type} (body : Nat → σ → σ) (P : Nat → σ → Prop) :
    ∀ n lo s, P 0 s → (∀ d t, d < n → P d t → P (d + 1) (body (lo + d) t)) →
      P n (for_loop body n lo s) := by
  intro n lo s h0 hstep
  have h := for_loop_invariant body (fun k t => lo ≤ k ∧ P (k - lo) t) n lo s
    ⟨le_refl _, by simpa using h0⟩
    (fun k t hk1 hk2 ⟨_, hP⟩ => by
      refine ⟨by omega, ?_⟩
      have h1 := hstep (k - lo) t (by omega) hP
      have e1 : lo + (k - lo) = k := by omega
      have e2 : k + 1 - lo = k - lo + 1 := by omega
      rw [e1] at h1
      rw [e2]
      exact h1)
  simpa using h.2

/-- After the index loops: `count` is the square of the side, and the entry at position
`a * num_split + t` of `lu_indices` is the id of the fine cell at row `grid_y_ul + a` and
column `grid_x_ul + t`. -/
theorem fill_block_spec (c : Consts) (s : State) (ns gy gx : Nat) (b : Buffers) :
    (fill_block c s ns gy gx b).2 = ns * ns ∧
    ∀ a t, a < ns → t < ns →
      (fill_block c s ns gy gx b).1.lu_indices (a * ns + t) = (gy + a) * c.NUM_LON + (gx + t) := by
  have inner : ∀ m (p : Buffers × Nat),
      (for_loop (fun n q => fill_cell c s m n q) ns gx p).2 = p.2 + ns ∧
      (∀ t, t < ns → (for_loop (fun n q => fill_cell c s m n q) ns gx p).1.lu_indices (p.2 + t)
        = m * c.NUM_LON + (gx + t)) ∧
      (∀ q, q < p.2 → (for_loop (fun n q => fill_cell c s m n q) ns gx p).1.lu_indices q
        = p.1.lu_indices q) := by
    intro m p
    have h := for_loop_offset (fun n q => fill_cell c s m n q)
      (fun d q => q.2 = p.2 + d ∧
        (∀ t, t < d → q.1.lu_indices (p.2 + t) = m * c.NUM_LON + (gx + t)) ∧
        (∀ k, k < p.2 → q.1.lu_indices k = p.1.lu_indices k))
      ns gx p ⟨rfl, fun t ht => by omega, fun _ _ => rfl⟩
      (fun d q _ ⟨h1, h2, h3⟩ => by
        refine ⟨by simp [fill_cell, h1]; omega, fun t ht => ?_, fun k hk => ?_⟩
        · by_cases htd : t = d
          · subst htd; simp [fill_cell, store, h1]
          · have : p.2 + t ≠ q.2 := by omega
            simp only [fill_cell, store, this, if_false]
            exact h2 t (by omega)
        · have : k ≠ q.2 := by omega
          simp only [fill_cell, store, this, if_false]
          exact h3 k hk)
    exact h
  have outer := for_loop_offset
    (fun m p => for_loop (fun n q => fill_cell c s m n q) ns gx p)
    (fun d (q : Buffers × Nat) => q.2 = d * ns ∧
      ∀ a t, a < d → t < ns → q.1.lu_indices (a * ns + t) = (gy + a) * c.NUM_LON + (gx + t))
    ns gy (b, 0) ⟨by simp, fun a t ha _ => by omega⟩
    (fun d q _ ⟨h1, h2⟩ => by
      obtain ⟨i1, i2, i3⟩ := inner (gy + d) q
      refine ⟨by rw [i1, h1, Nat.add_mul, Nat.one_mul], fun a t ha ht => ?_⟩
      by_cases had : a = d
      · subst had
        have := i2 t ht
        rw [h1] at this
        exact this
      · have halt : a < d := by omega
        have hlt : a * ns + t < q.2 := by
          rw [h1]
          calc a * ns + t < a * ns + ns := by omega
            _ = (a + 1) * ns := by rw [Nat.add_mul, Nat.one_mul]
            _ ≤ d * ns := Nat.mul_le_mul_right _ (by omega)
        rw [i3 _ hlt]
        exact h2 a t halt ht)
  exact outer

theorem fill_coarse_count (c : Consts) (ri : rinfo_struct) (s : State) (i : Nat) (b : Buffers) :
    (fill_coarse c ri s i b).2 = num_split ri * num_split ri :=
  (fill_block_spec c s _ _ _ b).1

/-- The id stored at position `k` of the block of coarse cell `i`. -/
theorem fill_coarse_index (c : Consts) (ri : rinfo_struct) (s : State) (i : Nat) (b : Buffers)
    (k : Nat) (hk : k < num_split ri * num_split ri) :
    (fill_coarse c ri s i b).1.lu_indices k = block_cell c ri i k := by
  unfold block_cell
  have hpos : 0 < num_split ri := by
    rcases Nat.eq_zero_or_pos (num_split ri) with h | h
    · rw [h] at hk; omega
    · exact h
  have h := (fill_block_spec c s (num_split ri) (grid_y_ul ri i) (grid_x_ul ri i) b).2
    (k / num_split ri) (k % num_split ri)
    (Nat.div_lt_of_lt_mul hk) (Nat.mod_lt _ hpos)
  have e : k / num_split ri * num_split ri + k % num_split ri = k := by
    rw [Nat.mul_comm]; exact Nat.div_add_mod k (num_split ri)
  rw [e] at h
  exact h

end Moirai

namespace Moirai

theorem row_col_unique {L r r' x x' : Nat} (hx : x < L) (hx' : x' < L)
    (h : r * L + x = r' * L + x') : r = r' ∧ x = x' := by
  have hL : 0 < L := by omega
  have h1 : (r * L + x) / L = r := by
    rw [Nat.add_comm, Nat.add_mul_div_right _ _ hL, Nat.div_eq_of_lt hx, Nat.zero_add]
  have h2 : (r' * L + x') / L = r' := by
    rw [Nat.add_comm, Nat.add_mul_div_right _ _ hL, Nat.div_eq_of_lt hx', Nat.zero_add]
  have hr : r = r' := by rw [← h1, ← h2, h]
  subst hr
  exact ⟨rfl, by omega⟩

/-- For column counts that are natural numbers: the row and column loops of coarse cell `i`
fill `lu_indices` with `num_split * num_split` ids; and when `NUM_LON` is the fine column
count `lu_ncols`, `lu_ncols = num_split * lulc_input_ncols`, `ncells_lulc` is a multiple of
`lulc_input_ncols` and the fine grid has `num_split * (ncells_lulc / lulc_input_ncols)`
rows, these ids are pairwise distinct and each is below `fine_rows * fine_cols`. -/
theorem block_enumeration (c : Consts) (ri : rinfo_struct) (s : State) (b : Buffers)
    (i fine_rows : Nat) (hi : i < ri.lulc_input_ncells)
    (hlon : c.NUM_LON = ri.lu_ncols)
    (hfit : ri.lu_ncols = num_split ri * ri.lulc_input_ncols)
    (hrect : ri.lulc_input_ncols ∣ ri.lulc_input_ncells)
    (hrows : fine_rows = num_split ri * (ri.lulc_input_ncells / ri.lulc_input_ncols)) :
    (fill_coarse c ri s i b).2 = num_split ri * num_split ri ∧
    (∀ k k', k < num_split ri * num_split ri → k' < num_split ri * num_split ri →
      (fill_coarse c ri s i b).1.lu_indices k = (fill_coarse c ri s i b).1.lu_indices k' →
      k = k') ∧
    (∀ k, k < num_split ri * num_split ri →
      (fill_coarse c ri s i b).1.lu_indices k < fine_rows * ri.lu_ncols) := by
  refine ⟨fill_coarse_count c ri s i b, ?_, ?_⟩
  · intro k k' hk hk' heq
    rw [fill_coarse_index c ri s i b k hk, fill_coarse_index c ri s i b k' hk'] at heq
    unfold block_cell at heq
    have hpos : 0 < num_split ri := by
      rcases Nat.eq_zero_or_pos (num_split ri) with h | h
      · rw [h] at hk; omega
      · exact h
    have hnc : 0 < ri.lulc_input_ncols := by
      rcases Nat.eq_zero_or_pos ri.lulc_input_ncols with h | h
      · have : num_split ri = 0 := by unfold num_split; rw [h]; exact Nat.div_zero _
        omega
      · exact h
    have hcol : ∀ q, grid_x_ul ri i + q % num_split ri < c.NUM_LON := by
      intro q
      have h1 : q % num_split ri < num_split ri := Nat.mod_lt _ hpos
      have h2 : i % ri.lulc_input_ncols + 1 ≤ ri.lulc_input_ncols := Nat.mod_lt _ hnc
      have h3 : (i % ri.lulc_input_ncols + 1) * num_split ri ≤
          ri.lulc_input_ncols * num_split ri := Nat.mul_le_mul_right _ h2
      rw [Nat.add_mul, Nat.one_mul] at h3
      rw [hlon, hfit, Nat.mul_comm (num_split ri)]
      unfold grid_x_ul
      omega
    obtain ⟨h1, h2⟩ := row_col_unique (hcol k) (hcol k') heq
    have h3 : k / num_split ri = k' / num_split ri := by omega
    have h4 : k % num_split ri = k' % num_split ri := by omega
    rw [← Nat.div_add_mod k (num_split ri), ← Nat.div_add_mod k' (num_split ri), h3, h4]
  · intro k hk
    rw [fill_coarse_index c ri s i b k hk]
    unfold block_cell
    have hpos : 0 < num_split ri := by
      rcases Nat.eq_zero_or_pos (num_split ri) with h | h
      · rw [h] at hk; omega
      · exact h
    have hnc : 0 < ri.lulc_input_ncols := by
      rcases Nat.eq_zero_or_pos ri.lulc_input_ncols with h | h
      · have : num_split ri = 0 := by unfold num_split; rw [h]; exact Nat.div_zero _
        omega
      · exact h
    have hcol : grid_x_ul ri i + k % num_split ri < ri.lu_ncols := by
      have h1 : k % num_split ri < num_split ri := Nat.mod_lt _ hpos
      have h2 : i % ri.lulc_input_ncols + 1 ≤ ri.lulc_input_ncols := Nat.mod_lt _ hnc
      have h3 : (i % ri.lulc_input_ncols + 1) * num_split ri ≤
          ri.lulc_input_ncols * num_split ri := Nat.mul_le_mul_right _ h2
      rw [Nat.add_mul, Nat.one_mul] at h3
      rw [hfit, Nat.mul_comm (num_split ri)]
      unfold grid_x_ul
      omega
    have hrow : grid_y_ul ri i + k / num_split ri + 1 ≤ fine_rows := by
      have h1 : k / num_split ri < num_split ri := Nat.div_lt_of_lt_mul hk
      obtain ⟨q, hq⟩ := hrect
      have h2 : ri.lulc_input_ncells / ri.lulc_input_ncols = q := by
        rw [hq]; exact Nat.mul_div_cancel_left q hnc
      have h3 : i / ri.lulc_input_ncols < q := by
        apply Nat.div_lt_of_lt_mul
        rw [← hq]; exact hi
      have h4 : (i / ri.lulc_input_ncols + 1) * num_split ri ≤ q * num_split ri :=
        Nat.mul_le_mul_right _ h3
      rw [Nat.add_mul, Nat.one_mul] at h4
      rw [hrows, h2, Nat.mul_comm (num_split ri)]
      unfold grid_y_ul
      omega
    rw [hlon]
    calc (grid_y_ul ri i + k / num_split ri) * ri.lu_ncols + (grid_x_ul ri i + k % num_split ri)
        < (grid_y_ul ri i + k / num_split ri) * ri.lu_ncols + ri.lu_ncols := by omega
      _ = (grid_y_ul ri i + k / num_split ri + 1) * ri.lu_ncols := by
        rw [Nat.add_mul _ 1, Nat.one_mul]
      _ ≤ fine_rows * ri.lu_ncols := Nat.mul_le_mul_right _ hrow

/-- The index loops on C `int`s: `count` is the square of the number of passes of one loop,
`num_split` when it is not negative and 0 otherwise, and the entry at position
`a * num_split + t` of `lu_indices` is the id of the fine cell at row `grid_y_ul + a` and
column `grid_x_ul + t`. -/
theorem index_loops_spec (L ns y x : Int) :
    (index_loops L ns y x).2 = ns.toNat * ns.toNat ∧
    ∀ a t : Nat, a < ns.toNat → t < ns.toNat →
      (index_loops L ns y x).1 (a * ns.toNat + t) = (y + a) * L + (x + t) := by
  have ex : (x + ns - x).toNat = ns.toNat := by rw [show x + ns - x = ns by omega]
  have ey : (y + ns - y).toNat = ns.toNat := by rw [show y + ns - y = ns by omega]
  have inner : ∀ (m : Int) (p : (Nat → Int) × Nat),
      (for_range (fun n (q : (Nat → Int) × Nat) => (store q.1 q.2 (m * L + n), q.2 + 1))
        x (x + ns) p).2 = p.2 + ns.toNat ∧
      (∀ t : Nat, t < ns.toNat →
        (for_range (fun n (q : (Nat → Int) × Nat) => (store q.1 q.2 (m * L + n), q.2 + 1))
          x (x + ns) p).1 (p.2 + t) = m * L + (x + t)) ∧
      (∀ k, k < p.2 →
        (for_range (fun n (q : (Nat → Int) × Nat) => (store q.1 q.2 (m * L + n), q.2 + 1))
          x (x + ns) p).1 k = p.1 k) := by
    intro m p
    unfold for_range
    rw [ex]
    have h := for_loop_offset
      (fun (d : Nat) (q : (Nat → Int) × Nat) => (store q.1 q.2 (m * L + (x + (d : Int))), q.2 + 1))
      (fun d q => q.2 = p.2 + d ∧
        (∀ t : Nat, t < d → q.1 (p.2 + t) = m * L + (x + t)) ∧
        (∀ k, k < p.2 → q.1 k = p.1 k))
      ns.toNat 0 p ⟨rfl, fun t ht => by omega, fun _ _ => rfl⟩
      (fun d q _ ⟨h1, h2, h3⟩ => by
        refine ⟨by simp only [h1]; omega, fun t ht => ?_, fun k hk => ?_⟩
        · by_cases htd : t = d
          · subst htd; simp [store, h1]
          · have : p.2 + t ≠ q.2 := by omega
            simp only [store, this, if_false]
            exact h2 t (by omega)
        · have : k ≠ q.2 := by omega
          simp only [store, this, if_false]
          exact h3 k hk)
    exact h
  unfold index_loops
  unfold for_range
  rw [ey]
  have outer := for_loop_offset
    (fun (d : Nat) (p : (Nat → Int) × Nat) =>
      for_loop (fun (d' : Nat) (q : (Nat → Int) × Nat) =>
        (store q.1 q.2 ((y + (d : Int)) * L + (x + (d' : Int))), q.2 + 1))
        (x + ns - x).toNat 0 p)
    (fun d (q : (Nat → Int) × Nat) => q.2 = d * ns.toNat ∧
      ∀ a t : Nat, a < d → t < ns.toNat → q.1 (a * ns.toNat + t) = (y + a) * L + (x + t))
    ns.toNat 0 (fun _ => 0, 0) ⟨by simp, fun a t ha _ => by omega⟩
    (fun d q _ ⟨h1, h2⟩ => by
      obtain ⟨i1, i2, i3⟩ := inner (y + ((0 + d : Nat) : Int)) q
      unfold for_range at i1 i2 i3
      refine ⟨by rw [i1, h1, Nat.add_mul, Nat.one_mul], fun a t ha ht => ?_⟩
      by_cases had : a = d
      · subst had
        have := i2 t ht
        rw [h1] at this
        simpa using this
      · have halt : a < d := by omega
        have hlt : a * ns.toNat + t < q.2 := by
          rw [h1]
          calc a * ns.toNat + t < a * ns.toNat + ns.toNat := by omega
            _ = (a + 1) * ns.toNat := by rw [Nat.add_mul, Nat.one_mul]
            _ ≤ d * ns.toNat := Nat.mul_le_mul_right _ (by omega)
        rw [i3 _ hlt]
        exact h2 a t halt ht)
  exact outer


/-- For column counts that are natural numbers the `int` values of lines 134-139 and 216-219
are those of the embedding on natural numbers. -/
theorem int_header_nat (ri : rinfo_struct) (j : Nat) :
    num_split_int ri.lu_ncols ri.lulc_input_ncols = (num_split ri : Int) ∧
    grid_y_ul_int ri.lulc_input_ncols (num_split_int ri.lu_ncols ri.lulc_input_ncols) j
      = (grid_y_ul ri j : Int) ∧
    grid_x_ul_int ri.lulc_input_ncols (num_split_int ri.lu_ncols ri.lulc_input_ncols) j
      = (grid_x_ul ri j : Int) := by
  have e1 : num_split_int ri.lu_ncols ri.lulc_input_ncols = (num_split ri : Int) := by
    unfold num_split_int num_split
    rw [Int.tdiv_eq_ediv (Int.ofNat_nonneg _) (Int.ofNat_nonneg _)]
    norm_cast
  refine ⟨e1, ?_, ?_⟩
  · unfold grid_y_ul_int grid_y_ul
    rw [e1, Int.tdiv_eq_ediv (Int.ofNat_nonneg _) (Int.ofNat_nonneg _)]
    norm_cast
  · unfold grid_x_ul_int grid_x_ul
    rw [e1, Int.tmod_eq_emod (Int.ofNat_nonneg _) (Int.ofNat_nonneg _)]
    norm_cast

/-- For column counts that are natural numbers the index loops on C `int`s leave the `count`
and the ids of the index loops of the embedding on natural numbers. -/
theorem index_loops_nat (c : Consts) (ri : rinfo_struct) (s : State) (b : Buffers) (j : Nat) :
    (index_loops_of c ri.lu_ncols ri.lulc_input_ncols j).2 = (fill_coarse c ri s j b).2 ∧
    ∀ k, k < (index_loops_of c ri.lu_ncols ri.lulc_input_ncols j).2 →
      (index_loops_of c ri.lu_ncols ri.lulc_input_ncols j).1 k
        = ((fill_coarse c ri s j b).1.lu_indices k : Int) := by
  obtain ⟨e1, e2, e3⟩ := int_header_nat ri j
  unfold index_loops_of
  rw [e2, e3, e1]
  obtain ⟨s1, s2⟩ := index_loops_spec c.NUM_LON (num_split ri : Int) (grid_y_ul ri j : Int)
    (grid_x_ul ri j : Int)
  obtain ⟨f1, f2⟩ := fill_block_spec c s (num_split ri) (grid_y_ul ri j) (grid_x_ul ri j) b
  rw [Int.toNat_ofNat] at s1 s2
  refine ⟨by rw [s1]; exact f1.symm, fun k hk => ?_⟩
  rw [s1] at hk
  have hpos : 0 < num_split ri := by
    rcases Nat.eq_zero_or_pos (num_split ri) with h | h
    · rw [h] at hk; omega
    · exact h
  have hd : k / num_split ri < num_split ri := Nat.div_lt_of_lt_mul hk
  have hm : k % num_split ri < num_split ri := Nat.mod_lt _ hpos
  have ek : k / num_split ri * num_split ri + k % num_split ri = k := Nat.div_add_mod' k _
  have a1 := s2 (k / num_split ri) (k % num_split ri) hd hm
  have a2 := f2 (k / num_split ri) (k % num_split ri) hd hm
  rw [ek] at a1 a2
  unfold fill_coarse
  rw [a1, a2]
  push_cast
  rfl


/-- C1, as amended. In `calc_refveg_area`, on the C `int`s of the raster information, for
every coarse cell id `i` with `0 <= i < ncells_lulc` of a coarse raster of `nrows` rows
(`ncells_lulc = nrows * lulc_input_ncols`, as a reader sets it): when `num_split >= 0` the
row and column loops fill `lu_indices` with exactly `NUM_LU_CELLS = num_split * num_split`
ids (`count == NUM_LU_CELLS`); and when `NUM_LON` is the fine column count `lu_ncols`,
`lu_ncols = num_split * lulc_input_ncols` and the fine grid has `num_split * (ncells_lulc /
lulc_input_ncols)` rows, these ids are pairwise distinct and each lies in
`[0, fine_rows * fine_cols)`.  For column counts that are natural numbers the loops leave
the `count` and the ids of `fill_coarse`. -/
theorem C1_block_enumeration (c : Consts)
    (lu_ncols lulc_input_ncols nrows fine_rows i : Int)
    (hi0 : 0 ≤ i) (hi : i < raster_ncells nrows lulc_input_ncols)
    (hns : 0 ≤ num_split_int lu_ncols lulc_input_ncols) :
    ((index_loops_of c lu_ncols lulc_input_ncols i).2 : Int) =
      num_split_int lu_ncols lulc_input_ncols * num_split_int lu_ncols lulc_input_ncols ∧
    ((c.NUM_LON : Int) = lu_ncols →
      lu_ncols = num_split_int lu_ncols lulc_input_ncols * lulc_input_ncols →
      fine_rows =
        num_split_int lu_ncols lulc_input_ncols *
          Int.tdiv (raster_ncells nrows lulc_input_ncols) lulc_input_ncols →
      (∀ k k', k < (index_loops_of c lu_ncols lulc_input_ncols i).2 →
        k' < (index_loops_of c lu_ncols lulc_input_ncols i).2 →
        (index_loops_of c lu_ncols lulc_input_ncols i).1 k =
          (index_loops_of c lu_ncols lulc_input_ncols i).1 k' → k = k') ∧
      (∀ k, k < (index_loops_of c lu_ncols lulc_input_ncols i).2 →
        0 ≤ (index_loops_of c lu_ncols lulc_input_ncols i).1 k ∧
        (index_loops_of c lu_ncols lulc_input_ncols i).1 k < fine_rows * lu_ncols)) ∧
    (∀ (ri : rinfo_struct) (s : State) (b : Buffers) (j : Nat),
      lu_ncols = ri.lu_ncols → lulc_input_ncols = ri.lulc_input_ncols → i = j →
      (index_loops_of c lu_ncols lulc_input_ncols i).2 = (fill_coarse c ri s j b).2 ∧
      ∀ k, k < (index_loops_of c lu_ncols lulc_input_ncols i).2 →
        (index_loops_of c lu_ncols lulc_input_ncols i).1 k
          = ((fill_coarse c ri s j b).1.lu_indices k : Int)) := by
  generalize hcells_def : raster_ncells nrows lulc_input_ncols = lulc_input_ncells at hi ⊢
  have hrect : lulc_input_ncells = nrows * lulc_input_ncols := hcells_def.symm
  have hcount : (index_loops_of c lu_ncols lulc_input_ncols i).2 =
      (num_split_int lu_ncols lulc_input_ncols).toNat *
        (num_split_int lu_ncols lulc_input_ncols).toNat :=
    (index_loops_spec _ _ _ _).1
  refine ⟨?_, ?_, ?_⟩
  · rw [hcount]
    push_cast
    rw [Int.toNat_of_nonneg hns]
  · intro hlon hfit hrows
    rcases eq_or_lt_of_le hns with h0 | hpos
    · have hz : (index_loops_of c lu_ncols lulc_input_ncols i).2 = 0 := by
        rw [hcount, ← h0]; rfl
      rw [hz]
      exact ⟨fun k k' hk => absurd hk (by omega), fun k hk => absurd hk (by omega)⟩
    · have hlu : 0 ≤ lu_ncols := by rw [← hlon]; exact Int.ofNat_nonneg _
      have hnc0 : lulc_input_ncols ≠ 0 := by
        intro h
        rw [h] at hpos
        unfold num_split_int at hpos
        rw [Int.tdiv_zero] at hpos
        exact absurd hpos (by decide)
      have hnc : 0 < lulc_input_ncols := by
        rcases lt_trichotomy lulc_input_ncols 0 with h | h | h
        · have : num_split_int lu_ncols lulc_input_ncols * lulc_input_ncols < 0 :=
            Int.mul_neg_of_pos_of_neg hpos h
          omega
        · exact absurd h hnc0
        · exact h
      have hcells : 0 ≤ lulc_input_ncells := by omega
      have hnr : 0 ≤ nrows := by
        by_contra hneg
        have : nrows * lulc_input_ncols < 0 :=
          Int.mul_neg_of_neg_of_pos (by omega) hnc
        omega
      -- the raster information on natural numbers
      have hex : ∃ ri : rinfo_struct, (ri.lu_ncols : Int) = lu_ncols ∧
          (ri.lulc_input_ncols : Int) = lulc_input_ncols ∧
          (ri.lulc_input_ncells : Int) = lulc_input_ncells ∧ ri.lu_ncols = c.NUM_LON :=
        ⟨{ aez_orig_nodata := 0, aez_new_nodata := 0, land_area_sage_nodata := 0
           land_area_hyde_nodata := 0, cell_area_hyde_nodata := 0, country_fao_nodata := 0
           potveg_nodata := 0, lu_ncols := c.NUM_LON
           lulc_input_ncols := lulc_input_ncols.toNat
           lulc_input_ncells := lulc_input_ncells.toNat },
          hlon, Int.toNat_of_nonneg (le_of_lt hnc), Int.toNat_of_nonneg hcells, rfl⟩
      obtain ⟨ri, r1, r2, r3, r4⟩ := hex
      obtain ⟨j, hj⟩ := Int.eq_ofNat_of_zero_le hi0
      subst r1 r2 r3 hj
      obtain ⟨e1, _, _⟩ := int_header_nat ri j
      rw [e1] at hfit hrows hcount
      rw [Int.toNat_ofNat] at hcount
      obtain ⟨a1, a2⟩ := index_loops_nat c ri zero_state zero_buffers j
      have hfitN : ri.lu_ncols = num_split ri * ri.lulc_input_ncols := by exact_mod_cast hfit
      have hncN : 0 < ri.lulc_input_ncols := by exact_mod_cast hnc
      have hrectN : ri.lulc_input_ncols ∣ ri.lulc_input_ncells := by
        refine ⟨nrows.toNat, ?_⟩
        have : (ri.lulc_input_ncells : Int) = (ri.lulc_input_ncols : Int) * (nrows.toNat : Int) := by
          rw [Int.toNat_of_nonneg hnr, hrect, Int.mul_comm]
        exact_mod_cast this
      have hiN : j < ri.lulc_input_ncells := by exact_mod_cast hi
      have hrowsI : fine_rows =
          ((num_split ri * (ri.lulc_input_ncells / ri.lulc_input_ncols) : Nat) : Int) := by
        rw [hrows, Int.tdiv_eq_ediv (Int.ofNat_nonneg _) (Int.ofNat_nonneg _)]
        norm_cast
      obtain ⟨n1, n2, n3⟩ := block_enumeration c ri zero_state zero_buffers j
        (num_split ri * (ri.lulc_input_ncells / ri.lulc_input_ncols))
        hiN r4.symm hfitN hrectN rfl
      constructor
      · intro k k' hk hk' he
        rw [a2 k hk, a2 k' hk'] at he
        rw [hcount] at hk hk'
        exact n2 k k' hk hk' (by exact_mod_cast he)
      · intro k hk
        rw [a2 k hk, hrowsI]
        rw [hcount] at hk
        refine ⟨Int.ofNat_nonneg _, ?_⟩
        exact_mod_cast n3 k hk
  · intro ri s b j h1 h2 h3
    rw [h1, h2, h3]
    exact index_loops_nat c ri s b j

/-- C1 as stated fails for the count: `read_hyde32` accepts a hyde header with the column
count -4; with 2 coarse columns `num_split = -4 / 2 = -2` and `NUM_LU_CELLS = 4`, while the
loops `for (m = 0; m < 0 + (-2); m++)` of coarse cell 0 run no pass and leave `count = 0`. -/
theorem C1_counterexample :
    num_split_int (-4) 2 = -2 ∧
    num_split_int (-4) 2 * num_split_int (-4) 2 = 4 ∧
    (index_loops_of demo_consts (-4) 2 0).2 = 0 ∧
    ((index_loops_of demo_consts (-4) 2 0).2 : Int) ≠
      num_split_int (-4) 2 * num_split_int (-4) 2 := by
  decide

/-- C1, as amended, at the sample grid: coarse cell 1 of the 1 by 2 coarse grid over the
2 by 4 fine grid gets the four ids 2, 3, 6 and 7, each below `2 * 4`. -/
theorem C1_block_enumeration_witness :
    ((index_loops_of demo_consts 4 2 1).2 : Int) = 4 ∧
    (∀ k, k < (index_loops_of demo_consts 4 2 1).2 →
      0 ≤ (index_loops_of demo_consts 4 2 1).1 k ∧
      (index_loops_of demo_consts 4 2 1).1 k < 2 * 4) ∧
    (index_loops_of demo_consts 4 2 1).1 0 = 2 ∧
    (index_loops_of demo_consts 4 2 1).1 3 = 7 :=
  have h := C1_block_enumeration demo_consts 4 2 1 2 1 (by decide) (by decide) (by decide)
  ⟨h.1, (h.2.1 (by decide) (by decide) (by decide)).2, by decide, by decide⟩

end Moirai

namespace Moirai
section
variable {c : Consts} {ri : rinfo_struct} {g : Grids} {proc : ProcLulc}

theorem upd_hierarchy (ri : rinfo_struct) (g : Grids) (idx : Nat) (f : Cell → Cell) (s : State)
    (hf : ∀ r, (f r).land_mask_forest = r.land_mask_forest ∧
      (f r).land_mask_refveg = r.land_mask_refveg)
    (h : mask_hierarchy ri g s) : mask_hierarchy ri g (s.upd idx f) := by
  obtain ⟨h1, h2, h3⟩ := h
  have key : ∀ x, ((s.upd idx f).cell x).land_mask_forest = (s.cell x).land_mask_forest ∧
      ((s.upd idx f).cell x).land_mask_refveg = (s.cell x).land_mask_refveg := by
    intro x
    by_cases hx : x = idx
    · subst hx; rw [upd_cell_self]; exact hf _
    · rw [upd_cell_other s f hx]; exact ⟨rfl, rfl⟩
  refine ⟨fun x => ?_, fun x => ?_, fun k hk => ?_⟩
  · rw [(key x).1, (key x).2]; exact h1 x
  · rw [(key x).2]; exact h2 x
  · rw [upd_lists] at hk ⊢
    rw [(key _).2]; exact h3 k hk

theorem refveg_hierarchy (idx : Nat) (s : State)
    (hv : g.land_area_hyde idx ≠ ri.land_area_hyde_nodata)
    (h : mask_hierarchy ri g s) :
    mask_hierarchy ri g (s.upd idx fun r => { r with land_mask_refveg := 1 }) := by
  obtain ⟨h1, h2, h3⟩ := h
  refine ⟨fun x => ?_, fun x => ?_, fun k hk => ?_⟩
  · by_cases hx : x = idx
    · subst hx; rw [upd_cell_self]; intro _; rfl
    · rw [upd_cell_other s _ hx]; exact h1 x
  · by_cases hx : x = idx
    · subst hx; intro _; exact hv
    · rw [upd_cell_other s _ hx]; exact h2 x
  · rw [upd_lists] at hk ⊢
    refine ⟨?_, (h3 k hk).2⟩
    by_cases hx : s.lists.forest_cells k = idx
    · rw [hx, upd_cell_self]
    · rw [upd_cell_other s _ hx]; exact (h3 k hk).1

theorem forest_hierarchy (idx : Nat) (s : State)
    (hv : g.land_area_hyde idx ≠ ri.land_area_hyde_nodata)
    (hr : (s.cell idx).land_mask_refveg = 1)
    (h : mask_hierarchy ri g s) :
    mask_hierarchy ri g
      ({ s with
          lists :=
            { s.lists with
              forest_cells := store s.lists.forest_cells s.lists.num_forest_cells idx
              num_forest_cells := s.lists.num_forest_cells + 1 } }.upd idx
        fun r => { r with land_mask_forest := 1 }) := by
  obtain ⟨h1, h2, h3⟩ := h
  have key : ∀ x, (({ s with
          lists :=
            { s.lists with
              forest_cells := store s.lists.forest_cells s.lists.num_forest_cells idx
              num_forest_cells := s.lists.num_forest_cells + 1 } }.upd idx
        fun r => { r with land_mask_forest := 1 }).cell x).land_mask_refveg =
      (s.cell x).land_mask_refveg := by
    intro x
    by_cases hx : x = idx
    · subst hx; rw [upd_cell_self]
    · rw [upd_cell_other _ _ hx]
  refine ⟨fun x => ?_, fun x => ?_, fun k hk => ?_⟩
  · rw [key]
    by_cases hx : x = idx
    · subst hx; intro _; exact hr
    · rw [upd_cell_other _ _ hx]; exact h1 x
  · rw [key]; exact h2 x
  · rw [key]
    simp only [upd_lists] at hk ⊢
    by_cases hkn : k = s.lists.num_forest_cells
    · simp only [store, hkn, if_true]; exact ⟨hr, hv⟩
    · simp only [store, hkn, if_false]; exact h3 k (by omega)

theorem store_back_hierarchy (b : Buffers) (j : Nat) (s : State)
    (h : mask_hierarchy ri g s) : mask_hierarchy ri g (store_back c ri g b j s) := by
  unfold store_back
  by_cases hv : g.land_area_hyde (b.lu_indices j) = ri.land_area_hyde_nodata
  · simp only [hv, ne_eq, not_true_eq_false, if_false]
    exact upd_hierarchy ri g _ _ _ (fun r => ⟨rfl, rfl⟩) h
  · simp only [hv, ne_eq, not_false_eq_true, if_true]
    have hs1 := upd_hierarchy ri g (b.lu_indices j)
      (fun r =>
        { r with
          cropland_area := b.lu_area j crop_ind
          pasture_area := b.lu_area j pasture_ind
          urban_area := b.lu_area j urban_ind
          lu_detail_area :=
            for_loop (fun m d => store d (m - c.NUM_HYDE_TYPES_MAIN) (b.lu_area j m))
              (c.NUM_HYDE_TYPES - c.NUM_HYDE_TYPES_MAIN) c.NUM_HYDE_TYPES_MAIN r.lu_detail_area
          refveg_area := b.refveg_area_out j
          refveg_thematic := b.refveg_them j }) s (fun r => ⟨rfl, rfl⟩) h
    split_ifs <;>
      first
        | exact hs1
        | exact refveg_hierarchy _ _ hv hs1
        | exact forest_hierarchy _ _ hv (by rw [upd_cell_self]) (refveg_hierarchy _ _ hv hs1)

theorem store_loop_hierarchy (b : Buffers) (n : Nat) (s : State)
    (h : mask_hierarchy ri g s) :
    mask_hierarchy ri g (for_loop (store_back c ri g b) n 0 s) :=
  for_loop_invariant (store_back c ri g b) (fun _ t => mask_hierarchy ri g t) n 0 s h
    (fun k t _ _ ht => store_back_hierarchy b k t ht)

theorem coarse_body_hierarchy (c : Consts) (proc : ProcLulc) (i : Nat) (L : Locals) (h : mask_hierarchy ri g L.s) :
    match coarse_body c ri g proc i L with
    | .error r => mask_hierarchy ri g r.2
    | .ok L1 => mask_hierarchy ri g L1.s := by
  unfold coarse_body
  simp only
  split_ifs
  · exact h
  · exact h
  · exact store_loop_hierarchy _ _ _ h

theorem coarse_loop_hierarchy : ∀ n i (L : Locals), mask_hierarchy ri g L.s →
    mask_hierarchy ri g (coarse_loop c ri g proc n i L).2 := by
  intro n
  induction n with
  | zero => intro i L h; exact h
  | succ n ih =>
    intro i L h
    have hb := coarse_body_hierarchy c proc i L h
    unfold coarse_loop
    cases hcb : coarse_body c ri g proc i L with
    | error r => rw [hcb] at hb; exact hb
    | ok L1 => rw [hcb] at hb; exact ih (i + 1) L1 hb

/-- C9. Started from a state in which `land_mask_refveg` and `land_mask_forest` are 0
everywhere and `forest_cells` is empty (the state left by `get_land_cells`),
`calc_refveg_area` leaves, whatever code it returns and so in particular when it returns
`OK`, a state in which for every cell `land_mask_forest = 1` implies `land_mask_refveg =
1`, `land_mask_refveg = 1` implies that the hyde land area is not the nodata sentinel, and
every id in `forest_cells[0..num_forest_cells)` has `land_mask_refveg = 1` and valid hyde
land area. -/
theorem C9_mask_hierarchy (c : Consts) (ri : rinfo_struct) (g : Grids) (rnd : Nat → Nat)
    (rd : Reads) (proc : ProcLulc) (s : State)
    (h0 : ∀ f, (s.cell f).land_mask_refveg = 0 ∧ (s.cell f).land_mask_forest = 0)
    (hn : s.lists.num_forest_cells = 0) :
    mask_hierarchy ri g (calc_refveg_area c ri g rnd rd proc s).2 := by
  have hinit : ∀ t : State, (∀ f, (t.cell f).land_mask_refveg = 0 ∧
      (t.cell f).land_mask_forest = 0) → t.lists.num_forest_cells = 0 →
      mask_hierarchy ri g t := by
    intro t ht hnt
    refine ⟨fun f hf => ?_, fun f hf => ?_, fun k hk => ?_⟩
    · rw [(ht f).2] at hf; exact absurd hf (by decide)
    · rw [(ht f).1] at hf; exact absurd hf (by decide)
    · omega
  have hload : mask_hierarchy ri g (load_hyde rd s) := hinit _ (fun f => h0 f) hn
  unfold calc_refveg_area
  split_ifs
  · exact hload
  · exact hload
  · exact coarse_loop_hierarchy _ _ _ (hinit _ (fun f => h0 f) hn)

end
end Moirai

namespace Moirai
section
variable {c : Consts} {ri : rinfo_struct} {g : Grids} {proc : ProcLulc}

theorem detail_loop_value (K M : Nat) (v : ℚ) (d : Nat → ℚ) (k : Nat) (hk : k < K) :
    for_loop (fun m t => store t (m - M) v) K M d k = v := by
  have h := for_loop_offset (fun m (t : Nat → ℚ) => store t (m - M) v)
    (fun n t => ∀ q, q < n → t q = v) K M d (fun q hq => by omega)
    (fun n t _ ht q hq => by
      have e : M + n - M = n := by omega
      simp only [e, store]
      by_cases hqn : q = n
      · simp [hqn]
      · simp only [hqn, if_false]; exact ht q (by omega))
  exact h k hk

theorem store_back_frame (b : Buffers) (j f : Nat) (s : State) (h : f ≠ b.lu_indices j) :
    (store_back c ri g b j s).cell f = s.cell f := by
  unfold store_back
  dsimp only
  split_ifs <;> simp [State.upd, store, h]

theorem store_back_num (b : Buffers) (j : Nat) (s : State) :
    (store_back c ri g b j s).NUM_LU_CELLS = s.NUM_LU_CELLS := by
  unfold store_back
  dsimp only
  split_ifs <;> rfl

theorem store_back_sets_nodata (b : Buffers) (j : Nat) (s : State)
    (hnd : g.land_area_hyde (b.lu_indices j) = ri.land_area_hyde_nodata) :
    nodata_areas c ri ((store_back c ri g b j s).cell (b.lu_indices j)) := by
  unfold store_back
  simp only [hnd, ne_eq, not_true_eq_false, if_false, upd_cell_self]
  exact ⟨rfl, rfl, rfl, fun k hk => detail_loop_value _ _ _ _ k hk, rfl, rfl⟩

theorem store_back_keeps_nodata (b : Buffers) (j f : Nat) (s : State)
    (hnd : g.land_area_hyde f = ri.land_area_hyde_nodata)
    (h : nodata_areas c ri (s.cell f)) :
    nodata_areas c ri ((store_back c ri g b j s).cell f) := by
  by_cases hf : f = b.lu_indices j
  · subst hf; exact store_back_sets_nodata b j s hnd
  · rw [store_back_frame b j f s hf]; exact h

theorem store_loop_nodata (c : Consts) (ri : rinfo_struct) (g : Grids) (b : Buffers)
    (n f : Nat) (s : State)
    (hnd : g.land_area_hyde f = ri.land_area_hyde_nodata) :
    (for_loop (store_back c ri g b) n 0 s).NUM_LU_CELLS = s.NUM_LU_CELLS ∧
    (nodata_areas c ri (s.cell f) →
      nodata_areas c ri ((for_loop (store_back c ri g b) n 0 s).cell f)) ∧
    ((∃ j, j < n ∧ b.lu_indices j = f) →
      nodata_areas c ri ((for_loop (store_back c ri g b) n 0 s).cell f)) := by
  have h := for_loop_offset (store_back c ri g b)
    (fun k t => t.NUM_LU_CELLS = s.NUM_LU_CELLS ∧
      (nodata_areas c ri (s.cell f) → nodata_areas c ri (t.cell f)) ∧
      ((∃ j, j < k ∧ b.lu_indices j = f) → nodata_areas c ri (t.cell f)))
    n 0 s ⟨rfl, id, fun ⟨j, hj, _⟩ => by omega⟩
    (fun k t _ ⟨h1, h2, h3⟩ => by
      rw [Nat.zero_add]
      refine ⟨by rw [store_back_num, h1], fun hs => store_back_keeps_nodata b k f t hnd (h2 hs), ?_⟩
      rintro ⟨j, hj, hjf⟩
      by_cases hjk : j = k
      · subst hjk; subst hjf; exact store_back_sets_nodata b j t hnd
      · exact store_back_keeps_nodata b k f t hnd (h3 ⟨j, by omega, hjf⟩))
  exact h

theorem coarse_body_nodata (i f : Nat) (L L1 : Locals)
    (hN : L.s.NUM_LU_CELLS = num_split ri * num_split ri)
    (hnd : g.land_area_hyde f = ri.land_area_hyde_nodata)
    (hb : coarse_body c ri g proc i L = .ok L1) :
    L1.s.NUM_LU_CELLS = num_split ri * num_split ri ∧
    (nodata_areas c ri (L.s.cell f) → nodata_areas c ri (L1.s.cell f)) ∧
    ((∃ k, k < num_split ri * num_split ri ∧ block_cell c ri i k = f) →
      nodata_areas c ri (L1.s.cell f)) := by
  unfold coarse_body at hb
  simp only at hb
  split_ifs at hb with h1 h2
  injection hb with hb
  subst hb
  simp only
  obtain ⟨l1, l2, l3⟩ := store_loop_nodata c ri g
    { lu_indices := (fill_coarse c ri L.s i L.buf).1.lu_indices
      lu_area := (proc (fun j => if j < c.NUM_LULC_TYPES then g.lulc_input_grid j i else 0)
        (fill_coarse c ri L.s i L.buf).1.lu_indices (fill_coarse c ri L.s i L.buf).1.lu_area
        (fill_coarse c ri L.s i L.buf).1.refveg_area_out
        (fill_coarse c ri L.s i L.buf).1.refveg_them L.s.NUM_LU_CELLS i g L.s).lu_area
      refveg_area_out := (proc (fun j => if j < c.NUM_LULC_TYPES then g.lulc_input_grid j i else 0)
        (fill_coarse c ri L.s i L.buf).1.lu_indices (fill_coarse c ri L.s i L.buf).1.lu_area
        (fill_coarse c ri L.s i L.buf).1.refveg_area_out
        (fill_coarse c ri L.s i L.buf).1.refveg_them L.s.NUM_LU_CELLS i g L.s).refveg_area_out
      refveg_them := (proc (fun j => if j < c.NUM_LULC_TYPES then g.lulc_input_grid j i else 0)
        (fill_coarse c ri L.s i L.buf).1.lu_indices (fill_coarse c ri L.s i L.buf).1.lu_area
        (fill_coarse c ri L.s i L.buf).1.refveg_area_out
        (fill_coarse c ri L.s i L.buf).1.refveg_them L.s.NUM_LU_CELLS i g L.s).refveg_them }
    L.s.NUM_LU_CELLS f L.s hnd
  refine ⟨by rw [l1, hN], l2, ?_⟩
  rintro ⟨k, hk, hkf⟩
  apply l3
  refine ⟨k, by rw [hN]; exact hk, ?_⟩
  simp only
  rw [fill_coarse_index c ri L.s i L.buf k hk]
  exact hkf

theorem coarse_body_error_code (i : Nat) (L : Locals) (r : Int × State)
    (hN : L.s.NUM_LU_CELLS = num_split ri * num_split ri)
    (hb : coarse_body c ri g proc i L = .error r) : r.1 ≠ OK := by
  unfold coarse_body at hb
  simp only at hb
  split_ifs at hb with h1 h2
  · exact absurd (by rw [fill_coarse_count, hN]) h1
  · injection hb with hb
    subst hb
    exact h2

theorem coarse_loop_nodata (f : Nat)
    (hnd : g.land_area_hyde f = ri.land_area_hyde_nodata) : ∀ n i (L : Locals),
    L.s.NUM_LU_CELLS = num_split ri * num_split ri →
    (coarse_loop c ri g proc n i L).1 = OK →
    (nodata_areas c ri (L.s.cell f) ∨
      ∃ i', i ≤ i' ∧ i' < i + n ∧
        ∃ k, k < num_split ri * num_split ri ∧ block_cell c ri i' k = f) →
    nodata_areas c ri ((coarse_loop c ri g proc n i L).2.cell f) := by
  intro n
  induction n with
  | zero =>
    intro i L _ _ h
    rcases h with h | ⟨i', h1, h2, _⟩
    · exact h
    · omega
  | succ n ih =>
    intro i L hN hok h
    unfold coarse_loop at hok ⊢
    cases hb : coarse_body c ri g proc i L with
    | error r =>
      rw [hb] at hok
      exact absurd hok (coarse_body_error_code i L r hN hb)
    | ok L1 =>
      rw [hb] at hok
      obtain ⟨b1, b2, b3⟩ := coarse_body_nodata (f := f) i L L1 hN hnd hb
      apply ih (i + 1) L1 b1 hok
      rcases h with h | ⟨i', h1, h2, hk⟩
      · exact Or.inl (b2 h)
      · by_cases hii : i' = i
        · subst hii; exact Or.inl (b3 hk)
        · exact Or.inr ⟨i', by omega, by omega, hk⟩

/-- C10, as amended. After `calc_refveg_area` returns `OK`, every fine cell that lies in the
block of a coarse cell `i < ncells_lulc` (every cell of the working grid, when the coarse
blocks cover it) and whose hyde land area equals the hyde nodata sentinel has
`cropland_area`, `pasture_area`, `urban_area`, every `lu_detail_area` layer and
`refveg_area` equal to `NODATA` and `refveg_thematic` equal to the potential vegetation
nodata sentinel, whatever `read_hyde32` loaded, whatever `proc_lulc_area` wrote into its
buffers and whatever the other datasets hold at the cell. -/
theorem C10_nodata_propagation (c : Consts) (ri : rinfo_struct) (g : Grids) (rnd : Nat → Nat)
    (rd : Reads) (proc : ProcLulc) (s : State) (i k : Nat)
    (hok : (calc_refveg_area c ri g rnd rd proc s).1 = OK)
    (hi : i < ri.lulc_input_ncells) (hk : k < num_split ri * num_split ri)
    (hnd : g.land_area_hyde (block_cell c ri i k) = ri.land_area_hyde_nodata) :
    nodata_areas c ri ((calc_refveg_area c ri g rnd rd proc s).2.cell (block_cell c ri i k)) := by
  unfold calc_refveg_area at hok ⊢
  by_cases h1 : rd.hyde_err = OK
  · by_cases h2 : rd.lulc_err = OK
    · simp only [h1, h2, ne_eq, not_true_eq_false, if_false] at hok ⊢
      exact coarse_loop_nodata _ hnd _ _ _ rfl hok
        (Or.inr ⟨i, Nat.zero_le _, by omega, k, hk, rfl⟩)
    · simp only [h1, h2, ne_eq, not_true_eq_false, not_false_eq_true, if_false, if_true] at hok
  · simp only [h1, ne_eq, not_false_eq_true, if_true] at hok

end

/-- C9 at the sample grid, started from the zeroed state. -/
theorem C9_mask_hierarchy_witness :
    mask_hierarchy demo_rinfo demo_grid
      (calc_refveg_area demo_consts demo_rinfo demo_grid demo_rand demo_reads demo_proc
        zero_state).2 :=
  C9_mask_hierarchy demo_consts demo_rinfo demo_grid demo_rand demo_reads demo_proc zero_state
    (fun _ => ⟨rfl, rfl⟩) rfl

/-- C10 as stated fails when the coarse blocks do not cover the working grid: with a coarse
grid of one row of 4 cells, each as large as one fine cell, over the 2 by 4 fine grid, the
run returns `OK`, and cell 6, which has no hyde land area and lies in the second fine row,
outside every block, keeps the cropland area 7 that `read_hyde32` loaded. -/
theorem C10_counterexample :
    (calc_refveg_area demo_consts flat_rinfo demo_grid demo_rand demo_reads demo_proc
      (get_land_cells demo_consts flat_rinfo demo_grid zero_state).2).1 = OK ∧
    6 < demo_consts.NUM_CELLS ∧
    demo_grid.land_area_hyde 6 = flat_rinfo.land_area_hyde_nodata ∧
    ((calc_refveg_area demo_consts flat_rinfo demo_grid demo_rand demo_reads demo_proc
      (get_land_cells demo_consts flat_rinfo demo_grid zero_state).2).2.cell 6).cropland_area
      = 7 ∧
    (7 : ℚ) ≠ (demo_consts.NODATA : ℚ) := by
  decide

/-- C10, as amended, at the sample grid: cell 6 is position 2 of the block of coarse cell 1
and has no hyde land area. -/
theorem C10_nodata_propagation_witness :
    block_cell demo_consts demo_rinfo 1 2 = 6 ∧
    nodata_areas demo_consts demo_rinfo
      ((calc_refveg_area demo_consts demo_rinfo demo_grid demo_rand demo_reads demo_proc
        (get_land_cells demo_consts demo_rinfo demo_grid zero_state).2).2.cell
          (block_cell demo_consts demo_rinfo 1 2)) :=
  ⟨by decide,
    C10_nodata_propagation demo_consts demo_rinfo demo_grid demo_rand demo_reads demo_proc
      (get_land_cells demo_consts demo_rinfo demo_grid zero_state).2 1 2
      (by decide) (by decide) (by decide) (by decide)⟩

end Moirai

namespace Moirai
section
variable {c : Consts} {ri : rinfo_struct} {g g' : Grids} {i j : Nat} {s s' : State}

/-- The working land cell block leaves the six raw-data masks of the cell as they were. -/
theorem canonical_store_masks (k : Int) :
    ((canonical_store c g i k s).cell i).land_mask_hyde = (s.cell i).land_mask_hyde ∧
    ((canonical_store c g i k s).cell i).land_mask_sage = (s.cell i).land_mask_sage ∧
    ((canonical_store c g i k s).cell i).land_mask_fao = (s.cell i).land_mask_fao ∧
    ((canonical_store c g i k s).cell i).land_mask_aez_orig = (s.cell i).land_mask_aez_orig ∧
    ((canonical_store c g i k s).cell i).land_mask_aez_new = (s.cell i).land_mask_aez_new ∧
    ((canonical_store c g i k s).cell i).land_mask_potveg = (s.cell i).land_mask_potveg := by
  rw [canonical_store_cell]; split_ifs <;> exact ⟨rfl, rfl, rfl, rfl, rfl, rfl⟩

/-- The non-land cell block leaves the six raw-data masks of the cell as they were. -/
theorem noland_store_masks (k : Int) :
    ((noland_store c g i k s).cell i).land_mask_hyde = (s.cell i).land_mask_hyde ∧
    ((noland_store c g i k s).cell i).land_mask_sage = (s.cell i).land_mask_sage ∧
    ((noland_store c g i k s).cell i).land_mask_fao = (s.cell i).land_mask_fao ∧
    ((noland_store c g i k s).cell i).land_mask_aez_orig = (s.cell i).land_mask_aez_orig ∧
    ((noland_store c g i k s).cell i).land_mask_aez_new = (s.cell i).land_mask_aez_new ∧
    ((noland_store c g i k s).cell i).land_mask_potveg = (s.cell i).land_mask_potveg := by
  rw [noland_store_cell]; split_ifs <;> exact ⟨rfl, rfl, rfl, rfl, rfl, rfl⟩

/-- The non-land cell block leaves the seven canonical outputs of the cell as they were. -/
theorem noland_store_canonical (k : Int) (h : canonical_nodata c (s.cell i)) :
    canonical_nodata c ((noland_store c g i k s).cell i) := by
  rw [noland_store_cell]; split_ifs <;> exact h

/-- After a run that returned `OK`, each of the six raw-data masks of a cell is 1 when the
cell's raw value in that dataset differs from the dataset's nodata value, and 0 otherwise. -/
theorem ok_masks (hE : c.ERROR_IND ≠ OK) (s : State)
    (hok : (get_land_cells c ri g s).1 = OK) (hi : i < c.NUM_CELLS) :
    ((get_land_cells c ri g s).2.cell i).land_mask_hyde =
        (if g.land_area_hyde i ≠ ri.land_area_hyde_nodata then 1 else 0) ∧
    ((get_land_cells c ri g s).2.cell i).land_mask_sage =
        (if g.land_area_sage i ≠ ri.land_area_sage_nodata then 1 else 0) ∧
    ((get_land_cells c ri g s).2.cell i).land_mask_fao =
        (if g.country_fao i ≠ ri.country_fao_nodata then 1 else 0) ∧
    ((get_land_cells c ri g s).2.cell i).land_mask_aez_orig =
        (if g.aez_bounds_orig i ≠ ri.aez_orig_nodata then 1 else 0) ∧
    ((get_land_cells c ri g s).2.cell i).land_mask_aez_new =
        (if g.aez_bounds_new i ≠ ri.aez_new_nodata then 1 else 0) ∧
    ((get_land_cells c ri g s).2.cell i).land_mask_potveg =
        (if g.potveg_thematic i ≠ ri.potveg_nodata then 1 else 0) := by
  have hp := pre_blocks_cell c ri g i (enter_get_land_cells s)
  have hpre :
      ((pre_blocks c ri g i (enter_get_land_cells s)).cell i).land_mask_hyde =
          (if g.land_area_hyde i ≠ ri.land_area_hyde_nodata then 1 else 0) ∧
      ((pre_blocks c ri g i (enter_get_land_cells s)).cell i).land_mask_sage =
          (if g.land_area_sage i ≠ ri.land_area_sage_nodata then 1 else 0) ∧
      ((pre_blocks c ri g i (enter_get_land_cells s)).cell i).land_mask_fao =
          (if g.country_fao i ≠ ri.country_fao_nodata then 1 else 0) ∧
      ((pre_blocks c ri g i (enter_get_land_cells s)).cell i).land_mask_aez_orig =
          (if g.aez_bounds_orig i ≠ ri.aez_orig_nodata then 1 else 0) ∧
      ((pre_blocks c ri g i (enter_get_land_cells s)).cell i).land_mask_aez_new =
          (if g.aez_bounds_new i ≠ ri.aez_new_nodata then 1 else 0) ∧
      ((pre_blocks c ri g i (enter_get_land_cells s)).cell i).land_mask_potveg =
          (if g.potveg_thematic i ≠ ri.potveg_nodata then 1 else 0) := by
    rw [hp]; exact ⟨rfl, rfl, rfl, rfl, rfl, rfl⟩
  have hm :
      ((get_land_cells c ri g s).2.cell i).land_mask_hyde =
          ((pre_blocks c ri g i (enter_get_land_cells s)).cell i).land_mask_hyde ∧
      ((get_land_cells c ri g s).2.cell i).land_mask_sage =
          ((pre_blocks c ri g i (enter_get_land_cells s)).cell i).land_mask_sage ∧
      ((get_land_cells c ri g s).2.cell i).land_mask_fao =
          ((pre_blocks c ri g i (enter_get_land_cells s)).cell i).land_mask_fao ∧
      ((get_land_cells c ri g s).2.cell i).land_mask_aez_orig =
          ((pre_blocks c ri g i (enter_get_land_cells s)).cell i).land_mask_aez_orig ∧
      ((get_land_cells c ri g s).2.cell i).land_mask_aez_new =
          ((pre_blocks c ri g i (enter_get_land_cells s)).cell i).land_mask_aez_new ∧
      ((get_land_cells c ri g s).2.cell i).land_mask_potveg =
          ((pre_blocks c ri g i (enter_get_land_cells s)).cell i).land_mask_potveg := by
    rw [ok_cell hE s hok hi]
    split_ifs
    · exact ⟨rfl, rfl, rfl, rfl, rfl, rfl⟩
    · exact canonical_store_masks _
    · exact noland_store_masks _
  obtain ⟨a1, a2, a3, a4, a5, a6⟩ := hm
  rw [a1, a2, a3, a4, a5, a6]
  exact hpre

/-- After a run that returned `OK`, a cell without hyde land area holds `NODATA` in all
seven canonical outputs. -/
theorem no_land_canonical_nodata (hE : c.ERROR_IND ≠ OK) (s : State)
    (hok : (get_land_cells c ri g s).1 = OK) (hi : i < c.NUM_CELLS)
    (hh : g.land_area_hyde i = ri.land_area_hyde_nodata) :
    canonical_nodata c ((get_land_cells c ri g s).2.cell i) := by
  have hpre : canonical_nodata c ((pre_blocks c ri g i (enter_get_land_cells s)).cell i) := by
    rw [pre_blocks_cell]; unfold canonical_nodata; exact ⟨rfl, rfl, rfl, rfl, rfl, rfl, rfl⟩
  rw [ok_cell hE s hok hi]
  split_ifs with h0 h1
  · exact hpre
  · exact absurd hh h1
  · exact noland_store_canonical _ hpre

/-- C11. After `get_land_cells` returns `OK`, every cell whose hyde land area is the nodata
value holds `NODATA` in `country87_gtap`, `region_gcam`, `country_out`, `ctryaez_raster`,
`region_raster`, `regionaez_raster` and `aez_out`, whatever the other datasets hold at the
cell: no hypothesis is made on the zone, country, sage or potential vegetation values. -/
theorem C11_no_land_no_codes (c : Consts) (ri : rinfo_struct) (g : Grids) (i : Nat)
    (hE : c.ERROR_IND ≠ OK) (s : State)
    (hok : (get_land_cells c ri g s).1 = OK) (hi : i < c.NUM_CELLS)
    (hh : g.land_area_hyde i = ri.land_area_hyde_nodata) :
    ((get_land_cells c ri g s).2.cell i).country87_gtap = c.NODATA ∧
    ((get_land_cells c ri g s).2.cell i).region_gcam = c.NODATA ∧
    ((get_land_cells c ri g s).2.cell i).country_out = c.NODATA ∧
    ((get_land_cells c ri g s).2.cell i).ctryaez_raster = c.NODATA ∧
    ((get_land_cells c ri g s).2.cell i).region_raster = c.NODATA ∧
    ((get_land_cells c ri g s).2.cell i).regionaez_raster = c.NODATA ∧
    ((get_land_cells c ri g s).2.cell i).aez_out = c.NODATA := by
  obtain ⟨h1, h2, h3, h4, h5, h6, h7⟩ := no_land_canonical_nodata hE s hok hi hh
  exact ⟨h6, h7, h1, h2, h3, h4, h5⟩

/-- C11 at the sample grid: cell 1 has a country (8), a new zone (12), sage land area and a
potential vegetation class but no hyde land area, and all seven outputs are `NODATA`. -/
theorem C11_no_land_no_codes_witness :
    ((get_land_cells demo_consts demo_rinfo demo_grid zero_state).2.cell 1).country87_gtap
      = demo_consts.NODATA ∧
    ((get_land_cells demo_consts demo_rinfo demo_grid zero_state).2.cell 1).aez_out
      = demo_consts.NODATA :=
  have h := C11_no_land_no_codes demo_consts demo_rinfo demo_grid 1
    (by decide) zero_state (by decide) (by decide) (by decide)
  ⟨h.1, h.2.2.2.2.2.2⟩

/-- C12. After `get_land_cells` returns `OK`, each of the six masks `land_mask_hyde`,
`land_mask_sage`, `land_mask_fao`, `land_mask_aez_orig`, `land_mask_aez_new` and
`land_mask_potveg` of a cell is 1 when the raw value of its own dataset at the cell differs
from that dataset's nodata value and 0 otherwise; so a second run on any other grids that
returns `OK` and has the same raw value of the dataset at the cell gives the same mask. -/
theorem C12_masks_follow_nodata (c : Consts) (ri : rinfo_struct) (g : Grids) (i : Nat)
    (hE : c.ERROR_IND ≠ OK) (s : State)
    (hok : (get_land_cells c ri g s).1 = OK) (hi : i < c.NUM_CELLS) :
    (((get_land_cells c ri g s).2.cell i).land_mask_hyde =
        (if g.land_area_hyde i ≠ ri.land_area_hyde_nodata then 1 else 0) ∧
      ((get_land_cells c ri g s).2.cell i).land_mask_sage =
        (if g.land_area_sage i ≠ ri.land_area_sage_nodata then 1 else 0) ∧
      ((get_land_cells c ri g s).2.cell i).land_mask_fao =
        (if g.country_fao i ≠ ri.country_fao_nodata then 1 else 0) ∧
      ((get_land_cells c ri g s).2.cell i).land_mask_aez_orig =
        (if g.aez_bounds_orig i ≠ ri.aez_orig_nodata then 1 else 0) ∧
      ((get_land_cells c ri g s).2.cell i).land_mask_aez_new =
        (if g.aez_bounds_new i ≠ ri.aez_new_nodata then 1 else 0) ∧
      ((get_land_cells c ri g s).2.cell i).land_mask_potveg =
        (if g.potveg_thematic i ≠ ri.potveg_nodata then 1 else 0)) ∧
    ∀ (g' : Grids) (s' : State), (get_land_cells c ri g' s').1 = OK →
      (g'.land_area_hyde i = g.land_area_hyde i →
        ((get_land_cells c ri g' s').2.cell i).land_mask_hyde =
          ((get_land_cells c ri g s).2.cell i).land_mask_hyde) ∧
      (g'.land_area_sage i = g.land_area_sage i →
        ((get_land_cells c ri g' s').2.cell i).land_mask_sage =
          ((get_land_cells c ri g s).2.cell i).land_mask_sage) ∧
      (g'.country_fao i = g.country_fao i →
        ((get_land_cells c ri g' s').2.cell i).land_mask_fao =
          ((get_land_cells c ri g s).2.cell i).land_mask_fao) ∧
      (g'.aez_bounds_orig i = g.aez_bounds_orig i →
        ((get_land_cells c ri g' s').2.cell i).land_mask_aez_orig =
          ((get_land_cells c ri g s).2.cell i).land_mask_aez_orig) ∧
      (g'.aez_bounds_new i = g.aez_bounds_new i →
        ((get_land_cells c ri g' s').2.cell i).land_mask_aez_new =
          ((get_land_cells c ri g s).2.cell i).land_mask_aez_new) ∧
      (g'.potveg_thematic i = g.potveg_thematic i →
        ((get_land_cells c ri g' s').2.cell i).land_mask_potveg =
          ((get_land_cells c ri g s).2.cell i).land_mask_potveg) := by
  obtain ⟨a1, a2, a3, a4, a5, a6⟩ := ok_masks hE s hok hi
  refine ⟨⟨a1, a2, a3, a4, a5, a6⟩, fun g' s' hok' => ?_⟩
  obtain ⟨b1, b2, b3, b4, b5, b6⟩ := ok_masks hE s' hok' hi
  rw [a1, a2, a3, a4, a5, a6, b1, b2, b3, b4, b5, b6]
  exact ⟨fun h => by rw [h], fun h => by rw [h], fun h => by rw [h], fun h => by rw [h],
    fun h => by rw [h], fun h => by rw [h]⟩

/-- C12 at the sample grid: cell 1 has no hyde land area but sage land area, a country, both
zones and a potential vegetation class, so its hyde mask is 0 and the other five are 1. -/
theorem C12_masks_follow_nodata_witness :
    ((get_land_cells demo_consts demo_rinfo demo_grid zero_state).2.cell 1).land_mask_hyde = 0 ∧
    ((get_land_cells demo_consts demo_rinfo demo_grid zero_state).2.cell 1).land_mask_sage = 1 ∧
    ((get_land_cells demo_consts demo_rinfo demo_grid zero_state).2.cell 1).land_mask_fao = 1 ∧
    ((get_land_cells demo_consts demo_rinfo demo_grid zero_state).2.cell 1).land_mask_aez_orig
      = 1 ∧
    ((get_land_cells demo_consts demo_rinfo demo_grid zero_state).2.cell 1).land_mask_aez_new
      = 1 ∧
    ((get_land_cells demo_consts demo_rinfo demo_grid zero_state).2.cell 1).land_mask_potveg
      = 1 :=
  (C12_masks_follow_nodata demo_consts demo_rinfo demo_grid 1 (by decide) zero_state
    (by decide) (by decide)).1

end
end Moirai

namespace Moirai
section
variable {c : Consts} {ri : rinfo_struct} {g : Grids} {proc : ProcLulc}

/-- What the store of block position `j` does to the forest list and to the forest mask and
class of the cell it writes. -/
theorem store_back_forest (c : Consts) (ri : rinfo_struct) (g : Grids) (b : Buffers) (j : Nat)
    (s : State) :
    ((g.land_area_hyde (b.lu_indices j) ≠ ri.land_area_hyde_nodata ∧
        b.refveg_them j ≠ ri.potveg_nodata ∧
        c.MIN_SAGE_FOREST_CODE ≤ b.refveg_them j ∧ b.refveg_them j ≤ c.MAX_SAGE_FOREST_CODE) ∧
      (store_back c ri g b j s).lists.forest_cells =
        store s.lists.forest_cells s.lists.num_forest_cells (b.lu_indices j) ∧
      (store_back c ri g b j s).lists.num_forest_cells = s.lists.num_forest_cells + 1 ∧
      ((store_back c ri g b j s).cell (b.lu_indices j)).land_mask_forest = 1 ∧
      ((store_back c ri g b j s).cell (b.lu_indices j)).refveg_thematic = b.refveg_them j) ∨
    (¬ (g.land_area_hyde (b.lu_indices j) ≠ ri.land_area_hyde_nodata ∧
        ((store_back c ri g b j s).cell (b.lu_indices j)).refveg_thematic ≠ ri.potveg_nodata ∧
        c.MIN_SAGE_FOREST_CODE ≤
          ((store_back c ri g b j s).cell (b.lu_indices j)).refveg_thematic ∧
        ((store_back c ri g b j s).cell (b.lu_indices j)).refveg_thematic ≤
          c.MAX_SAGE_FOREST_CODE) ∧
      (store_back c ri g b j s).lists = s.lists ∧
      ((store_back c ri g b j s).cell (b.lu_indices j)).land_mask_forest =
        (s.cell (b.lu_indices j)).land_mask_forest) := by
  unfold store_back
  by_cases h1 : g.land_area_hyde (b.lu_indices j) = ri.land_area_hyde_nodata
  · right
    simp [h1]
  · by_cases h2 : b.refveg_them j = ri.potveg_nodata
    · right
      simp [h1, h2]
    · by_cases h3 : b.refveg_them j ≤ c.MAX_SAGE_FOREST_CODE ∧
          b.refveg_them j ≥ c.MIN_SAGE_FOREST_CODE
      · left
        simp [h1, h2, h3, h3.1, h3.2]
      · right
        simp only [ne_eq, h1, not_false_eq_true, if_true, upd_cell_self, h2, h3, if_false,
          upd_lists, true_and, and_true]
        intro h4
        exact h3 ⟨h4.2, h4.1⟩

/-- One store keeps the forest invariant, when the cell it writes was not visited before. -/
theorem store_back_forest_inv (V : Nat → Prop) (b : Buffers) (j : Nat) (s : State)
    (hinv : forest_inv c ri g V s) (hnv : ¬ V (b.lu_indices j)) :
    forest_inv c ri g (fun f => V f ∨ f = b.lu_indices j) (store_back c ri g b j s) := by
  obtain ⟨i1, i2, i3, i4⟩ := hinv
  have hm0 : (s.cell (b.lu_indices j)).land_mask_forest = 0 := i4 _ hnv
  have hnot : ∀ k, k < s.lists.num_forest_cells → s.lists.forest_cells k ≠ b.lu_indices j := by
    intro k hk e
    have := (i1 (b.lu_indices j)).1 ⟨k, hk, e⟩
    rw [hm0] at this
    exact absurd this (by decide)
  have hfr : ∀ f, f ≠ b.lu_indices j → (store_back c ri g b j s).cell f = s.cell f :=
    fun f hf => store_back_frame b j f s hf
  rcases store_back_forest c ri g b j s with
    ⟨hA, hfc, hnum, hmask, hthem⟩ | ⟨hB, hl, hmask⟩
  · refine ⟨?_, ?_, ?_, ?_⟩
    · intro f
      unfold in_forest_cells
      rw [hfc, hnum]
      by_cases hf : f = b.lu_indices j
      · subst hf
        rw [hmask]
        exact ⟨fun _ => rfl, fun _ => ⟨s.lists.num_forest_cells, by omega, by simp [store]⟩⟩
      · rw [hfr f hf, ← i1 f]
        constructor
        · rintro ⟨k, hk, e⟩
          by_cases hkn : k = s.lists.num_forest_cells
          · subst hkn
            simp only [store, if_true] at e
            exact absurd e.symm hf
          · simp only [store, hkn, if_false] at e
            exact ⟨k, by omega, e⟩
        · rintro ⟨k, hk, e⟩
          refine ⟨k, by omega, ?_⟩
          have hkn : k ≠ s.lists.num_forest_cells := by omega
          simp only [store, hkn, if_false]
          exact e
    · unfold forest_cells_distinct
      rw [hfc, hnum]
      intro k hk k' hk' e
      by_cases hkn : k = s.lists.num_forest_cells <;>
        by_cases hkn' : k' = s.lists.num_forest_cells
      · omega
      · simp only [store, hkn, hkn', if_true, if_false] at e
        exact absurd e.symm (hnot k' (by omega))
      · simp only [store, hkn, hkn', if_true, if_false] at e
        exact absurd e (hnot k (by omega))
      · simp only [store, hkn, hkn', if_false] at e
        exact i2 k (by omega) k' (by omega) e
    · intro f hf
      by_cases hfj : f = b.lu_indices j
      · subst hfj
        unfold forest_class
        rw [hmask, hthem]
        exact ⟨fun _ => hA, fun _ => rfl⟩
      · rcases hf with hf | hf
        · unfold forest_class
          rw [hfr f hfj]
          exact i3 f hf
        · exact absurd hf hfj
    · intro f hf
      have hfj : f ≠ b.lu_indices j := fun e => hf (Or.inr e)
      rw [hfr f hfj]
      exact i4 f (fun h => hf (Or.inl h))
  · refine ⟨?_, ?_, ?_, ?_⟩
    · intro f
      unfold in_forest_cells
      rw [hl]
      by_cases hf : f = b.lu_indices j
      · subst hf
        rw [hmask]
        exact i1 _
      · rw [hfr f hf]
        exact i1 f
    · unfold forest_cells_distinct
      rw [hl]
      exact i2
    · intro f hf
      by_cases hfj : f = b.lu_indices j
      · subst hfj
        unfold forest_class
        rw [hmask, hm0]
        exact ⟨fun h => absurd h (by decide), fun h => absurd h hB⟩
      · rcases hf with hf | hf
        · unfold forest_class
          rw [hfr f hfj]
          exact i3 f hf
        · exact absurd hf hfj
    · intro f hf
      have hfj : f ≠ b.lu_indices j := fun e => hf (Or.inr e)
      rw [hfr f hfj]
      exact i4 f (fun h => hf (Or.inl h))

theorem forest_inv_congr (V W : Nat → Prop) (s : State) (h : ∀ f, V f ↔ W f)
    (hinv : forest_inv c ri g V s) : forest_inv c ri g W s := by
  obtain ⟨i1, i2, i3, i4⟩ := hinv
  exact ⟨i1, i2, fun f hf => i3 f ((h f).2 hf), fun f hf => i4 f (fun hv => hf ((h f).1 hv))⟩

/-- The store loop of one block keeps the forest invariant, when the block holds no cell
twice and no cell visited before. -/
theorem store_loop_forest_inv (c : Consts) (ri : rinfo_struct) (g : Grids) (V : Nat → Prop)
    (b : Buffers) (n : Nat) (s : State)
    (hinv : forest_inv c ri g V s) (hnv : ∀ j, j < n → ¬ V (b.lu_indices j))
    (hinj : ∀ j, j < n → ∀ j', j' < n → b.lu_indices j = b.lu_indices j' → j = j') :
    forest_inv c ri g (fun f => V f ∨ ∃ j, j < n ∧ b.lu_indices j = f)
      (for_loop (store_back c ri g b) n 0 s) := by
  have h := for_loop_offset (store_back c ri g b)
    (fun k t => forest_inv c ri g (fun f => V f ∨ ∃ j, j < k ∧ b.lu_indices j = f) t)
    n 0 s
    (forest_inv_congr V _ s (fun f => ⟨Or.inl, fun h => by
      rcases h with h | ⟨j, hj, _⟩
      · exact h
      · omega⟩) hinv)
    (fun k t hk hP => by
      rw [Nat.zero_add]
      have hstep := store_back_forest_inv
        (fun f => V f ∨ ∃ j, j < k ∧ b.lu_indices j = f) b k t hP
        (by
          rintro (hv | ⟨j, hj, e⟩)
          · exact hnv k hk hv
          · have := hinj j (by omega) k hk e
            omega)
      refine forest_inv_congr _ _ _ (fun f => ?_) hstep
      constructor
      · rintro ((hv | ⟨j, hj, e⟩) | e)
        · exact Or.inl hv
        · exact Or.inr ⟨j, by omega, e⟩
        · exact Or.inr ⟨k, by omega, e.symm⟩
      · rintro (hv | ⟨j, hj, e⟩)
        · exact Or.inl (Or.inl hv)
        · by_cases hjk : j = k
          · subst hjk; exact Or.inr e.symm
          · exact Or.inl (Or.inr ⟨j, by omega, e⟩))
  exact h

theorem store_back_rand_order (b : Buffers) (j : Nat) (s : State) :
    (store_back c ri g b j s).rand_order = s.rand_order := by
  unfold store_back
  dsimp only
  split_ifs <;> rfl

/-- The store loop writes neither `NUM_LU_CELLS` nor `rand_order`. -/
theorem store_loop_globals (c : Consts) (ri : rinfo_struct) (g : Grids) (b : Buffers)
    (n : Nat) (s : State) :
    (for_loop (store_back c ri g b) n 0 s).NUM_LU_CELLS = s.NUM_LU_CELLS ∧
    (for_loop (store_back c ri g b) n 0 s).rand_order = s.rand_order := by
  have h := for_loop_offset (store_back c ri g b)
    (fun _ t => t.NUM_LU_CELLS = s.NUM_LU_CELLS ∧ t.rand_order = s.rand_order)
    n 0 s ⟨rfl, rfl⟩
    (fun k t _ hP => by
      show (store_back c ri g b (0 + k) t).NUM_LU_CELLS = s.NUM_LU_CELLS ∧
        (store_back c ri g b (0 + k) t).rand_order = s.rand_order
      rw [store_back_num, store_back_rand_order]
      exact hP)
  exact h

/-- One pass of the loop over the coarse cells keeps the forest invariant, when the block
holds no cell twice and no cell visited before. -/
theorem coarse_body_forest_inv (V : Nat → Prop) (i : Nat) (L L1 : Locals)
    (hN : L.s.NUM_LU_CELLS = num_split ri * num_split ri)
    (hinv : forest_inv c ri g V L.s)
    (hnv : ∀ k, k < num_split ri * num_split ri → ¬ V (block_cell c ri i k))
    (hinj : ∀ k, k < num_split ri * num_split ri → ∀ k', k' < num_split ri * num_split ri →
      block_cell c ri i k = block_cell c ri i k' → k = k')
    (hb : coarse_body c ri g proc i L = .ok L1) :
    L1.s.NUM_LU_CELLS = num_split ri * num_split ri ∧
    forest_inv c ri g
      (fun f => V f ∨ ∃ k, k < num_split ri * num_split ri ∧ block_cell c ri i k = f) L1.s := by
  unfold coarse_body at hb
  simp only at hb
  split_ifs at hb with h1 h2
  injection hb with hb
  subst hb
  simp only
  have hidx : ∀ k, k < L.s.NUM_LU_CELLS →
      (fill_coarse c ri L.s i L.buf).1.lu_indices k = block_cell c ri i k :=
    fun k hk => fill_coarse_index c ri L.s i L.buf k (by rw [← hN]; exact hk)
  have hl := store_loop_forest_inv c ri g V
    { lu_indices := (fill_coarse c ri L.s i L.buf).1.lu_indices
      lu_area := (proc (fun j => if j < c.NUM_LULC_TYPES then g.lulc_input_grid j i else 0)
        (fill_coarse c ri L.s i L.buf).1.lu_indices (fill_coarse c ri L.s i L.buf).1.lu_area
        (fill_coarse c ri L.s i L.buf).1.refveg_area_out
        (fill_coarse c ri L.s i L.buf).1.refveg_them L.s.NUM_LU_CELLS i g L.s).lu_area
      refveg_area_out := (proc (fun j => if j < c.NUM_LULC_TYPES then g.lulc_input_grid j i else 0)
        (fill_coarse c ri L.s i L.buf).1.lu_indices (fill_coarse c ri L.s i L.buf).1.lu_area
        (fill_coarse c ri L.s i L.buf).1.refveg_area_out
        (fill_coarse c ri L.s i L.buf).1.refveg_them L.s.NUM_LU_CELLS i g L.s).refveg_area_out
      refveg_them := (proc (fun j => if j < c.NUM_LULC_TYPES then g.lulc_input_grid j i else 0)
        (fill_coarse c ri L.s i L.buf).1.lu_indices (fill_coarse c ri L.s i L.buf).1.lu_area
        (fill_coarse c ri L.s i L.buf).1.refveg_area_out
        (fill_coarse c ri L.s i L.buf).1.refveg_them L.s.NUM_LU_CELLS i g L.s).refveg_them }
    L.s.NUM_LU_CELLS L.s hinv
    (fun j hj => by
      simp only
      rw [hidx j hj]
      exact hnv j (by rw [← hN]; exact hj))
    (fun j hj j' hj' e => by
      simp only at e
      rw [hidx j hj, hidx j' hj'] at e
      exact hinj j (by rw [← hN]; exact hj) j' (by rw [← hN]; exact hj') e)
  refine ⟨by rw [(store_loop_globals c ri g _ L.s.NUM_LU_CELLS L.s).1, hN], ?_⟩
  refine forest_inv_congr _ _ _ (fun f => ?_) hl
  simp only
  constructor
  · rintro (hv | ⟨j, hj, e⟩)
    · exact Or.inl hv
    · rw [hidx j hj] at e
      exact Or.inr ⟨j, by rw [← hN]; exact hj, e⟩
  · rintro (hv | ⟨j, hj, e⟩)
    · exact Or.inl hv
    · rw [← hN] at hj
      exact Or.inr ⟨j, hj, by rw [hidx j hj]; exact e⟩

/-- The loop over the coarse cells keeps the forest invariant, the visited cells being the
cells of the blocks of the coarse cells already processed. -/
theorem coarse_loop_forest_inv (c : Consts) (ri : rinfo_struct) (g : Grids) (proc : ProcLulc)
    (hd : blocks_disjoint c ri) : ∀ n i (L : Locals),
    i + n = ri.lulc_input_ncells →
    L.s.NUM_LU_CELLS = num_split ri * num_split ri →
    (coarse_loop c ri g proc n i L).1 = OK →
    forest_inv c ri g
      (fun f => ∃ i', i' < i ∧ ∃ k, k < num_split ri * num_split ri ∧ block_cell c ri i' k = f)
      L.s →
    forest_inv c ri g
      (fun f => ∃ i', i' < i + n ∧
        ∃ k, k < num_split ri * num_split ri ∧ block_cell c ri i' k = f)
      (coarse_loop c ri g proc n i L).2 := by
  intro n
  induction n with
  | zero =>
    intro i L _ _ _ h
    exact h
  | succ n ih =>
    intro i L hin hN hok h
    unfold coarse_loop at hok ⊢
    cases hb : coarse_body c ri g proc i L with
    | error r =>
      rw [hb] at hok
      exact absurd hok (coarse_body_error_code i L r hN hb)
    | ok L1 =>
      rw [hb] at hok
      simp only
      obtain ⟨b1, b2⟩ := coarse_body_forest_inv _ i L L1 hN h
        (by
          rintro k hk ⟨i', hi', k', hk', e⟩
          have := (hd i' (by omega) k' hk' i (by omega) k hk e).1
          omega)
        (fun k hk k' hk' e => (hd i (by omega) k hk i (by omega) k' hk' e).2)
        hb
      have h2 := ih (i + 1) L1 (by omega) b1 hok
        (forest_inv_congr _ _ _ (fun f => by
          constructor
          · rintro (⟨i', hi', hk⟩ | hk)
            · exact ⟨i', by omega, hk⟩
            · exact ⟨i, by omega, hk⟩
          · rintro ⟨i', hi', hk⟩
            by_cases hii : i' = i
            · subst hii; exact Or.inr hk
            · exact Or.inl ⟨i', by omega, hk⟩) b2)
      have e : i + (n + 1) = i + 1 + n := by omega
      rw [e]
      exact h2

/-- The forest invariant holds at loop entry when the forest list is empty and the forest
mask is 0 everywhere. -/
theorem forest_inv_start (s : State) (h0 : s.lists.num_forest_cells = 0)
    (hm : ∀ f, (s.cell f).land_mask_forest = 0) :
    forest_inv c ri g
      (fun f => ∃ i', i' < 0 ∧ ∃ k, k < num_split ri * num_split ri ∧ block_cell c ri i' k = f)
      s := by
  refine ⟨fun f => ?_, ?_, ?_, fun f _ => hm f⟩
  · unfold in_forest_cells
    rw [h0, hm f]
    exact ⟨fun ⟨k, hk, _⟩ => by omega, fun h => absurd h (by decide)⟩
  · unfold forest_cells_distinct
    rw [h0]
    intro k hk
    omega
  · rintro f ⟨i', hi', _⟩
    omega

/-- After a run of `calc_refveg_area` that returned `OK`, started with an empty forest list
and a forest mask that is 0 everywhere, with no fine cell enumerated twice, the forest
invariant holds with the cells of all the coarse blocks visited. -/
theorem calc_refveg_area_forest_inv (c : Consts) (ri : rinfo_struct) (g : Grids)
    (rnd : Nat → Nat) (rd : Reads) (proc : ProcLulc) (s : State)
    (hok : (calc_refveg_area c ri g rnd rd proc s).1 = OK)
    (h0 : s.lists.num_forest_cells = 0) (hm : ∀ f, (s.cell f).land_mask_forest = 0)
    (hd : blocks_disjoint c ri) :
    forest_inv c ri g
      (fun f => ∃ i', i' < ri.lulc_input_ncells ∧
        ∃ k, k < num_split ri * num_split ri ∧ block_cell c ri i' k = f)
      (calc_refveg_area c ri g rnd rd proc s).2 := by
  unfold calc_refveg_area at hok ⊢
  by_cases h1 : rd.hyde_err = OK
  · by_cases h2 : rd.lulc_err = OK
    · simp only [h1, h2, ne_eq, not_true_eq_false, if_false] at hok ⊢
      have h := coarse_loop_forest_inv c ri g proc hd ri.lulc_input_ncells 0
        { err := OK, buf := zero_buffers
          s := { load_hyde rd s with
            NUM_LU_CELLS := num_split ri * num_split ri
            rand_order :=
              (build_rand_order rnd ri.lulc_input_ncells (num_split ri * num_split ri)).1 } }
        (by omega) rfl hok (forest_inv_start _ h0 hm)
      rw [Nat.zero_add] at h
      exact h
    · simp only [h1, h2, ne_eq, not_true_eq_false, not_false_eq_true, if_false, if_true] at hok
  · simp only [h1, ne_eq, not_false_eq_true, if_true] at hok

/-- C13, as amended. After `calc_refveg_area` returns `OK`, started with `forest_cells`
empty and `land_mask_forest` 0 everywhere, with no fine cell enumerated twice by the coarse
blocks: a fine cell id occurs in `forest_cells[0 .. num_forest_cells)` if and only if its
`land_mask_forest` is 1; for a fine cell that lies in a coarse block, `land_mask_forest` is
1 if and only if the cell has hyde land area and its `refveg_thematic` differs from the
potential vegetation nodata value and lies between `MIN_SAGE_FOREST_CODE` and
`MAX_SAGE_FOREST_CODE`; a fine cell outside every block has `land_mask_forest` 0; and no id
occurs more than once in the list. -/
theorem C13_forest_list_and_mask (c : Consts) (ri : rinfo_struct) (g : Grids)
    (rnd : Nat → Nat) (rd : Reads) (proc : ProcLulc) (s : State)
    (hok : (calc_refveg_area c ri g rnd rd proc s).1 = OK)
    (h0 : s.lists.num_forest_cells = 0) (hm : ∀ f, (s.cell f).land_mask_forest = 0)
    (hd : blocks_disjoint c ri) :
    (∀ f, in_forest_cells (calc_refveg_area c ri g rnd rd proc s).2 f ↔
      ((calc_refveg_area c ri g rnd rd proc s).2.cell f).land_mask_forest = 1) ∧
    (∀ i k, i < ri.lulc_input_ncells → k < num_split ri * num_split ri →
      (((calc_refveg_area c ri g rnd rd proc s).2.cell (block_cell c ri i k)).land_mask_forest
          = 1 ↔
        forest_class c ri g (calc_refveg_area c ri g rnd rd proc s).2 (block_cell c ri i k))) ∧
    (∀ f, (¬ ∃ i, i < ri.lulc_input_ncells ∧
        ∃ k, k < num_split ri * num_split ri ∧ block_cell c ri i k = f) →
      ((calc_refveg_area c ri g rnd rd proc s).2.cell f).land_mask_forest = 0) ∧
    forest_cells_distinct (calc_refveg_area c ri g rnd rd proc s).2 := by
  obtain ⟨i1, i2, i3, i4⟩ := calc_refveg_area_forest_inv c ri g rnd rd proc s hok h0 hm hd
  exact ⟨i1, fun i k hi hk => i3 _ ⟨i, hi, k, hk, rfl⟩, i4, i2⟩

end

/-- C13 as stated fails for a fine cell outside every coarse block: with a coarse grid of one
row of 4 cells, each as large as one fine cell, over the 2 by 4 fine grid, started with an
empty forest list and a forest mask that is 0 everywhere, the run returns `OK`; cell 5, in
the second fine row, has hyde land area and keeps the forest class 4 it held before the
run, yet its forest mask is 0 and it is not in the forest list. -/
theorem C13_counterexample :
    (calc_refveg_area demo_consts flat_rinfo demo_grid demo_rand demo_reads demo_proc
      stale_state).1 = OK ∧
    stale_state.lists.num_forest_cells = 0 ∧
    (∀ f, (stale_state.cell f).land_mask_forest = 0) ∧
    blocks_disjoint demo_consts flat_rinfo ∧
    forest_class demo_consts flat_rinfo demo_grid
      (calc_refveg_area demo_consts flat_rinfo demo_grid demo_rand demo_reads demo_proc
        stale_state).2 5 ∧
    ((calc_refveg_area demo_consts flat_rinfo demo_grid demo_rand demo_reads demo_proc
      stale_state).2.cell 5).land_mask_forest = 0 ∧
    ¬ in_forest_cells
      (calc_refveg_area demo_consts flat_rinfo demo_grid demo_rand demo_reads demo_proc
        stale_state).2 5 := by
  refine ⟨by decide, by decide, fun f => ?_, by decide, by decide, by decide, by decide⟩
  unfold stale_state State.upd store
  dsimp only
  split_ifs <;> rfl

/-- C13, as amended, at the sample grid, started from the zeroed state: cell 2, position 0
of the block of coarse cell 1, is a forest cell, it is in the forest list, and the list has
no repetition. -/
theorem C13_forest_list_and_mask_witness :
    block_cell demo_consts demo_rinfo 1 0 = 2 ∧
    in_forest_cells
      (calc_refveg_area demo_consts demo_rinfo demo_grid demo_rand demo_reads demo_proc
        zero_state).2 2 ∧
    (((calc_refveg_area demo_consts demo_rinfo demo_grid demo_rand demo_reads demo_proc
        zero_state).2.cell (block_cell demo_consts demo_rinfo 1 0)).land_mask_forest = 1 ↔
      forest_class demo_consts demo_rinfo demo_grid
        (calc_refveg_area demo_consts demo_rinfo demo_grid demo_rand demo_reads demo_proc
          zero_state).2 (block_cell demo_consts demo_rinfo 1 0)) ∧
    forest_cells_distinct
      (calc_refveg_area demo_consts demo_rinfo demo_grid demo_rand demo_reads demo_proc
        zero_state).2 :=
  have h := C13_forest_list_and_mask demo_consts demo_rinfo demo_grid demo_rand demo_reads
    demo_proc zero_state (by decide) rfl (fun _ => rfl) (by decide)
  ⟨by decide, (h.1 2).2 (by decide), h.2.1 1 0 (by decide) (by decide), h.2.2.2⟩

end Moirai

namespace Moirai
section
variable {c : Consts} {ri : rinfo_struct} {g : Grids} {proc : ProcLulc}

/-- Lines 236-239: when `count` differs from `NUM_LU_CELLS` the pass returns the current
value of `err`. -/
theorem coarse_body_count_mismatch (i : Nat) (L : Locals)
    (h : (fill_coarse c ri L.s i L.buf).2 ≠ L.s.NUM_LU_CELLS) :
    coarse_body c ri g proc i L = .error (L.err, L.s) := by
  unfold coarse_body
  simp only [h, ne_eq, not_false_eq_true, if_true]

/-- A pass that falls through to the next coarse cell leaves `OK` in `err`. -/
theorem coarse_body_err_ok (i : Nat) (L L1 : Locals)
    (hb : coarse_body c ri g proc i L = .ok L1) : L1.err = OK := by
  unfold coarse_body at hb
  simp only at hb
  split_ifs at hb with h1 h2
  injection hb with hb
  subst hb
  simp only
  exact not_not.mp h2

/-- C14. The count check of lines 236-239 does not return an error code: a pass of the loop
over the coarse cells in which `count` differs from `NUM_LU_CELLS` makes the function return
the value that `err` holds, and `err` holds `OK` there, since both readers and every earlier
call of `proc_lulc_area` have returned `OK`; so the function returns `OK`. -/
theorem C14_count_mismatch_returns_ok (c : Consts) (ri : rinfo_struct) (g : Grids)
    (proc : ProcLulc) (n i : Nat) (L : Locals)
    (hm : (fill_coarse c ri L.s i L.buf).2 ≠ L.s.NUM_LU_CELLS) (he : L.err = OK) :
    (coarse_loop c ri g proc (n + 1) i L).1 = OK := by
  unfold coarse_loop
  rw [coarse_body_count_mismatch i L hm]
  exact he

end

/-- C14 at the state of the count check with `NUM_LU_CELLS` 4 and index loops that run no
pass: `count` is 0, `err` holds `OK`, and the loop over the coarse cells returns `OK`. -/
theorem C14_count_mismatch_returns_ok_witness :
    (fill_coarse demo_consts empty_rinfo mismatch_locals.s 0 mismatch_locals.buf).2 = 0 ∧
    mismatch_locals.s.NUM_LU_CELLS = 4 ∧
    (coarse_loop demo_consts empty_rinfo demo_grid demo_proc 2 0 mismatch_locals).1 = OK :=
  ⟨by decide, rfl,
    C14_count_mismatch_returns_ok demo_consts empty_rinfo demo_grid demo_proc 1 0
      mismatch_locals (by decide) rfl⟩

end Moirai

namespace Moirai

theorem trunc_natCast (n : Nat) : trunc (n : ℚ) = (n : Int) := by
  unfold trunc
  rw [if_pos (Nat.cast_nonneg n)]
  exact Int.floor_natCast n

theorem trunc_intCast_nat (n : Nat) : trunc (((n : Int) : ℚ)) = (n : Int) := by
  have h : (((n : Int) : ℚ)) = (n : ℚ) := by push_cast; rfl
  rw [h]
  exact trunc_natCast n

/-- On natural numbers `fmod` is the integer remainder. -/
theorem fmod_natCast (i n : Nat) : fmod (i : ℚ) (n : ℚ) = ((i % n : Nat) : ℚ) := by
  unfold fmod trunc
  have hq : (0 : ℚ) ≤ (i : ℚ) / (n : ℚ) := div_nonneg (Nat.cast_nonneg i) (Nat.cast_nonneg n)
  rw [if_pos hq]
  have hf : ⌊(i : ℚ) / (n : ℚ)⌋ = ((i / n : Nat) : Int) := by
    have h := Rat.floor_intCast_div_natCast (i : Int) n
    have e : (((i : Int) : ℚ)) = (i : ℚ) := by push_cast; rfl
    rw [e] at h
    rw [h]
    norm_cast
  rw [hf]
  have hdm : (i : ℚ) = ((i % n : Nat) : ℚ) + (n : ℚ) * ((i / n : Nat) : ℚ) := by
    exact_mod_cast (Nat.mod_add_div i n).symm
  have e2 : ((((i / n : Nat) : Int)) : ℚ) = ((i / n : Nat) : ℚ) := by push_cast; rfl
  rw [e2]
  linarith

/-- The corner row that the source computes through `modf` is the integer formula. -/
theorem grid_y_ul_dbl_eq (ri : rinfo_struct) (i : Nat) :
    grid_y_ul_dbl ri i = (grid_y_ul ri i : Int) := by
  unfold grid_y_ul_dbl grid_y_ul modf
  simp only
  rw [trunc_natCast, trunc_intCast_nat]
  push_cast
  rfl

/-- The corner column that the source computes through `fmod` is the integer formula. -/
theorem grid_x_ul_dbl_eq (ri : rinfo_struct) (i : Nat) :
    grid_x_ul_dbl ri i = (grid_x_ul ri i : Int) := by
  unfold grid_x_ul_dbl grid_x_ul
  rw [fmod_natCast i _, trunc_natCast]
  push_cast
  rfl

/-- C15, as amended. For every coarse cell id `i` and coarse column count
`ncols_lulc > 0`, the upper left corner that `calc_refveg_area` computes through `fmod` and
`modf`, taken on exact values, equals the integer formulas
`grid_y_ul = (i / ncols_lulc) * num_split` and `grid_x_ul = (i % ncols_lulc) * num_split`,
and the id stored at position `a * num_split + b` with `a, b < num_split` is the row-major
id of the cell at row `grid_y_ul + a` and column `grid_x_ul + b` on the working grid of
`NUM_LON` columns; this is the grid of `lu_ncols` columns when `NUM_LON = lu_ncols`. -/
theorem C15_corner_and_ids (c : Consts) (ri : rinfo_struct) (s : State) (i : Nat)
    (buf : Buffers) (a b : Nat) (_ : 0 < ri.lulc_input_ncols)
    (ha : a < num_split ri) (hb : b < num_split ri) :
    grid_y_ul_dbl ri i = (((i / ri.lulc_input_ncols) * num_split ri : Nat) : Int) ∧
    grid_x_ul_dbl ri i = (((i % ri.lulc_input_ncols) * num_split ri : Nat) : Int) ∧
    grid_y_ul ri i = (i / ri.lulc_input_ncols) * num_split ri ∧
    grid_x_ul ri i = (i % ri.lulc_input_ncols) * num_split ri ∧
    (fill_coarse c ri s i buf).1.lu_indices (a * num_split ri + b) =
      row_major c.NUM_LON (grid_y_ul ri i + a) (grid_x_ul ri i + b) ∧
    (c.NUM_LON = ri.lu_ncols →
      (fill_coarse c ri s i buf).1.lu_indices (a * num_split ri + b) =
        row_major ri.lu_ncols (grid_y_ul ri i + a) (grid_x_ul ri i + b)) := by
  have hidx : (fill_coarse c ri s i buf).1.lu_indices (a * num_split ri + b) =
      row_major c.NUM_LON (grid_y_ul ri i + a) (grid_x_ul ri i + b) :=
    (fill_block_spec c s (num_split ri) (grid_y_ul ri i) (grid_x_ul ri i) buf).2 a b ha hb
  refine ⟨grid_y_ul_dbl_eq ri i, grid_x_ul_dbl_eq ri i, rfl, rfl, hidx, fun h => ?_⟩
  rw [hidx, h]

/-- C15 as stated fails when the hyde grid has another column count than the working grid:
with `NUM_LON` 4, `lu_ncols` 8 and a coarse grid of 2 columns, `num_split` is 4 and the id
stored at position `1 * 4 + 0` of the block of coarse cell 0 is 4, while the row-major id of
the cell at row 1 and column 0 of a grid of 8 columns is 8. -/
theorem C15_counterexample :
    0 < wide_rinfo.lulc_input_ncols ∧ num_split wide_rinfo = 4 ∧
    grid_y_ul wide_rinfo 0 = 0 ∧ grid_x_ul wide_rinfo 0 = 0 ∧
    (fill_coarse demo_consts wide_rinfo zero_state 0 zero_buffers).1.lu_indices (1 * 4 + 0)
      = 4 ∧
    row_major wide_rinfo.lu_ncols (grid_y_ul wide_rinfo 0 + 1) (grid_x_ul wide_rinfo 0 + 0)
      = 8 := by
  decide

/-- C15, as amended, at the sample grid: coarse cell 1 has its corner at row 0 and column 2,
and position `1 * 2 + 1` of its block holds the id 7 of the cell at row 1 and column 3. -/
theorem C15_corner_and_ids_witness :
    grid_y_ul_dbl demo_rinfo 1 = 0 ∧ grid_x_ul_dbl demo_rinfo 1 = 2 ∧
    (fill_coarse demo_consts demo_rinfo zero_state 1 zero_buffers).1.lu_indices
      (1 * num_split demo_rinfo + 1) = 7 :=
  have h := C15_corner_and_ids demo_consts demo_rinfo zero_state 1 zero_buffers 1 1
    (by decide) (by decide) (by decide)
  ⟨h.1, h.2.1, h.2.2.2.2.1⟩

end Moirai

namespace Moirai
section
variable {c : Consts} {ri : rinfo_struct} {g : Grids} {proc : ProcLulc}

/-- One pass of the loop over the coarse cells leaves `rand_order` as it was, whether it
falls through or returns. -/
theorem coarse_body_rand_order (i : Nat) (L : Locals) :
    (∀ L1, coarse_body c ri g proc i L = .ok L1 → L1.s.rand_order = L.s.rand_order) ∧
    (∀ r, coarse_body c ri g proc i L = .error r → r.2.rand_order = L.s.rand_order) := by
  constructor
  · intro L1 hb
    unfold coarse_body at hb
    simp only at hb
    split_ifs at hb with h1 h2
    injection hb with hb
    subst hb
    exact (store_loop_globals c ri g _ L.s.NUM_LU_CELLS L.s).2
  · intro r hb
    unfold coarse_body at hb
    simp only at hb
    split_ifs at hb with h1 h2
    · injection hb with hb
      subst hb
      rfl
    · injection hb with hb
      subst hb
      rfl

/-- The loop over the coarse cells never writes `rand_order`. -/
theorem coarse_loop_rand_order (c : Consts) (ri : rinfo_struct) (g : Grids) (proc : ProcLulc) :
    ∀ n i (L : Locals), (coarse_loop c ri g proc n i L).2.rand_order = L.s.rand_order := by
  intro n
  induction n with
  | zero => intro i L; rfl
  | succ n ih =>
    intro i L
    unfold coarse_loop
    cases hb : coarse_body c ri g proc i L with
    | error r =>
      simp only
      exact (coarse_body_rand_order i L).2 r hb
    | ok L1 =>
      simp only
      rw [ih (i + 1) L1]
      exact (coarse_body_rand_order i L).1 L1 hb

/-- When both readers succeed, `rand_order` after `calc_refveg_area` is the array built by
lines 143-166, whatever the return code. -/
theorem calc_refveg_area_rand_order (c : Consts) (ri : rinfo_struct) (g : Grids)
    (rnd : Nat → Nat) (rd : Reads) (proc : ProcLulc) (s : State)
    (h1 : rd.hyde_err = OK) (h2 : rd.lulc_err = OK) :
    (calc_refveg_area c ri g rnd rd proc s).2.rand_order =
      (build_rand_order rnd ri.lulc_input_ncells (num_split ri * num_split ri)).1 := by
  unfold calc_refveg_area
  simp only [h1, h2, ne_eq, not_true_eq_false, if_false]
  rw [coarse_loop_rand_order]

/-- C16. The array `rand_order` is built by lines 143-166 from `ncells_lulc`, `NUM_LU_CELLS`
and the values returned by `rand()` alone, before the loop over the coarse cells, and that
loop never writes it: two runs of `calc_refveg_area` in which the readers succeed, with the
same `ncells_lulc`, the same `NUM_LU_CELLS` and the same values of `rand()`, but any
constants, grids, land use arrays, behaviour of `proc_lulc_area` and start states, leave the
same `rand_order`. -/
theorem C16_rand_order_fixed (c c' : Consts) (ri ri' : rinfo_struct) (g g' : Grids)
    (rnd : Nat → Nat) (rd rd' : Reads) (proc proc' : ProcLulc) (s s' : State)
    (h1 : rd.hyde_err = OK) (h2 : rd.lulc_err = OK)
    (h1' : rd'.hyde_err = OK) (h2' : rd'.lulc_err = OK)
    (hn : ri'.lulc_input_ncells = ri.lulc_input_ncells)
    (hN : num_split ri' * num_split ri' = num_split ri * num_split ri) :
    (calc_refveg_area c ri g rnd rd proc s).2.rand_order =
      (build_rand_order rnd ri.lulc_input_ncells (num_split ri * num_split ri)).1 ∧
    (calc_refveg_area c' ri' g' rnd rd' proc' s').2.rand_order =
      (calc_refveg_area c ri g rnd rd proc s).2.rand_order ∧
    (∀ n i (L : Locals), (coarse_loop c ri g proc n i L).2.rand_order = L.s.rand_order) := by
  refine ⟨calc_refveg_area_rand_order c ri g rnd rd proc s h1 h2, ?_,
    coarse_loop_rand_order c ri g proc⟩
  rw [calc_refveg_area_rand_order c ri g rnd rd proc s h1 h2,
    calc_refveg_area_rand_order c' ri' g' rnd rd' proc' s' h1' h2', hn, hN]

end

/-- C16 at the sample grid: the run on the sample grid from the zeroed state and the run on
the grid with the unmerged country table from the state left by `get_land_cells`, with the
outcome of `proc_lulc_area` replaced by one without forest, leave the same `rand_order`. -/
theorem C16_rand_order_fixed_witness :
    (calc_refveg_area demo_consts demo_rinfo unmerged_grid demo_rand
        { demo_reads with crop_grid := fun _ => 1 }
        (fun _ _ lu_area _ _ _ _ _ _ =>
          { err := 0, lu_area := lu_area, refveg_area_out := fun _ => 2
            refveg_them := fun _ => 11 })
        (get_land_cells demo_consts demo_rinfo unmerged_grid zero_state).2).2.rand_order =
      (calc_refveg_area demo_consts demo_rinfo demo_grid demo_rand demo_reads demo_proc
        zero_state).2.rand_order :=
  (C16_rand_order_fixed demo_consts demo_consts demo_rinfo demo_rinfo demo_grid unmerged_grid
    demo_rand demo_reads { demo_reads with crop_grid := fun _ => 1 } demo_proc
    (fun _ _ lu_area _ _ _ _ _ _ =>
      { err := 0, lu_area := lu_area, refveg_area_out := fun _ => 2
        refveg_them := fun _ => 11 })
    zero_state (get_land_cells demo_consts demo_rinfo unmerged_grid zero_state).2
    rfl rfl rfl rfl rfl rfl).2.1

end Moirai

namespace Moirai

/-- What one draw takes: the smaller of the need and the pool; the pool loses that much and
stays non-negative. -/
theorem draw_pool_spec : ∀ (pool : List ℚ) (need : ℚ) (k : Nat), 0 ≤ need →
    (∀ p ∈ pool, 0 ≤ p) →
    (draw_pool need k pool).1 = min need pool.sum ∧
    (draw_pool need k pool).2.1.sum = pool.sum - (draw_pool need k pool).1 ∧
    (∀ p ∈ (draw_pool need k pool).2.1, 0 ≤ p) := by
  intro pool
  induction pool with
  | nil =>
    intro need k hn _
    simp [draw_pool, hn]
  | cons p ps ih =>
    intro need k hn hp
    have hp0 : 0 ≤ p := hp p (List.mem_cons_self _ _)
    have hps : ∀ q ∈ ps, 0 ≤ q := fun q hq => hp q (List.mem_cons_of_mem _ hq)
    have hS : 0 ≤ ps.sum := List.sum_nonneg hps
    have ht : 0 ≤ need - min need p := by
      have := min_le_left need p
      linarith
    obtain ⟨r1, r2, r3⟩ := ih (need - min need p) (k + 1) ht hps
    simp only [draw_pool, List.sum_cons]
    refine ⟨?_, ?_, ?_⟩
    · rw [r1]
      rcases le_total need p with h | h
      · rw [min_eq_left h]
        have e1 : need - need = 0 := sub_self _
        rw [e1, min_eq_left hS, min_eq_left (by linarith)]
        ring
      · rw [min_eq_right h]
        rcases le_total (need - p) ps.sum with h2 | h2
        · rw [min_eq_left h2, min_eq_left (by linarith)]
          ring
        · rw [min_eq_right h2, min_eq_right (by linarith)]
    · rw [r2]
      ring
    · intro q hq
      rcases List.mem_cons.mp hq with h | h
      · rw [h]
        have := min_le_right need p
        linarith
      · exact r3 q h

/-- What the visit of one fine cell does, when the pool is non-negative and the cell holds
no reference vegetation area yet. -/
theorem visit_cell_spec (class_id : Nat → Int) (available : Nat → ℚ) (p : Nat) (d : Disagg)
    (hpool : ∀ q ∈ d.pool, 0 ≤ q) (hz : d.refveg_area_out p = 0) :
    (visit_cell class_id available p d).refveg_area_out p =
      min (max (available p) 0) d.pool.sum ∧
    (visit_cell class_id available p d).pool.sum =
      d.pool.sum - min (max (available p) 0) d.pool.sum ∧
    (∀ q ∈ (visit_cell class_id available p d).pool, 0 ≤ q) ∧
    (∀ q, q ≠ p → (visit_cell class_id available p d).refveg_area_out q =
      d.refveg_area_out q) := by
  have hS : 0 ≤ d.pool.sum := List.sum_nonneg hpool
  unfold visit_cell
  by_cases h1 : available p ≤ 0
  · simp only [h1, if_true]
    rw [max_eq_right h1, min_eq_left hS]
    exact ⟨hz, by ring, hpool, fun _ _ => trivial⟩
  · simp only [h1, if_false]
    have ha : 0 ≤ available p := le_of_lt (not_le.mp h1)
    rw [max_eq_left ha]
    by_cases h2 : d.pool.sum = 0
    · simp only [h2, if_true]
      rw [min_eq_right ha]
      exact ⟨hz, by ring, hpool, fun _ _ => trivial⟩
    · simp only [h2, if_false]
      obtain ⟨r1, r2, r3⟩ := draw_pool_spec d.pool (available p) 0 ha hpool
      refine ⟨?_, ?_, r3, fun q hq => ?_⟩
      · simp only [store, if_true]
        exact r1
      · rw [r2, r1]
      · simp only [store, hq, if_false]

/-- What the visits of the fine cells of a list without repetition assign in total. -/
theorem visit_list_spec (class_id : Nat → Int) (available : Nat → ℚ) :
    ∀ (l : List Nat) (d : Disagg), l.Nodup → (∀ q ∈ d.pool, 0 ≤ q) →
    (∀ p ∈ l, d.refveg_area_out p = 0) →
    ((l.map (l.foldl (fun d p => visit_cell class_id available p d) d).refveg_area_out).sum =
      min ((l.map fun p => max (available p) 0).sum) d.pool.sum) ∧
    (∀ q, q ∉ l →
      (l.foldl (fun d p => visit_cell class_id available p d) d).refveg_area_out q =
        d.refveg_area_out q) := by
  intro l
  induction l with
  | nil =>
    intro d _ hpool _
    simp [List.sum_nonneg hpool]
  | cons p ps ih =>
    intro d hnd hpool hz
    have hp : p ∉ ps := (List.nodup_cons.mp hnd).1
    obtain ⟨v1, v2, v3, v4⟩ := visit_cell_spec class_id available p d hpool
      (hz p (List.mem_cons_self _ _))
    obtain ⟨i1, i2⟩ := ih (visit_cell class_id available p d) (List.nodup_cons.mp hnd).2 v3
      (fun q hq => by
        have hqp : q ≠ p := fun e => hp (e ▸ hq)
        rw [v4 q hqp]
        exact hz q (List.mem_cons_of_mem _ hq))
    have hS : 0 ≤ d.pool.sum := List.sum_nonneg hpool
    have hU : 0 ≤ (ps.map fun p => max (available p) 0).sum :=
      List.sum_nonneg (fun x hx => by
        obtain ⟨q, _, hq⟩ := List.mem_map.mp hx
        rw [← hq]
        exact le_max_right _ _)
    have hu : 0 ≤ max (available p) 0 := le_max_right _ _
    refine ⟨?_, fun q hq => ?_⟩
    · simp only [List.foldl_cons, List.map_cons, List.sum_cons]
      rw [i1, i2 p hp, v1, v2]
      rcases le_total (max (available p) 0) d.pool.sum with h | h
      · rw [min_eq_left h]
        rcases le_total ((ps.map fun p => max (available p) 0).sum)
            (d.pool.sum - max (available p) 0) with h2 | h2
        · rw [min_eq_left h2, min_eq_left (by linarith)]
        · rw [min_eq_right h2, min_eq_right (by linarith)]
          ring
      · rw [min_eq_right h]
        have e1 : d.pool.sum - d.pool.sum = 0 := sub_self _
        rw [e1, min_eq_right hU, min_eq_right (by linarith)]
        ring
    · simp only [List.foldl_cons]
      have hqp : q ≠ p := fun e => hq (e ▸ List.mem_cons_self _ _)
      have hqs : q ∉ ps := fun h => hq (List.mem_cons_of_mem _ h)
      rw [i2 q hqs, v4 q hqp]

/-- The total that the disaggregation of the spec assigns to a block: the smaller of the
total unclaimed land area and the class pool. -/
theorem proc_lulc_area_total (c : Consts) (class_id : Nat → Int) (lulc_area : Nat → ℚ)
    (lu_indices : Nat → Nat) (lu_area : Nat → Nat → ℚ) (refveg_area_out : Nat → ℚ)
    (refveg_them : Nat → Int) (N i : Nat) (g : Grids) (s : State)
    (hperm : (s.rand_order.getD i []).Perm (List.range N))
    (hz : ∀ j, j < N → refveg_area_out j = 0)
    (hpool : ∀ k, k < c.NUM_LULC_TYPES → 0 ≤ lulc_area k) :
    assigned_total
        (proc_lulc_area c class_id lulc_area lu_indices lu_area refveg_area_out refveg_them
          N i g s).refveg_area_out N =
      min (unclaimed_total c g lu_indices lu_area N) (pool_total c lulc_area) := by
  unfold assigned_total unclaimed_total pool_total proc_lulc_area
  simp only
  have hnd : (s.rand_order.getD i []).Nodup := hperm.nodup_iff.mpr (List.nodup_range N)
  have h := (visit_list_spec class_id (available_area c g lu_indices lu_area)
    (s.rand_order.getD i [])
    { pool := (List.range c.NUM_LULC_TYPES).map lulc_area
      refveg_area_out := refveg_area_out, refveg_them := refveg_them }
    hnd
    (fun q hq => by
      obtain ⟨k, hk, e⟩ := List.mem_map.mp hq
      rw [← e]
      exact hpool k (List.mem_range.mp hk))
    (fun p hp => hz p (List.mem_range.mp (hperm.mem_iff.mp hp)))).1
  rw [← (hperm.map _).sum_eq, ← (hperm.map _).sum_eq]
  exact h

theorem fill_cell_zero (c : Consts) (s : State) (m n : Nat) (p : Buffers × Nat)
    (h : ∀ q, q < p.2 → p.1.refveg_area_out q = 0) :
    ∀ q, q < (fill_cell c s m n p).2 → (fill_cell c s m n p).1.refveg_area_out q = 0 := by
  intro q hq
  simp only [fill_cell, store] at hq ⊢
  by_cases hqp : q = p.2
  · simp [hqp]
  · simp only [hqp, if_false]
    exact h q (by omega)

/-- The index loops leave 0 in `refveg_area_out` at every position of the block. -/
theorem fill_coarse_zero (c : Consts) (ri : rinfo_struct) (s : State) (i : Nat) (b : Buffers) :
    ∀ q, q < num_split ri * num_split ri → (fill_coarse c ri s i b).1.refveg_area_out q = 0 := by
  have inner : ∀ m (p : Buffers × Nat), (∀ q, q < p.2 → p.1.refveg_area_out q = 0) →
      ∀ q, q < (for_loop (fun n q => fill_cell c s m n q) (num_split ri) (grid_x_ul ri i) p).2 →
        (for_loop (fun n q => fill_cell c s m n q) (num_split ri) (grid_x_ul ri i)
          p).1.refveg_area_out q = 0 := by
    intro m p hp
    exact for_loop_offset (fun n q => fill_cell c s m n q)
      (fun _ (p : Buffers × Nat) => ∀ q, q < p.2 → p.1.refveg_area_out q = 0)
      (num_split ri) (grid_x_ul ri i) p hp (fun d t _ ht => fill_cell_zero c s m _ t ht)
  have outer := for_loop_offset
    (fun m p => for_loop (fun n q => fill_cell c s m n q) (num_split ri) (grid_x_ul ri i) p)
    (fun _ (p : Buffers × Nat) => ∀ q, q < p.2 → p.1.refveg_area_out q = 0)
    (num_split ri) (grid_y_ul ri i) (b, 0) (fun q hq => by simp at hq)
    (fun d t _ ht => inner _ t ht)
  intro q hq
  have hc := fill_coarse_count c ri s i b
  unfold fill_coarse at hc ⊢
  unfold fill_block at hc ⊢
  exact outer q (by rw [hc]; exact hq)

/-- The pass for coarse cell `i` stores in its buffers what the call of `proc_lulc_area`
returns. -/
theorem coarse_body_ok_buf (c : Consts) (ri : rinfo_struct) (g : Grids) (proc : ProcLulc)
    (i : Nat) (L L1 : Locals) (hb : coarse_body c ri g proc i L = .ok L1) :
    L1.buf.refveg_area_out = (lulc_call c ri g proc i L).refveg_area_out ∧
    L1.buf.lu_area = (lulc_call c ri g proc i L).lu_area ∧
    L1.buf.lu_indices = (fill_coarse c ri L.s i L.buf).1.lu_indices := by
  unfold coarse_body at hb
  simp only at hb
  split_ifs at hb with h1 h2
  injection hb with hb
  subst hb
  exact ⟨rfl, rfl, rfl⟩

/-- The total that the call for coarse cell `i` assigns, for the disaggregation of the
spec: the smaller of the total unclaimed land area of the block and the class pool. -/
theorem lulc_call_total (c : Consts) (ri : rinfo_struct) (g : Grids) (class_id : Nat → Int)
    (i : Nat) (L : Locals)
    (hperm : (L.s.rand_order.getD i []).Perm (List.range (num_split ri * num_split ri)))
    (hpool : ∀ k, k < c.NUM_LULC_TYPES → 0 ≤ g.lulc_input_grid k i) :
    assigned_total (lulc_call c ri g (proc_lulc_area c class_id) i L).refveg_area_out
        (num_split ri * num_split ri) =
      min
        (unclaimed_total c g (fill_coarse c ri L.s i L.buf).1.lu_indices
          (fill_coarse c ri L.s i L.buf).1.lu_area (num_split ri * num_split ri))
        (pool_total c (fun k => g.lulc_input_grid k i)) := by
  have hp : pool_total c (fun j => if j < c.NUM_LULC_TYPES then g.lulc_input_grid j i else 0) =
      pool_total c (fun k => g.lulc_input_grid k i) := by
    unfold pool_total
    congr 1
    apply List.map_congr_left
    intro k hk
    simp only [List.mem_range.mp hk, if_true]
  have h := proc_lulc_area_total c class_id
    (fun j => if j < c.NUM_LULC_TYPES then g.lulc_input_grid j i else 0)
    (fill_coarse c ri L.s i L.buf).1.lu_indices (fill_coarse c ri L.s i L.buf).1.lu_area
    (fill_coarse c ri L.s i L.buf).1.refveg_area_out
    (fill_coarse c ri L.s i L.buf).1.refveg_them (num_split ri * num_split ri) i g L.s hperm
    (fill_coarse_zero c ri L.s i L.buf)
    (fun k hk => by simp only [hk, if_true]; exact hpool k hk)
  rw [hp] at h
  have e : (lulc_call c ri g (proc_lulc_area c class_id) i L).refveg_area_out =
      (proc_lulc_area c class_id
        (fun j => if j < c.NUM_LULC_TYPES then g.lulc_input_grid j i else 0)
        (fill_coarse c ri L.s i L.buf).1.lu_indices (fill_coarse c ri L.s i L.buf).1.lu_area
        (fill_coarse c ri L.s i L.buf).1.refveg_area_out
        (fill_coarse c ri L.s i L.buf).1.refveg_them (num_split ri * num_split ri) i g
        L.s).refveg_area_out := rfl
  rw [e, h]

/-- C17, as amended. For every coarse cell `i` processed by `calc_refveg_area` through the
disaggregation that the spec describes, with `rand_order[i]` a permutation of the block
positions and non-negative class areas: the sum over the block of the reference vegetation
area that the call assigns is the smaller of the block's total unclaimed land area and the
sum of the class areas of the coarse cell; so it is at most the sum of the class areas, with
equality exactly when the total unclaimed land area is at least that sum. -/
theorem C17_conservation (c : Consts) (ri : rinfo_struct) (g : Grids) (class_id : Nat → Int)
    (i : Nat) (L : Locals)
    (hperm : (L.s.rand_order.getD i []).Perm (List.range (num_split ri * num_split ri)))
    (hpool : ∀ k, k < c.NUM_LULC_TYPES → 0 ≤ g.lulc_input_grid k i) :
    assigned_total (lulc_call c ri g (proc_lulc_area c class_id) i L).refveg_area_out
        (num_split ri * num_split ri) =
      min
        (unclaimed_total c g (fill_coarse c ri L.s i L.buf).1.lu_indices
          (fill_coarse c ri L.s i L.buf).1.lu_area (num_split ri * num_split ri))
        (pool_total c (fun k => g.lulc_input_grid k i)) ∧
    assigned_total (lulc_call c ri g (proc_lulc_area c class_id) i L).refveg_area_out
        (num_split ri * num_split ri) ≤ pool_total c (fun k => g.lulc_input_grid k i) ∧
    (assigned_total (lulc_call c ri g (proc_lulc_area c class_id) i L).refveg_area_out
        (num_split ri * num_split ri) = pool_total c (fun k => g.lulc_input_grid k i) ↔
      pool_total c (fun k => g.lulc_input_grid k i) ≤
        unclaimed_total c g (fill_coarse c ri L.s i L.buf).1.lu_indices
          (fill_coarse c ri L.s i L.buf).1.lu_area (num_split ri * num_split ri)) := by
  rw [lulc_call_total c ri g class_id i L hperm hpool]
  exact ⟨rfl, min_le_right _ _, min_eq_right_iff⟩

theorem block_indices :
    (fill_coarse demo_consts demo_rinfo block_locals.s 0 block_locals.buf).1.lu_indices 0 = 0 ∧
    (fill_coarse demo_consts demo_rinfo block_locals.s 0 block_locals.buf).1.lu_indices 1 = 1 ∧
    (fill_coarse demo_consts demo_rinfo block_locals.s 0 block_locals.buf).1.lu_indices 2 = 4 ∧
    (fill_coarse demo_consts demo_rinfo block_locals.s 0 block_locals.buf).1.lu_indices 3 = 5 := by
  decide

theorem block_areas : ∀ p, p < 4 → ∀ m, m < 5 →
    (fill_coarse demo_consts demo_rinfo block_locals.s 0 block_locals.buf).1.lu_area p m =
      if m = 0 then 5 else 0 := by
  decide

theorem block_unclaimed :
    unclaimed_total demo_consts block_grid
      (fill_coarse demo_consts demo_rinfo block_locals.s 0 block_locals.buf).1.lu_indices
      (fill_coarse demo_consts demo_rinfo block_locals.s 0 block_locals.buf).1.lu_area 4 = 30 := by
  obtain ⟨i0, i1, i2, i3⟩ := block_indices
  have e5 : demo_consts.NUM_HYDE_TYPES = 5 := rfl
  have hrow : ∀ p, p < 4 →
      ((List.range 5).map
        ((fill_coarse demo_consts demo_rinfo block_locals.s 0 block_locals.buf).1.lu_area
          p)).sum = 5 := by
    intro p hp
    simp only [List.range_succ, List.range_zero, List.nil_append, List.map_append,
      List.map_cons, List.map_nil, List.sum_append, List.sum_cons, List.sum_nil,
      List.cons_append]
    rw [block_areas p hp 0 (by decide), block_areas p hp 1 (by decide),
      block_areas p hp 2 (by decide), block_areas p hp 3 (by decide),
      block_areas p hp 4 (by decide)]
    norm_num
  unfold unclaimed_total available_area
  rw [e5]
  simp only [List.range_succ, List.range_zero, List.nil_append, List.map_append, List.map_cons,
    List.map_nil, List.sum_append, List.sum_cons, List.sum_nil, List.cons_append, i0, i1, i2, i3]
  have h5 := hrow
  simp only [List.range_succ, List.range_zero, List.nil_append, List.map_append, List.map_cons,
    List.map_nil, List.sum_append, List.sum_cons, List.sum_nil, List.cons_append] at h5
  rw [h5 0 (by decide), h5 1 (by decide), h5 2 (by decide), h5 3 (by decide)]
  norm_num [block_grid]

theorem block_pool_total :
    pool_total demo_consts (fun k => block_grid.lulc_input_grid k 0) = 50 := by
  norm_num [pool_total, block_grid, demo_consts, List.range_succ]

/-- C17 as stated fails for the disaggregation of the spec: the block of coarse cell 0, with
50 of land area and 20 of land use area, has 30 of unclaimed land area, which does not exceed
the class pool of 40 + 10 = 50, and the area assigned is 30, not 50. -/
theorem C17_counterexample :
    (block_locals.s.rand_order.getD 0 []).Perm
      (List.range (num_split demo_rinfo * num_split demo_rinfo)) ∧
    num_split demo_rinfo * num_split demo_rinfo = 4 ∧
    unclaimed_total demo_consts block_grid
      (fill_coarse demo_consts demo_rinfo block_locals.s 0 block_locals.buf).1.lu_indices
      (fill_coarse demo_consts demo_rinfo block_locals.s 0 block_locals.buf).1.lu_area 4 = 30 ∧
    pool_total demo_consts (fun k => block_grid.lulc_input_grid k 0) = 50 ∧
    assigned_total
      (lulc_call demo_consts demo_rinfo block_grid
        (proc_lulc_area demo_consts (fun k => (k : Int) + 1)) 0 block_locals).refveg_area_out
      4 = 30 := by
  refine ⟨by decide, by decide, block_unclaimed, block_pool_total, ?_⟩
  have h := lulc_call_total demo_consts demo_rinfo block_grid (fun k => (k : Int) + 1) 0
    block_locals (by decide) (fun k _ => by unfold block_grid; simp only; split_ifs <;> norm_num)
  have e : num_split demo_rinfo * num_split demo_rinfo = 4 := by decide
  rw [e, block_unclaimed, block_pool_total] at h
  rw [h]
  norm_num

/-- C17, as amended, at the sample grid: the area that the call for coarse cell 1 assigns
is at most the class pool of the coarse cell. -/
theorem C17_conservation_witness :
    assigned_total
      (lulc_call demo_consts demo_rinfo demo_grid
        (proc_lulc_area demo_consts (fun k => (k : Int) + 1)) 1 demo_locals).refveg_area_out
      (num_split demo_rinfo * num_split demo_rinfo)
      ≤ pool_total demo_consts (fun k => demo_grid.lulc_input_grid k 1) :=
  (C17_conservation demo_consts demo_rinfo demo_grid (fun k => (k : Int) + 1) 1 demo_locals
    (by decide) (fun _ _ => by unfold demo_grid; norm_num)).2.1

end Moirai

namespace Moirai

/-- The value and the return code of `get_aez_val`. -/
theorem get_aez_val_value (search : (Nat → Int) → Nat → Nat → Nat → Int → Int → Int)
    (aez_array : Nat → Int) (index nrows ncols : Nat) (nodata_val : Int) (s : State) :
    (get_aez_val search aez_array index nrows ncols nodata_val s).value = aez_array index ∧
    (get_aez_val search aez_array index nrows ncols nodata_val s).ret = OK := by
  unfold get_aez_val
  simp

/-- The state that `get_aez_val` leaves. -/
theorem get_aez_val_state (search : (Nat → Int) → Nat → Nat → Nat → Int → Int → Int)
    (aez_array : Nat → Int) (index nrows ncols : Nat) (nodata_val : Int) (s : State) :
    (get_aez_val search aez_array index nrows ncols nodata_val s).s =
      if aez_array index = nodata_val then
        s.upd index fun r => { r with missing_aez_mask := 1 }
      else s := by
  unfold get_aez_val
  simp

/-- C18. For every array, index, grid size and nodata value, `get_aez_val` stores
`aez_array[index]` in `*value` and returns `OK`, whatever the disabled vicinity search
would compute; so `*value` is the nodata value exactly when `aez_array[index]` is, and a call
with any other `nrows`, `ncols`, search, state and array that agrees at `index` gives the
same value and return code. -/
theorem C18_value_is_array_entry
    (search search' : (Nat → Int) → Nat → Nat → Nat → Int → Int → Int)
    (aez_array aez_array' : Nat → Int) (index nrows ncols nrows' ncols' : Nat)
    (nodata_val : Int) (s s' : State) :
    (get_aez_val search aez_array index nrows ncols nodata_val s).value = aez_array index ∧
    (get_aez_val search aez_array index nrows ncols nodata_val s).ret = OK ∧
    ((get_aez_val search aez_array index nrows ncols nodata_val s).value = nodata_val ↔
      aez_array index = nodata_val) ∧
    (aez_array' index = aez_array index →
      (get_aez_val search' aez_array' index nrows' ncols' nodata_val s').value =
        (get_aez_val search aez_array index nrows ncols nodata_val s).value ∧
      (get_aez_val search' aez_array' index nrows' ncols' nodata_val s').ret =
        (get_aez_val search aez_array index nrows ncols nodata_val s).ret) := by
  obtain ⟨h1, h2⟩ := get_aez_val_value search aez_array index nrows ncols nodata_val s
  obtain ⟨h3, h4⟩ := get_aez_val_value search' aez_array' index nrows' ncols' nodata_val s'
  rw [h1, h2, h3, h4]
  exact ⟨rfl, rfl, Iff.rfl, fun h => ⟨h, rfl⟩⟩

/-- C18 at the sample grid: cell 6 has no new zone and its neighbour, cell 7, has none
either; the value is the nodata value -9999 whatever the search and the grid size. -/
theorem C18_value_is_array_entry_witness :
    (get_aez_val demo_search demo_grid.aez_bounds_new 6 2 4 (-9999) zero_state).value
      = -9999 ∧
    (get_aez_val (fun _ _ _ _ _ t => t) (fun _ => -9999) 6 1 8 (-9999) zero_state).value =
      (get_aez_val demo_search demo_grid.aez_bounds_new 6 2 4 (-9999) zero_state).value :=
  have h := C18_value_is_array_entry demo_search (fun _ _ _ _ _ t => t)
    demo_grid.aez_bounds_new (fun _ => -9999) 6 2 4 1 8 (-9999) zero_state zero_state
  ⟨h.1, (h.2.2.2 (by decide)).1⟩

/-- C19. After `get_aez_val`, `missing_aez_mask[index]` is 1 if `aez_array[index]` is the
nodata value and keeps its previous value otherwise; the record of every other cell, so
every other entry of `missing_aez_mask`, is unchanged, the other fields of the record of
cell `index` and the lists are unchanged, and `aez_array` is unchanged. -/
theorem C19_missing_mask_frame
    (search : (Nat → Int) → Nat → Nat → Nat → Int → Int → Int)
    (aez_array : Nat → Int) (index nrows ncols : Nat) (nodata_val : Int) (s : State) :
    ((get_aez_val search aez_array index nrows ncols nodata_val s).s.cell index).missing_aez_mask
      = (if aez_array index = nodata_val then 1 else (s.cell index).missing_aez_mask) ∧
    (∀ j, j ≠ index →
      (get_aez_val search aez_array index nrows ncols nodata_val s).s.cell j = s.cell j) ∧
    (get_aez_val search aez_array index nrows ncols nodata_val s).s.cell index =
      { s.cell index with
        missing_aez_mask :=
          if aez_array index = nodata_val then 1 else (s.cell index).missing_aez_mask } ∧
    (get_aez_val search aez_array index nrows ncols nodata_val s).s.lists = s.lists ∧
    (get_aez_val search aez_array index nrows ncols nodata_val s).aez_array = aez_array := by
  rw [get_aez_val_state]
  by_cases h : aez_array index = nodata_val
  · refine ⟨by simp [h], fun j hj => ?_, by simp [h], by simp [h], rfl⟩
    rw [if_pos h]
    exact upd_cell_other _ _ hj
  · exact ⟨by simp [h], fun j _ => by simp [h], by simp [h], by simp [h], rfl⟩

/-- C19 at the sample grid: cell 6 has no new zone and is flagged, and the entry of cell 7
is the one before the call. -/
theorem C19_missing_mask_frame_witness :
    ((get_aez_val demo_search demo_grid.aez_bounds_new 6 2 4 (-9999) zero_state).s.cell
      6).missing_aez_mask = 1 ∧
    (get_aez_val demo_search demo_grid.aez_bounds_new 6 2 4 (-9999) zero_state).s.cell 7 =
      zero_state.cell 7 :=
  have h := C19_missing_mask_frame demo_search demo_grid.aez_bounds_new 6 2 4 (-9999)
    zero_state
  ⟨h.1, h.2.1 7 (by decide)⟩

end Moirai

namespace Moirai

/-- A counted loop whose body appends to a list what depends on the loop variable alone
appends the pieces in the order of the loop variable. -/
theorem for_loop_append {σ α : Type} (recs : σ → List α) (body : Nat → σ → σ)
    (f : Nat → List α) (h : ∀ k w, recs (body k w) = recs w ++ f k) :
    ∀ n lo w, recs (for_loop body n lo w) = recs w ++ (List.range' lo n).flatMap f := by
  intro n
  induction n with
  | zero => intro lo w; simp [for_loop]
  | succ n ih =>
    intro lo w
    rw [for_loop, ih (lo + 1) (body lo w), h lo w, List.range'_succ, List.flatMap_cons,
      List.append_assoc]

theorem crop_body_records (t : CropTables) (ci ai k : Nat) (w : Writer) :
    (crop_body t ci ai k w).records = w.records ++ crop_records t ci ai k := by
  unfold crop_body crop_records
  by_cases h1 : 0 < round_half_up (t.harvestarea_crop_aez ci ai k)
  · by_cases h2 : 0 < round_half_up (t.production_crop_aez ci ai k)
    · simp [h1, h2, not_le.mpr h2]
    · simp [h1, h2, not_lt.mp h2]
  · simp [h1]

theorem ctry_body_records (c : Consts) (t : CropTables) (ci : Nat) (w : Writer) :
    (ctry_body c t ci w).records = w.records ++ ctry_records c t ci := by
  unfold ctry_body ctry_records
  by_cases h : t.ctry2ctry87codes_gtap ci = c.NOMATCH
  · simp [h]
  · simp only [h, if_false]
    exact for_loop_append Writer.records _ _
      (fun ai w1 => for_loop_append Writer.records _ _
        (fun k w2 => crop_body_records t ci ai k w2) t.NUM_SAGE_CROP 0 w1)
      (t.ctry_aez_num ci) 0 w

/-- The records written by a run that could open the output file: the records of the
countries, in the order of the country index. -/
theorem write_harvestarea_records (c : Consts) (t : CropTables) :
    (write_harvestarea_crop_aez c t true).2.records =
      (List.range' 0 c.NUM_FAO_CTRY).flatMap (ctry_records c t) := by
  unfold write_harvestarea_crop_aez
  simp only [Bool.true_eq_false, if_false]
  rw [for_loop_append Writer.records _ _ (fun ci w => ctry_body_records c t ci w)]
  rfl

/-- The record of a country, zone and crop is written exactly when the country is mapped
and both rounded values are positive. -/
theorem mem_written_iff (c : Consts) (t : CropTables) (r : Record) :
    r ∈ (write_harvestarea_crop_aez c t true).2.records ↔
      r.ctry_index < c.NUM_FAO_CTRY ∧
      t.ctry2ctry87codes_gtap r.ctry_index ≠ c.NOMATCH ∧
      r.aez_index < t.ctry_aez_num r.ctry_index ∧
      r.crop_index < t.NUM_SAGE_CROP ∧
      0 < round_half_up (t.harvestarea_crop_aez r.ctry_index r.aez_index r.crop_index) ∧
      0 < round_half_up (t.production_crop_aez r.ctry_index r.aez_index r.crop_index) ∧
      r.glu_code = t.ctry_aez_list r.ctry_index r.aez_index ∧
      r.value = round_half_up (t.harvestarea_crop_aez r.ctry_index r.aez_index r.crop_index) := by
  rw [write_harvestarea_records]
  simp only [List.mem_flatMap, List.mem_range', Nat.zero_add, Nat.one_mul]
  constructor
  · rintro ⟨ci, ⟨_, hci, rfl⟩, hr⟩
    unfold ctry_records at hr
    split_ifs at hr with hm
    · exact absurd hr (List.not_mem_nil _)
    · simp only [List.mem_flatMap, List.mem_range', Nat.zero_add, Nat.one_mul] at hr
      obtain ⟨ai, ⟨_, hai, rfl⟩, k, ⟨_, hk, rfl⟩, hr⟩ := hr
      unfold crop_records at hr
      split_ifs at hr with hp
      · rw [List.mem_singleton] at hr
        subst hr
        exact ⟨hci, hm, hai, hk, hp.1, hp.2, rfl, rfl⟩
      · exact absurd hr (List.not_mem_nil _)
  · rintro ⟨hci, hm, hai, hk, hh, hp, hg, hv⟩
    refine ⟨r.ctry_index, ⟨r.ctry_index, hci, rfl⟩, ?_⟩
    unfold ctry_records
    rw [if_neg hm]
    simp only [List.mem_flatMap, List.mem_range', Nat.zero_add, Nat.one_mul]
    refine ⟨r.aez_index, ⟨r.aez_index, hai, rfl⟩, r.crop_index, ⟨r.crop_index, hk, rfl⟩, ?_⟩
    unfold crop_records
    rw [if_pos ⟨hh, hp⟩, List.mem_singleton]
    cases r
    simp only at hg hv
    simp only [hg, hv]

theorem round_half_up_pos (x : ℚ) (h : 0 < round_half_up x) : 0 < x := by
  unfold round_half_up at h
  have h1 : (1 : ℚ) ≤ 1 / 2 + x := Int.floor_pos.mp h
  linarith

/-- C20. In a run of `write_harvestarea_crop_aez` that could open the output file, a
record is written for a country, zone and crop only if the country is mapped to a ctry87
code other than `NOMATCH` and both the harvested area and the production of the triple are
above 0; and the record of a country, zone and crop in the range of the loops is written
whenever the country is mapped and both values rounded with `floor(0.5 + x)` are
positive. -/
theorem C20_records_written (c : Consts) (t : CropTables) :
    (∀ r, r ∈ (write_harvestarea_crop_aez c t true).2.records →
      r.ctry_index < c.NUM_FAO_CTRY ∧ r.aez_index < t.ctry_aez_num r.ctry_index ∧
      r.crop_index < t.NUM_SAGE_CROP ∧
      t.ctry2ctry87codes_gtap r.ctry_index ≠ c.NOMATCH ∧
      0 < t.harvestarea_crop_aez r.ctry_index r.aez_index r.crop_index ∧
      0 < t.production_crop_aez r.ctry_index r.aez_index r.crop_index) ∧
    (∀ ci ai k, ci < c.NUM_FAO_CTRY → ai < t.ctry_aez_num ci → k < t.NUM_SAGE_CROP →
      t.ctry2ctry87codes_gtap ci ≠ c.NOMATCH →
      0 < round_half_up (t.harvestarea_crop_aez ci ai k) →
      0 < round_half_up (t.production_crop_aez ci ai k) →
      ∃ r, r ∈ (write_harvestarea_crop_aez c t true).2.records ∧
        r.ctry_index = ci ∧ r.aez_index = ai ∧ r.crop_index = k ∧
        r.glu_code = t.ctry_aez_list ci ai ∧
        r.value = round_half_up (t.harvestarea_crop_aez ci ai k)) := by
  constructor
  · intro r hr
    obtain ⟨h1, h2, h3, h4, h5, h6, _, _⟩ := (mem_written_iff c t r).mp hr
    exact ⟨h1, h3, h4, h2, round_half_up_pos _ h5, round_half_up_pos _ h6⟩
  · intro ci ai k hci hai hk hm hh hp
    exact ⟨{ ctry_index := ci, aez_index := ai, glu_code := t.ctry_aez_list ci ai
             crop_index := k, value := round_half_up (t.harvestarea_crop_aez ci ai k) },
      (mem_written_iff c t _).mpr ⟨hci, hm, hai, hk, hh, hp, rfl, rfl⟩, rfl, rfl, rfl, rfl, rfl⟩

theorem demo_round_harvest : round_half_up (demo_crops.harvestarea_crop_aez 0 1 0) = 4 := by
  unfold round_half_up demo_crops
  norm_num [Int.floor_eq_iff]

theorem demo_round_production : round_half_up (demo_crops.production_crop_aez 0 1 0) = 12 := by
  unfold round_half_up demo_crops
  norm_num [Int.floor_eq_iff]

/-- C20 at the sample tables: the record of country 0, zone 1 and crop 0, with harvested
area `7/2` and production 12, is written with the value 4. -/
theorem C20_records_written_witness :
    ∃ r, r ∈ (write_harvestarea_crop_aez demo_consts demo_crops true).2.records ∧
      r.ctry_index = 0 ∧ r.aez_index = 1 ∧ r.crop_index = 0 ∧
      r.glu_code = demo_crops.ctry_aez_list 0 1 ∧
      r.value = round_half_up (demo_crops.harvestarea_crop_aez 0 1 0) :=
  (C20_records_written demo_consts demo_crops).2 0 1 0 (by decide) (by decide) (by decide)
    (by decide) (by rw [demo_round_harvest]; decide) (by rw [demo_round_production]; decide)

end Moirai

namespace Moirai

theorem mem_crop_records (t : CropTables) (ci ai k : Nat) (r : Record)
    (h : r ∈ crop_records t ci ai k) :
    r.ctry_index = ci ∧ r.aez_index = ai ∧ r.crop_index = k := by
  unfold crop_records at h
  split_ifs at h
  · rw [List.mem_singleton] at h
    subst h
    exact ⟨rfl, rfl, rfl⟩
  · exact absurd h (List.not_mem_nil _)

theorem mem_zone_records (t : CropTables) (ci ai : Nat) (r : Record)
    (h : r ∈ (List.range' 0 t.NUM_SAGE_CROP).flatMap fun k => crop_records t ci ai k) :
    r.ctry_index = ci ∧ r.aez_index = ai := by
  obtain ⟨k, _, hk⟩ := List.mem_flatMap.mp h
  obtain ⟨h1, h2, _⟩ := mem_crop_records t ci ai k r hk
  exact ⟨h1, h2⟩

theorem mem_ctry_records (c : Consts) (t : CropTables) (ci : Nat) (r : Record)
    (h : r ∈ ctry_records c t ci) : r.ctry_index = ci := by
  unfold ctry_records at h
  split_ifs at h
  · exact absurd h (List.not_mem_nil _)
  · obtain ⟨ai, _, hai⟩ := List.mem_flatMap.mp h
    exact (mem_zone_records t ci ai r hai).1

theorem crop_records_pairwise (t : CropTables) (ci ai k : Nat) :
    (crop_records t ci ai k).Pairwise record_lt := by
  unfold crop_records
  split_ifs
  · exact List.pairwise_singleton _ _
  · exact List.Pairwise.nil

/-- The records of one country are in strictly increasing order of zone and crop. -/
theorem ctry_records_pairwise (c : Consts) (t : CropTables) (ci : Nat) :
    (ctry_records c t ci).Pairwise record_lt := by
  unfold ctry_records
  split_ifs
  · exact List.Pairwise.nil
  · rw [List.pairwise_flatMap]
    constructor
    · intro ai _
      rw [List.pairwise_flatMap]
      refine ⟨fun k _ => crop_records_pairwise t ci ai k, ?_⟩
      refine (List.pairwise_lt_range' 0 t.NUM_SAGE_CROP).imp ?_
      intro k1 k2 hk x hx y hy
      obtain ⟨x1, x2, x3⟩ := mem_crop_records t ci ai k1 x hx
      obtain ⟨y1, y2, y3⟩ := mem_crop_records t ci ai k2 y hy
      exact Or.inr ⟨by rw [x1, y1], Or.inr ⟨by rw [x2, y2], by rw [x3, y3]; exact hk⟩⟩
    · refine (List.pairwise_lt_range' 0 (t.ctry_aez_num ci)).imp ?_
      intro a1 a2 ha x hx y hy
      obtain ⟨x1, x2⟩ := mem_zone_records t ci a1 x hx
      obtain ⟨y1, y2⟩ := mem_zone_records t ci a2 y hy
      exact Or.inr ⟨by rw [x1, y1], Or.inl (by rw [x2, y2]; exact ha)⟩

/-- The records written are in strictly increasing lexicographic order. -/
theorem records_pairwise (c : Consts) (t : CropTables) :
    (write_harvestarea_crop_aez c t true).2.records.Pairwise record_lt := by
  rw [write_harvestarea_records, List.pairwise_flatMap]
  refine ⟨fun ci _ => ctry_records_pairwise c t ci, ?_⟩
  refine (List.pairwise_lt_range' 0 c.NUM_FAO_CTRY).imp ?_
  intro c1 c2 hc x hx y hy
  rw [← mem_ctry_records c t c1 x hx, ← mem_ctry_records c t c2 y hy] at hc
  exact Or.inl hc

theorem crop_body_count (t : CropTables) (ci ai k : Nat) (w : Writer)
    (h : w.nrecords = w.records.length) :
    (crop_body t ci ai k w).nrecords = (crop_body t ci ai k w).records.length := by
  unfold crop_body
  simp only
  split_ifs
  · exact h
  · simp [h]
  · exact h

theorem ctry_body_count (c : Consts) (t : CropTables) (ci : Nat) (w : Writer)
    (h : w.nrecords = w.records.length) :
    (ctry_body c t ci w).nrecords = (ctry_body c t ci w).records.length := by
  unfold ctry_body
  split_ifs
  · exact h
  · exact for_loop_offset _ (fun _ (w : Writer) => w.nrecords = w.records.length)
      (t.ctry_aez_num ci) 0 w h
      (fun ai w1 _ h1 =>
        for_loop_offset _ (fun _ (w : Writer) => w.nrecords = w.records.length)
          t.NUM_SAGE_CROP 0 w1 h1 (fun k w2 _ h2 => crop_body_count t ci _ _ w2 h2))

/-- The counter `nrecords` is the number of records written. -/
theorem nrecords_eq_length (c : Consts) (t : CropTables) :
    (write_harvestarea_crop_aez c t true).2.nrecords =
      (write_harvestarea_crop_aez c t true).2.records.length := by
  unfold write_harvestarea_crop_aez
  simp only [Bool.true_eq_false, if_false]
  exact for_loop_offset _ (fun _ (w : Writer) => w.nrecords = w.records.length)
    c.NUM_FAO_CTRY 0 _ rfl (fun ci w _ h => ctry_body_count c t _ w h)

theorem record_lt_triple_ne (r r' : Record) (h : record_lt r r') :
    record_triple r ≠ record_triple r' := by
  unfold record_triple
  intro e
  simp only [Prod.mk.injEq] at e
  obtain ⟨e1, e2, e3⟩ := e
  unfold record_lt at h
  omega

/-- C21. In a run of `write_harvestarea_crop_aez` that could open the output file, the
function returns `OK`, the records written are in strictly increasing lexicographic order of
country index, zone index within the country and crop index (crop varies fastest, then
zone, then country), no country, zone and crop is written twice, and the counter `nrecords`
equals the number of records written. -/
theorem C21_records_in_order (c : Consts) (t : CropTables) :
    (write_harvestarea_crop_aez c t true).1 = OK ∧
    (write_harvestarea_crop_aez c t true).2.records.Pairwise record_lt ∧
    ((write_harvestarea_crop_aez c t true).2.records.map record_triple).Nodup ∧
    (write_harvestarea_crop_aez c t true).2.nrecords =
      (write_harvestarea_crop_aez c t true).2.records.length := by
  refine ⟨by simp [write_harvestarea_crop_aez], records_pairwise c t, ?_,
    nrecords_eq_length c t⟩
  unfold List.Nodup
  rw [List.pairwise_map]
  exact (records_pairwise c t).imp (fun h => record_lt_triple_ne _ _ h)

end Moirai

namespace Moirai

/-- The value `floor(0.5 + x)` is `floor(x + 0.5)`, lies within one half of `x`, and a tie
`n + 0.5` goes up to `n + 1`. -/
theorem round_half_up_spec (x : ℚ) :
    round_half_up x = ⌊x + 1 / 2⌋ ∧
    x - 1 / 2 < (round_half_up x : ℚ) ∧ (round_half_up x : ℚ) ≤ x + 1 / 2 ∧
    |(round_half_up x : ℚ) - x| ≤ 1 / 2 ∧
    (∀ n : Int, x = (n : ℚ) + 1 / 2 → round_half_up x = n + 1) := by
  have e : round_half_up x = ⌊x + 1 / 2⌋ := by
    unfold round_half_up
    rw [add_comm]
  have h1 : ((⌊x + 1 / 2⌋ : Int) : ℚ) ≤ x + 1 / 2 := Int.floor_le _
  have h2 : x + 1 / 2 < ((⌊x + 1 / 2⌋ : Int) : ℚ) + 1 := Int.lt_floor_add_one _
  rw [e]
  refine ⟨rfl, by linarith, h1, ?_, fun n hn => ?_⟩
  · rw [abs_le]
    constructor <;> linarith
  · rw [hn]
    have e2 : (n : ℚ) + 1 / 2 + 1 / 2 = ((n + 1 : Int) : ℚ) := by push_cast; ring
    rw [e2, Int.floor_intCast]

/-- C22. Every value written by `write_harvestarea_crop_aez` is, in exact arithmetic, the
integer `floor(h + 0.5)` of the harvested area `h` of its country, zone and crop; it differs
from `h` by at most one half, a tie `n + 0.5` being rounded up to `n + 1`; and the production
test uses the same rounding: the record is written only when `floor(p + 0.5)` of the
production `p` is positive, and no record is written for a triple whose `floor(p + 0.5)` is
not positive. -/
theorem C22_values_are_rounded (c : Consts) (t : CropTables) (r : Record)
    (hr : r ∈ (write_harvestarea_crop_aez c t true).2.records) :
    r.value = ⌊t.harvestarea_crop_aez r.ctry_index r.aez_index r.crop_index + 1 / 2⌋ ∧
    |(r.value : ℚ) - t.harvestarea_crop_aez r.ctry_index r.aez_index r.crop_index| ≤ 1 / 2 ∧
    t.harvestarea_crop_aez r.ctry_index r.aez_index r.crop_index - 1 / 2 < (r.value : ℚ) ∧
    (r.value : ℚ) ≤ t.harvestarea_crop_aez r.ctry_index r.aez_index r.crop_index + 1 / 2 ∧
    (∀ n : Int, t.harvestarea_crop_aez r.ctry_index r.aez_index r.crop_index = (n : ℚ) + 1 / 2 →
      r.value = n + 1) ∧
    0 < ⌊t.production_crop_aez r.ctry_index r.aez_index r.crop_index + 1 / 2⌋ ∧
    (∀ r', ⌊t.production_crop_aez r'.ctry_index r'.aez_index r'.crop_index + 1 / 2⌋ ≤ 0 →
      r' ∉ (write_harvestarea_crop_aez c t true).2.records) := by
  obtain ⟨_, _, _, _, _, hp, _, hv⟩ := (mem_written_iff c t r).mp hr
  obtain ⟨e, h1, h2, h3, h4⟩ :=
    round_half_up_spec (t.harvestarea_crop_aez r.ctry_index r.aez_index r.crop_index)
  rw [hv]
  refine ⟨e, h3, h1, h2, h4, ?_, fun r' hle hmem => ?_⟩
  · rw [← (round_half_up_spec _).1]
    exact hp
  · obtain ⟨_, _, _, _, _, hp', _, _⟩ := (mem_written_iff c t r').mp hmem
    rw [(round_half_up_spec _).1] at hp'
    omega

/-- C22 at the sample tables: the record of country 0, zone 1 and crop 0, with harvested
area `7/2`, is written with the value `floor(7/2 + 1/2)`, the tie going up to 4. -/
theorem C22_values_are_rounded_witness :
    (4 : Int) = ⌊demo_crops.harvestarea_crop_aez 0 1 0 + 1 / 2⌋ ∧
    |((4 : Int) : ℚ) - demo_crops.harvestarea_crop_aez 0 1 0| ≤ 1 / 2 :=
  have h := C22_values_are_rounded demo_consts demo_crops
    { ctry_index := 0, aez_index := 1, glu_code := demo_crops.ctry_aez_list 0 1
      crop_index := 0, value := 4 }
    ((mem_written_iff demo_consts demo_crops _).mpr
      ⟨by decide, by decide, by decide, by decide, by rw [demo_round_harvest]; decide,
        by rw [demo_round_production]; decide, rfl, demo_round_harvest.symm⟩)
  ⟨h.1, h.2.1⟩

end Moirai

namespace Moirai
section
variable {c : Consts} {ri : rinfo_struct} {g : Grids}

/-- The cell loop at a cell without index error goes on with the state that the pass leaves. -/
theorem cell_loop_succ (n i : Nat) (s : State) (he : ¬ index_error c ri g i) :
    cell_loop c ri g (n + 1) i s = cell_loop c ri g n (i + 1) (cell_body c ri g i s).state := by
  have hnr : ∀ e s1, cell_body c ri g i s ≠ .ret e s1 := fun e s1 hc =>
    he (cell_body_is_ret_iff.mp ⟨e, s1, hc⟩)
  rw [cell_loop]
  cases hb : cell_body c ri g i s with
  | next s1 => rfl
  | cont s1 => rfl
  | ret e s1 => exact absurd hb (hnr e s1)

/-- The cell loop at a cell with an index error returns with the state that the pass leaves. -/
theorem cell_loop_stop (n i : Nat) (s : State) (he : index_error c ri g i) :
    cell_loop c ri g (n + 1) i s = (c.ERROR_IND, (cell_body c ri g i s).state) := by
  rw [cell_loop, cell_body_error he]
  rfl

/-- Invariant rule for a cell loop that meets no index error: a property that holds at loop
entry and is kept by every pass holds after the loop. -/
theorem cell_loop_inv_ok (P : Nat → State → Prop) : ∀ n i s,
    (∀ k, i ≤ k → k < i + n → ¬ index_error c ri g k) → P i s →
    (∀ k t, i ≤ k → k < i + n → P k t → P (k + 1) (cell_body c ri g k t).state) →
    P (i + n) (cell_loop c ri g n i s).2 := by
  intro n
  induction n with
  | zero =>
    intro i s _ h _
    exact h
  | succ n ih =>
    intro i s hno h hstep
    rw [cell_loop_succ n i s (hno i (le_refl _) (by omega))]
    have e : i + (n + 1) = i + 1 + n := by omega
    rw [e]
    exact ih (i + 1) _ (fun k h1 h2 => hno k (by omega) (by omega))
      (hstep i s (le_refl _) (by omega) h)
      (fun k t h1 h2 hP => hstep k t (by omega) (by omega) hP)

/-- Invariant rule for a cell loop whose first index error is at cell `k`: a property that
holds at loop entry and is kept by every pass holds for `k + 1` after the loop, which has
made the passes up to cell `k`. -/
theorem cell_loop_inv_err (P : Nat → State → Prop) (k : Nat) (hk : index_error c ri g k) :
    ∀ n i s, i ≤ k → k < i + n →
    (∀ j, i ≤ j → j < k → ¬ index_error c ri g j) → P i s →
    (∀ j t, i ≤ j → j ≤ k → P j t → P (j + 1) (cell_body c ri g j t).state) →
    P (k + 1) (cell_loop c ri g n i s).2 := by
  intro n
  induction n with
  | zero =>
    intro i s h1 h2
    omega
  | succ n ih =>
    intro i s h1 h2 hno h hstep
    by_cases hik : i = k
    · subst hik
      rw [cell_loop_stop n i s hk]
      exact hstep i s (le_refl _) (le_refl _) h
    · rw [cell_loop_succ n i s (hno i (le_refl _) (by omega))]
      exact ih (i + 1) _ (by omega) (by omega) (fun j h3 h4 => hno j (by omega) h4)
        (hstep i s (le_refl _) (by omega) h)
        (fun j t h3 h4 hP => hstep j t (by omega) h4 hP)

theorem canonical_store_lists (i : Nat) (k : Int) (s : State) :
    (canonical_store c g i k s).lists = s.lists := by
  unfold canonical_store
  dsimp only
  split_ifs <;> rfl

theorem noland_store_lists (i : Nat) (k : Int) (s : State) :
    (noland_store c g i k s).lists = s.lists := by
  unfold noland_store
  dsimp only
  split_ifs <;> rfl

theorem pre_blocks_lists (c : Consts) (ri : rinfo_struct) (g : Grids) (i : Nat) (s : State) :
    (pre_blocks c ri g i s).lists = (mask_hyde ri g i (mask_sage ri g i (mask_aez_new ri g i
      s))).lists := by
  have h1 : ∀ t : State, (mask_potveg ri g i t).lists = t.lists := fun t => by
    unfold mask_potveg; split_ifs <;> rfl
  have h2 : ∀ t : State, (mask_fao ri g i t).lists = t.lists := fun t => by
    unfold mask_fao; split_ifs <;> rfl
  have h3 : ∀ t : State, (mask_aez_orig ri g i t).lists = t.lists := fun t => by
    unfold mask_aez_orig; split_ifs <;> rfl
  have h4 : ∀ t u : State, t.lists = u.lists →
      (mask_aez_new ri g i t).lists = (mask_aez_new ri g i u).lists := fun t u h => by
    unfold mask_aez_new; split_ifs <;> simp [h]
  have h5 : ∀ t u : State, t.lists = u.lists →
      (mask_sage ri g i t).lists = (mask_sage ri g i u).lists := fun t u h => by
    unfold mask_sage; split_ifs <;> simp [h]
  have h6 : ∀ t u : State, t.lists = u.lists →
      (mask_hyde ri g i t).lists = (mask_hyde ri g i u).lists := fun t u h => by
    unfold mask_hyde; dsimp only; split_ifs <;> simp [h]
  have h0 : (pre_blocks c ri g i s).lists = (set_masks ri g i (init_cell c i s)).lists := by
    unfold pre_blocks init_working overlap_diff track_area
    split_ifs <;> rfl
  rw [h0]
  unfold set_masks
  rw [h1, h2]
  exact h6 _ _ (h5 _ _ (h4 _ _ (by rw [h3]; rfl)))

/-- The cell lists after one pass of the loop body: the cell is appended to the list of each
dataset in which it is valid. -/
theorem cell_body_lists (c : Consts) (ri : rinfo_struct) (g : Grids) (i : Nat) (s : State) :
    (cell_body c ri g i s).state.lists =
      { land_cells_aez_new :=
          if g.aez_bounds_new i ≠ ri.aez_new_nodata then
            store s.lists.land_cells_aez_new s.lists.num_land_cells_aez_new i
          else s.lists.land_cells_aez_new
        num_land_cells_aez_new :=
          if g.aez_bounds_new i ≠ ri.aez_new_nodata then s.lists.num_land_cells_aez_new + 1
          else s.lists.num_land_cells_aez_new
        land_cells_sage :=
          if g.land_area_sage i ≠ ri.land_area_sage_nodata then
            store s.lists.land_cells_sage s.lists.num_land_cells_sage i
          else s.lists.land_cells_sage
        num_land_cells_sage :=
          if g.land_area_sage i ≠ ri.land_area_sage_nodata then s.lists.num_land_cells_sage + 1
          else s.lists.num_land_cells_sage
        land_cells_hyde :=
          if g.land_area_hyde i ≠ ri.land_area_hyde_nodata then
            store s.lists.land_cells_hyde s.lists.num_land_cells_hyde i
          else s.lists.land_cells_hyde
        num_land_cells_hyde :=
          if g.land_area_hyde i ≠ ri.land_area_hyde_nodata then s.lists.num_land_cells_hyde + 1
          else s.lists.num_land_cells_hyde
        forest_cells := s.lists.forest_cells
        num_forest_cells := s.lists.num_forest_cells } := by
  have hpre : (pre_blocks c ri g i s).lists = _ := pre_blocks_lists c ri g i s
  have hl : (cell_body c ri g i s).state.lists = (pre_blocks c ri g i s).lists := by
    rw [cell_body_eq]
    split_ifs
    · rfl
    · rfl
    · rfl
    · exact canonical_store_lists i _ _
    · exact noland_store_lists i _ _
  rw [hl, hpre]
  unfold mask_hyde mask_sage mask_aez_new
  by_cases h1 : g.aez_bounds_new i = ri.aez_new_nodata <;>
  by_cases h2 : g.land_area_sage i = ri.land_area_sage_nodata <;>
  by_cases h3 : g.land_area_hyde i = ri.land_area_hyde_nodata <;>
  by_cases h7 : g.cell_area_hyde i = ri.cell_area_hyde_nodata <;>
  simp [h1, h2, h3, h7]

end
end Moirai

namespace Moirai

theorem cell_list_of_start (valid : Nat → Prop) [DecidablePred valid] (L : Nat → Nat) :
    cell_list_of valid L 0 0 := by
  refine ⟨fun a b _ hb => by omega, fun p hp => by omega, fun f hf => by omega, ?_⟩
  simp

/-- A cell that is not valid leaves the list as it is. -/
theorem cell_list_of_skip (valid : Nat → Prop) [DecidablePred valid] (L : Nat → Nat)
    (num m : Nat) (h : cell_list_of valid L num m) (hv : ¬ valid m) :
    cell_list_of valid L num (m + 1) := by
  obtain ⟨h1, h2, h3, h4⟩ := h
  refine ⟨h1, fun p hp => ⟨by have := (h2 p hp).1; omega, (h2 p hp).2⟩, fun f hf hvf => ?_, ?_⟩
  · by_cases hfm : f = m
    · subst hfm; exact absurd hvf hv
    · exact h3 f (by omega) hvf
  · rw [Finset.range_succ, Finset.filter_insert, if_neg hv]
    exact h4

/-- A valid cell is appended to the list. -/
theorem cell_list_of_push (valid : Nat → Prop) [DecidablePred valid] (L : Nat → Nat)
    (num m : Nat) (h : cell_list_of valid L num m) (hv : valid m) :
    cell_list_of valid (store L num m) (num + 1) (m + 1) := by
  obtain ⟨h1, h2, h3, h4⟩ := h
  refine ⟨fun a b hab hb => ?_, fun p hp => ?_, fun f hf hvf => ?_, ?_⟩
  · have ha : a ≠ num := by omega
    by_cases hbn : b = num
    · subst hbn
      simp only [store, ha, if_false, if_true]
      exact (h2 a (by omega)).1
    · simp only [store, ha, hbn, if_false]
      exact h1 a b hab (by omega)
  · by_cases hpn : p = num
    · subst hpn
      simp only [store, if_true]
      exact ⟨by omega, hv⟩
    · simp only [store, hpn, if_false]
      exact ⟨by have := (h2 p (by omega)).1; omega, (h2 p (by omega)).2⟩
  · by_cases hfm : f = m
    · subst hfm
      exact ⟨num, by omega, by simp [store]⟩
    · obtain ⟨p, hp, e⟩ := h3 f (by omega) hvf
      have hpn : p ≠ num := by omega
      exact ⟨p, by omega, by simp only [store, hpn, if_false]; exact e⟩
  · rw [Finset.range_succ, Finset.filter_insert, if_pos hv, Finset.card_insert_of_not_mem, h4]
    simp

/-- The list of the cells below `N` that satisfy `valid` matches a mask that is 1 exactly at
these cells. -/
theorem cell_list_of_mask (valid : Nat → Prop) [DecidablePred valid] (mask : Nat → Int)
    (L : Nat → Nat) (num N : Nat) (h : cell_list_of valid L num N)
    (hm : ∀ f, f < N → (mask f = 1 ↔ valid f)) : list_matches_mask mask L num N := by
  obtain ⟨h1, h2, h3, h4⟩ := h
  have hc : ((Finset.range N).filter fun f => mask f = 1) = (Finset.range N).filter valid :=
    Finset.filter_congr (fun f hf => hm f (Finset.mem_range.mp hf))
  refine ⟨h1, fun p hp => (h2 p hp).1, fun f hf => ?_, by rw [hc]; exact h4, ?_⟩
  · rw [hm f hf]
    constructor
    · rintro ⟨p, hp, e⟩
      rw [← e]
      exact (h2 p hp).2
    · exact h3 f hf
  · rw [h4]
    calc ((Finset.range N).filter valid).card ≤ (Finset.range N).card := Finset.card_filter_le _ _
      _ = N := Finset.card_range N

section
variable {c : Consts} {ri : rinfo_struct} {g : Grids}

/-- The three cell lists after a cell loop that started at cell 0 with empty lists and met
no index error. -/
theorem cell_loop_lists (c : Consts) (ri : rinfo_struct) (g : Grids) (n : Nat) (s : State)
    (hno : ∀ k, k < n → ¬ index_error c ri g k)
    (h1 : s.lists.num_land_cells_aez_new = 0) (h2 : s.lists.num_land_cells_sage = 0)
    (h3 : s.lists.num_land_cells_hyde = 0) :
    cell_list_of (fun f => g.aez_bounds_new f ≠ ri.aez_new_nodata)
      (cell_loop c ri g n 0 s).2.lists.land_cells_aez_new
      (cell_loop c ri g n 0 s).2.lists.num_land_cells_aez_new n ∧
    cell_list_of (fun f => g.land_area_sage f ≠ ri.land_area_sage_nodata)
      (cell_loop c ri g n 0 s).2.lists.land_cells_sage
      (cell_loop c ri g n 0 s).2.lists.num_land_cells_sage n ∧
    cell_list_of (fun f => g.land_area_hyde f ≠ ri.land_area_hyde_nodata)
      (cell_loop c ri g n 0 s).2.lists.land_cells_hyde
      (cell_loop c ri g n 0 s).2.lists.num_land_cells_hyde n := by
  have h := cell_loop_inv_ok (c := c) (g := g)
    (fun k t =>
      cell_list_of (fun f => g.aez_bounds_new f ≠ ri.aez_new_nodata)
        t.lists.land_cells_aez_new t.lists.num_land_cells_aez_new k ∧
      cell_list_of (fun f => g.land_area_sage f ≠ ri.land_area_sage_nodata)
        t.lists.land_cells_sage t.lists.num_land_cells_sage k ∧
      cell_list_of (fun f => g.land_area_hyde f ≠ ri.land_area_hyde_nodata)
        t.lists.land_cells_hyde t.lists.num_land_cells_hyde k)
    n 0 s (fun k _ hk => hno k (by omega))
    (by
      beta_reduce
      rw [h1, h2, h3]
      exact ⟨cell_list_of_start _ _, cell_list_of_start _ _, cell_list_of_start _ _⟩)
    (fun k t _ _ ⟨a1, a2, a3⟩ => by
      beta_reduce
      rw [cell_body_lists]
      refine ⟨?_, ?_, ?_⟩
      · by_cases hv : g.aez_bounds_new k = ri.aez_new_nodata
        · simp only [hv, ne_eq, not_true_eq_false, if_false]
          exact cell_list_of_skip _ _ _ _ a1 (by simp [hv])
        · simp only [hv, ne_eq, not_false_eq_true, if_true]
          exact cell_list_of_push _ _ _ _ a1 hv
      · by_cases hv : g.land_area_sage k = ri.land_area_sage_nodata
        · simp only [hv, ne_eq, not_true_eq_false, if_false]
          exact cell_list_of_skip _ _ _ _ a2 (by simp [hv])
        · simp only [hv, ne_eq, not_false_eq_true, if_true]
          exact cell_list_of_push _ _ _ _ a2 hv
      · by_cases hv : g.land_area_hyde k = ri.land_area_hyde_nodata
        · simp only [hv, ne_eq, not_true_eq_false, if_false]
          exact cell_list_of_skip _ _ _ _ a3 (by simp [hv])
        · simp only [hv, ne_eq, not_false_eq_true, if_true]
          exact cell_list_of_push _ _ _ _ a3 hv)
  rw [Nat.zero_add] at h
  exact h

/-- C27. When `get_land_cells` starts with `num_land_cells_hyde`, `num_land_cells_sage` and
`num_land_cells_aez_new` at 0 and returns `OK`, each of the lists `land_cells_hyde`,
`land_cells_sage` and `land_cells_aez_new` is strictly increasing, holds exactly the cell
ids of the grid whose mask `land_mask_hyde`, `land_mask_sage` or `land_mask_aez_new` is 1,
and its counter is the number of these cells, hence at most `NUM_CELLS`. -/
theorem C27_cell_lists (c : Consts) (ri : rinfo_struct) (g : Grids) (s : State)
    (hE : c.ERROR_IND ≠ OK)
    (h1 : s.lists.num_land_cells_hyde = 0) (h2 : s.lists.num_land_cells_sage = 0)
    (h3 : s.lists.num_land_cells_aez_new = 0)
    (hok : (get_land_cells c ri g s).1 = OK) :
    list_matches_mask (fun f => ((get_land_cells c ri g s).2.cell f).land_mask_hyde)
      (get_land_cells c ri g s).2.lists.land_cells_hyde
      (get_land_cells c ri g s).2.lists.num_land_cells_hyde c.NUM_CELLS ∧
    list_matches_mask (fun f => ((get_land_cells c ri g s).2.cell f).land_mask_sage)
      (get_land_cells c ri g s).2.lists.land_cells_sage
      (get_land_cells c ri g s).2.lists.num_land_cells_sage c.NUM_CELLS ∧
    list_matches_mask (fun f => ((get_land_cells c ri g s).2.cell f).land_mask_aez_new)
      (get_land_cells c ri g s).2.lists.land_cells_aez_new
      (get_land_cells c ri g s).2.lists.num_land_cells_aez_new c.NUM_CELLS := by
  have hno := (get_land_cells_ok hE s hok).1
  obtain ⟨l1, l2, l3⟩ := cell_loop_lists c ri g c.NUM_CELLS (enter_get_land_cells s) hno h3 h2 h1
  have hm := fun f (hf : f < c.NUM_CELLS) => ok_masks (i := f) hE s hok hf
  refine ⟨cell_list_of_mask _ _ _ _ _ l3 (fun f hf => ?_),
    cell_list_of_mask _ _ _ _ _ l2 (fun f hf => ?_),
    cell_list_of_mask _ _ _ _ _ l1 (fun f hf => ?_)⟩
  · rw [(hm f hf).1]
    by_cases hv : g.land_area_hyde f = ri.land_area_hyde_nodata <;> simp [hv]
  · rw [(hm f hf).2.1]
    by_cases hv : g.land_area_sage f = ri.land_area_sage_nodata <;> simp [hv]
  · rw [(hm f hf).2.2.2.2.1]
    by_cases hv : g.aez_bounds_new f = ri.aez_new_nodata <;> simp [hv]

end

/-- C27 at the sample grid, started from the zeroed state: the hyde list holds the 5 cells
0, 2, 3, 4 and 5. -/
theorem C27_cell_lists_witness :
    (get_land_cells demo_consts demo_rinfo demo_grid zero_state).2.lists.num_land_cells_hyde
      = 5 ∧
    list_matches_mask
      (fun f => ((get_land_cells demo_consts demo_rinfo demo_grid zero_state).2.cell
        f).land_mask_hyde)
      (get_land_cells demo_consts demo_rinfo demo_grid zero_state).2.lists.land_cells_hyde
      (get_land_cells demo_consts demo_rinfo demo_grid zero_state).2.lists.num_land_cells_hyde
      demo_consts.NUM_CELLS :=
  ⟨by decide,
    (C27_cell_lists demo_consts demo_rinfo demo_grid zero_state (by decide) rfl rfl rfl
      (by decide)).1⟩

end Moirai

namespace Moirai
section
variable {c : Consts} {ri : rinfo_struct} {g : Grids} {i : Nat}

/-- After a run that returned `OK`, the raster `sage_minus_hyde_land_area` holds `NODATA` at
every cell of the grid: line 348 overwrites what line 340 has stored. -/
theorem ok_sage_minus_hyde (hE : c.ERROR_IND ≠ OK) (s : State)
    (hok : (get_land_cells c ri g s).1 = OK) (hi : i < c.NUM_CELLS) :
    ((get_land_cells c ri g s).2.cell i).sage_minus_hyde_land_area = (c.NODATA : ℚ) := by
  have hpre : ((pre_blocks c ri g i (enter_get_land_cells s)).cell i).sage_minus_hyde_land_area
      = (c.NODATA : ℚ) := by
    rw [pre_blocks_cell]
  rw [ok_cell hE s hok hi]
  split_ifs
  · exact hpre
  · rw [canonical_store_cell]
    split_ifs <;> exact hpre
  · rw [noland_store_cell]
    split_ifs <;> exact hpre

end

/-- C23. The overlap difference is not kept: at the sample grid the run returns `OK`, cell 0
has the sage land area 40 and the hyde land area 50, both valid, and after the run
`sage_minus_hyde_land_area` of cell 0 holds `NODATA`, not the difference -10. -/
theorem C23_overlap_difference_is_overwritten :
    (get_land_cells demo_consts demo_rinfo demo_grid zero_state).1 = OK ∧
    demo_grid.land_area_hyde 0 ≠ demo_rinfo.land_area_hyde_nodata ∧
    demo_grid.land_area_sage 0 ≠ demo_rinfo.land_area_sage_nodata ∧
    ((get_land_cells demo_consts demo_rinfo demo_grid zero_state).2.cell
      0).sage_minus_hyde_land_area = (demo_consts.NODATA : ℚ) ∧
    demo_grid.land_area_sage 0 - demo_grid.land_area_hyde 0 = -10 ∧
    (demo_consts.NODATA : ℚ) = -9999 := by
  refine ⟨by decide, by decide, by decide, ?_, ?_, ?_⟩
  · exact ok_sage_minus_hyde (by decide) zero_state (by decide) (by decide)
  · norm_num [demo_grid]
  · norm_num [demo_consts]

end Moirai

namespace Moirai
section
variable {c : Consts} {ri : rinfo_struct} {g : Grids}

/-- What one pass of the loop body adds to the seven sage accumulators. -/
theorem cell_body_ledger_sage (c : Consts) (ri : rinfo_struct) (g : Grids) (i : Nat)
    (s : State) :
    (cell_body c ri g i s).state.ledger.total_sage_land_area =
      s.ledger.total_sage_land_area +
        (if g.land_area_sage i ≠ ri.land_area_sage_nodata then g.land_area_sage i else 0) ∧
    (cell_body c ri g i s).state.ledger.extra_sage_area =
      s.ledger.extra_sage_area +
        (if g.land_area_sage i ≠ ri.land_area_sage_nodata ∧
            g.land_area_hyde i = ri.land_area_hyde_nodata then g.land_area_sage i else 0) ∧
    (cell_body c ri g i s).state.ledger.new_aez_sage_area_lost =
      s.ledger.new_aez_sage_area_lost +
        (if g.land_area_sage i ≠ ri.land_area_sage_nodata ∧
            g.aez_bounds_new i = ri.aez_new_nodata then g.land_area_sage i else 0) ∧
    (cell_body c ri g i s).state.ledger.orig_aez_sage_area_lost =
      s.ledger.orig_aez_sage_area_lost +
        (if g.land_area_sage i ≠ ri.land_area_sage_nodata ∧
            g.aez_bounds_orig i = ri.aez_orig_nodata then g.land_area_sage i else 0) ∧
    (cell_body c ri g i s).state.ledger.potveg_sage_area_lost =
      s.ledger.potveg_sage_area_lost +
        (if g.land_area_sage i ≠ ri.land_area_sage_nodata ∧
            g.potveg_thematic i = ri.potveg_nodata then g.land_area_sage i else 0) ∧
    (cell_body c ri g i s).state.ledger.fao_sage_area_lost =
      s.ledger.fao_sage_area_lost +
        (if g.land_area_sage i ≠ ri.land_area_sage_nodata ∧
            g.country_fao i = ri.country_fao_nodata then g.land_area_sage i else 0) ∧
    (cell_body c ri g i s).state.ledger.fao_new_aez_sage_area_lost =
      s.ledger.fao_new_aez_sage_area_lost +
        (if g.land_area_sage i ≠ ri.land_area_sage_nodata ∧
            (g.country_fao i = ri.country_fao_nodata ∨ g.aez_bounds_new i = ri.aez_new_nodata)
          then g.land_area_sage i else 0) := by
  rw [cell_body_ledger, pre_blocks_ledger]
  obtain ⟨m1, m2, m3, m4, m5, m6⟩ := set_masks_init_cell c ri g i s
  generalize (set_masks ri g i (init_cell c i s)).cell i = m at m1 m2 m3 m4 m5 m6
  unfold track_hyde track_sage add_if
  rw [m1, m2, m3, m4, m5, m6]
  by_cases h3 : g.land_area_sage i = ri.land_area_sage_nodata
  · by_cases h4 : g.land_area_hyde i = ri.land_area_hyde_nodata <;> simp [h3, h4]
  · by_cases h4 : g.land_area_hyde i = ri.land_area_hyde_nodata <;>
    by_cases h1 : g.aez_bounds_orig i = ri.aez_orig_nodata <;>
    by_cases h2 : g.aez_bounds_new i = ri.aez_new_nodata <;>
    by_cases h5 : g.country_fao i = ri.country_fao_nodata <;>
    by_cases h6 : g.potveg_thematic i = ri.potveg_nodata <;>
    simp [h1, h2, h3, h4, h5, h6]

/-- What one pass of the loop body adds to the seven hyde accumulators. -/
theorem cell_body_ledger_hyde (c : Consts) (ri : rinfo_struct) (g : Grids) (i : Nat)
    (s : State) :
    (cell_body c ri g i s).state.ledger.total_hyde_land_area =
      s.ledger.total_hyde_land_area +
        (if g.land_area_hyde i ≠ ri.land_area_hyde_nodata then g.land_area_hyde i else 0) ∧
    (cell_body c ri g i s).state.ledger.extra_hyde_area =
      s.ledger.extra_hyde_area +
        (if g.land_area_hyde i ≠ ri.land_area_hyde_nodata ∧
            g.land_area_sage i = ri.land_area_sage_nodata then g.land_area_hyde i else 0) ∧
    (cell_body c ri g i s).state.ledger.new_aez_hyde_area_lost =
      s.ledger.new_aez_hyde_area_lost +
        (if g.land_area_hyde i ≠ ri.land_area_hyde_nodata ∧
            g.aez_bounds_new i = ri.aez_new_nodata then g.land_area_hyde i else 0) ∧
    (cell_body c ri g i s).state.ledger.orig_aez_hyde_area_lost =
      s.ledger.orig_aez_hyde_area_lost +
        (if g.land_area_hyde i ≠ ri.land_area_hyde_nodata ∧
            g.aez_bounds_orig i = ri.aez_orig_nodata then g.land_area_hyde i else 0) ∧
    (cell_body c ri g i s).state.ledger.potveg_hyde_area_lost =
      s.ledger.potveg_hyde_area_lost +
        (if g.land_area_hyde i ≠ ri.land_area_hyde_nodata ∧
            g.potveg_thematic i = ri.potveg_nodata then g.land_area_hyde i else 0) ∧
    (cell_body c ri g i s).state.ledger.fao_hyde_area_lost =
      s.ledger.fao_hyde_area_lost +
        (if g.land_area_hyde i ≠ ri.land_area_hyde_nodata ∧
            g.country_fao i = ri.country_fao_nodata then g.land_area_hyde i else 0) ∧
    (cell_body c ri g i s).state.ledger.fao_new_aez_hyde_area_lost =
      s.ledger.fao_new_aez_hyde_area_lost +
        (if g.land_area_hyde i ≠ ri.land_area_hyde_nodata ∧
            (g.country_fao i = ri.country_fao_nodata ∨ g.aez_bounds_new i = ri.aez_new_nodata)
          then g.land_area_hyde i else 0) := by
  rw [cell_body_ledger, pre_blocks_ledger]
  obtain ⟨m1, m2, m3, m4, m5, m6⟩ := set_masks_init_cell c ri g i s
  generalize (set_masks ri g i (init_cell c i s)).cell i = m at m1 m2 m3 m4 m5 m6
  unfold track_hyde track_sage add_if
  rw [m1, m2, m3, m4, m5, m6]
  by_cases h4 : g.land_area_hyde i = ri.land_area_hyde_nodata
  · by_cases h3 : g.land_area_sage i = ri.land_area_sage_nodata <;> simp [h3, h4]
  · by_cases h3 : g.land_area_sage i = ri.land_area_sage_nodata <;>
    by_cases h1 : g.aez_bounds_orig i = ri.aez_orig_nodata <;>
    by_cases h2 : g.aez_bounds_new i = ri.aez_new_nodata <;>
    by_cases h5 : g.country_fao i = ri.country_fao_nodata <;>
    by_cases h6 : g.potveg_thematic i = ri.potveg_nodata <;>
    simp [h1, h2, h3, h4, h5, h6]

/-- An accumulator to which every pass adds a term of its cell holds, after a cell loop from
cell 0 that met no index error, its start value plus the sum of the terms. -/
theorem cell_loop_acc (c : Consts) (ri : rinfo_struct) (g : Grids) (acc : Ledger → ℚ)
    (term : Nat → ℚ)
    (hstep : ∀ k t, acc (cell_body c ri g k t).state.ledger = acc t.ledger + term k)
    (n : Nat) (s : State) (hno : ∀ k, k < n → ¬ index_error c ri g k) :
    acc (cell_loop c ri g n 0 s).2.ledger = acc s.ledger + Finset.sum (Finset.range n) term := by
  have h := cell_loop_inv_ok (c := c) (g := g)
    (fun k t => acc t.ledger = acc s.ledger + Finset.sum (Finset.range k) term)
    n 0 s (fun k _ hk => hno k (by omega)) (by simp)
    (fun k t _ _ hP => by
      beta_reduce at hP ⊢
      rw [hstep, hP, Finset.sum_range_succ]
      ring)
  rw [Nat.zero_add] at h
  exact h

/-- The cell lists after the cell loop depend on the start state through its lists alone. -/
theorem cell_loop_lists_congr (c : Consts) (ri : rinfo_struct) (g : Grids) : ∀ n i s s',
    s.lists = s'.lists →
    (cell_loop c ri g n i s).2.lists = (cell_loop c ri g n i s').2.lists := by
  intro n
  induction n with
  | zero => intro i s s' h; exact h
  | succ n ih =>
    intro i s s' h
    have hb : (cell_body c ri g i s).state.lists = (cell_body c ri g i s').state.lists := by
      rw [cell_body_lists, cell_body_lists, h]
    by_cases he : index_error c ri g i
    · rw [cell_loop_stop n i s he, cell_loop_stop n i s' he]
      exact hb
    · rw [cell_loop_succ n i s he, cell_loop_succ n i s' he]
      exact ih _ _ _ hb

/-- The return code, the cell records and the cell lists that a cell loop leaves do not
depend on the values of the accumulators at its entry. -/
theorem cell_loop_ledger_free (c : Consts) (ri : rinfo_struct) (g : Grids) (l : Ledger)
    (n i : Nat) (t : State) :
    (cell_loop c ri g n i { t with ledger := l }).1 = (cell_loop c ri g n i t).1 ∧
    (cell_loop c ri g n i { t with ledger := l }).2.cell = (cell_loop c ri g n i t).2.cell ∧
    (cell_loop c ri g n i { t with ledger := l }).2.lists = (cell_loop c ri g n i t).2.lists := by
  refine ⟨by rw [cell_loop_code, cell_loop_code], ?_, cell_loop_lists_congr c ri g n i _ _ rfl⟩
  funext j
  rw [cell_loop_cell, cell_loop_cell]
  have e : (cell_body c ri g j { t with ledger := l }).state.cell j =
      (cell_body c ri g j t).state.cell j := cell_body_congr (SameAt.rfl_at g j) rfl
  rw [e]

/-- C24. In exact arithmetic, when `get_land_cells` returns `OK`: `total_hyde_land_area` and
`total_sage_land_area` are the sums of the land area of their source over the cells of the
grid valid in the source; each of the accumulators `extra_*_area`, `new_aez_*_area_lost`,
`orig_aez_*_area_lost`, `potveg_*_area_lost` and `fao_*_area_lost` is the sum of the land
area of its source over the cells valid in the source and not valid in the other dataset,
and `fao_new_aez_*_area_lost` the sum over the cells valid in the source without country or
without new zone; no condition on the country lookup enters the sums, so the cells skipped
for lack of a country are counted; and the return code, the cell records and the cell lists
left by the cell loop do not depend on the values of the accumulators. -/
theorem C24_area_ledger (c : Consts) (ri : rinfo_struct) (g : Grids) (s : State)
    (hE : c.ERROR_IND ≠ OK) (hok : (get_land_cells c ri g s).1 = OK) :
    ((get_land_cells c ri g s).2.ledger.total_hyde_land_area =
        area_sum c.NUM_CELLS (fun i => g.land_area_hyde i ≠ ri.land_area_hyde_nodata)
          g.land_area_hyde ∧
      (get_land_cells c ri g s).2.ledger.extra_hyde_area =
        area_sum c.NUM_CELLS (fun i => g.land_area_hyde i ≠ ri.land_area_hyde_nodata ∧
          g.land_area_sage i = ri.land_area_sage_nodata) g.land_area_hyde ∧
      (get_land_cells c ri g s).2.ledger.new_aez_hyde_area_lost =
        area_sum c.NUM_CELLS (fun i => g.land_area_hyde i ≠ ri.land_area_hyde_nodata ∧
          g.aez_bounds_new i = ri.aez_new_nodata) g.land_area_hyde ∧
      (get_land_cells c ri g s).2.ledger.orig_aez_hyde_area_lost =
        area_sum c.NUM_CELLS (fun i => g.land_area_hyde i ≠ ri.land_area_hyde_nodata ∧
          g.aez_bounds_orig i = ri.aez_orig_nodata) g.land_area_hyde ∧
      (get_land_cells c ri g s).2.ledger.potveg_hyde_area_lost =
        area_sum c.NUM_CELLS (fun i => g.land_area_hyde i ≠ ri.land_area_hyde_nodata ∧
          g.potveg_thematic i = ri.potveg_nodata) g.land_area_hyde ∧
      (get_land_cells c ri g s).2.ledger.fao_hyde_area_lost =
        area_sum c.NUM_CELLS (fun i => g.land_area_hyde i ≠ ri.land_area_hyde_nodata ∧
          g.country_fao i = ri.country_fao_nodata) g.land_area_hyde ∧
      (get_land_cells c ri g s).2.ledger.fao_new_aez_hyde_area_lost =
        area_sum c.NUM_CELLS (fun i => g.land_area_hyde i ≠ ri.land_area_hyde_nodata ∧
          (g.country_fao i = ri.country_fao_nodata ∨ g.aez_bounds_new i = ri.aez_new_nodata))
          g.land_area_hyde) ∧
    ((get_land_cells c ri g s).2.ledger.total_sage_land_area =
        area_sum c.NUM_CELLS (fun i => g.land_area_sage i ≠ ri.land_area_sage_nodata)
          g.land_area_sage ∧
      (get_land_cells c ri g s).2.ledger.extra_sage_area =
        area_sum c.NUM_CELLS (fun i => g.land_area_sage i ≠ ri.land_area_sage_nodata ∧
          g.land_area_hyde i = ri.land_area_hyde_nodata) g.land_area_sage ∧
      (get_land_cells c ri g s).2.ledger.new_aez_sage_area_lost =
        area_sum c.NUM_CELLS (fun i => g.land_area_sage i ≠ ri.land_area_sage_nodata ∧
          g.aez_bounds_new i = ri.aez_new_nodata) g.land_area_sage ∧
      (get_land_cells c ri g s).2.ledger.orig_aez_sage_area_lost =
        area_sum c.NUM_CELLS (fun i => g.land_area_sage i ≠ ri.land_area_sage_nodata ∧
          g.aez_bounds_orig i = ri.aez_orig_nodata) g.land_area_sage ∧
      (get_land_cells c ri g s).2.ledger.potveg_sage_area_lost =
        area_sum c.NUM_CELLS (fun i => g.land_area_sage i ≠ ri.land_area_sage_nodata ∧
          g.potveg_thematic i = ri.potveg_nodata) g.land_area_sage ∧
      (get_land_cells c ri g s).2.ledger.fao_sage_area_lost =
        area_sum c.NUM_CELLS (fun i => g.land_area_sage i ≠ ri.land_area_sage_nodata ∧
          g.country_fao i = ri.country_fao_nodata) g.land_area_sage ∧
      (get_land_cells c ri g s).2.ledger.fao_new_aez_sage_area_lost =
        area_sum c.NUM_CELLS (fun i => g.land_area_sage i ≠ ri.land_area_sage_nodata ∧
          (g.country_fao i = ri.country_fao_nodata ∨ g.aez_bounds_new i = ri.aez_new_nodata))
          g.land_area_sage) ∧
    (∀ (l : Ledger) (n i : Nat) (t : State),
      (cell_loop c ri g n i { t with ledger := l }).1 = (cell_loop c ri g n i t).1 ∧
      (cell_loop c ri g n i { t with ledger := l }).2.cell = (cell_loop c ri g n i t).2.cell ∧
      (cell_loop c ri g n i { t with ledger := l }).2.lists =
        (cell_loop c ri g n i t).2.lists) := by
  have hno := (get_land_cells_ok hE s hok).1
  have key : ∀ (acc : Ledger → ℚ) (term : Nat → ℚ),
      (∀ k t, acc (cell_body c ri g k t).state.ledger = acc t.ledger + term k) →
      acc (enter_get_land_cells s).ledger = 0 →
      acc (get_land_cells c ri g s).2.ledger = Finset.sum (Finset.range c.NUM_CELLS) term := by
    intro acc term hstep h0
    unfold get_land_cells
    rw [cell_loop_acc c ri g acc term hstep c.NUM_CELLS _ hno, h0, zero_add]
  unfold area_sum
  refine ⟨⟨?_, ?_, ?_, ?_, ?_, ?_, ?_⟩, ⟨?_, ?_, ?_, ?_, ?_, ?_, ?_⟩,
    fun l n i t => cell_loop_ledger_free c ri g l n i t⟩
  · exact key (fun l => l.total_hyde_land_area) _
      (fun k t => (cell_body_ledger_hyde c ri g k t).1) rfl
  · exact key (fun l => l.extra_hyde_area) _
      (fun k t => (cell_body_ledger_hyde c ri g k t).2.1) rfl
  · exact key (fun l => l.new_aez_hyde_area_lost) _
      (fun k t => (cell_body_ledger_hyde c ri g k t).2.2.1) rfl
  · exact key (fun l => l.orig_aez_hyde_area_lost) _
      (fun k t => (cell_body_ledger_hyde c ri g k t).2.2.2.1) rfl
  · exact key (fun l => l.potveg_hyde_area_lost) _
      (fun k t => (cell_body_ledger_hyde c ri g k t).2.2.2.2.1) rfl
  · exact key (fun l => l.fao_hyde_area_lost) _
      (fun k t => (cell_body_ledger_hyde c ri g k t).2.2.2.2.2.1) rfl
  · exact key (fun l => l.fao_new_aez_hyde_area_lost) _
      (fun k t => (cell_body_ledger_hyde c ri g k t).2.2.2.2.2.2) rfl
  · exact key (fun l => l.total_sage_land_area) _
      (fun k t => (cell_body_ledger_sage c ri g k t).1) rfl
  · exact key (fun l => l.extra_sage_area) _
      (fun k t => (cell_body_ledger_sage c ri g k t).2.1) rfl
  · exact key (fun l => l.new_aez_sage_area_lost) _
      (fun k t => (cell_body_ledger_sage c ri g k t).2.2.1) rfl
  · exact key (fun l => l.orig_aez_sage_area_lost) _
      (fun k t => (cell_body_ledger_sage c ri g k t).2.2.2.1) rfl
  · exact key (fun l => l.potveg_sage_area_lost) _
      (fun k t => (cell_body_ledger_sage c ri g k t).2.2.2.2.1) rfl
  · exact key (fun l => l.fao_sage_area_lost) _
      (fun k t => (cell_body_ledger_sage c ri g k t).2.2.2.2.2.1) rfl
  · exact key (fun l => l.fao_new_aez_sage_area_lost) _
      (fun k t => (cell_body_ledger_sage c ri g k t).2.2.2.2.2.2) rfl

end

theorem demo_hyde_total :
    area_sum demo_consts.NUM_CELLS
      (fun i => demo_grid.land_area_hyde i ≠ demo_rinfo.land_area_hyde_nodata)
      demo_grid.land_area_hyde = 250 := by
  have e : demo_consts.NUM_CELLS = 8 := rfl
  unfold area_sum
  rw [e]
  simp only [Finset.sum_range_succ, Finset.sum_range_zero]
  norm_num [demo_grid, demo_rinfo]

/-- C24 at the sample grid: the five cells with hyde land area 50 give the total 250; cell
4, which is skipped for lack of a country, is among them. -/
theorem C24_area_ledger_witness :
    (get_land_cells demo_consts demo_rinfo demo_grid zero_state).2.ledger.total_hyde_land_area
      = 250 ∧
    demo_grid.country_fao 4 = demo_rinfo.country_fao_nodata ∧
    demo_grid.land_area_hyde 4 ≠ demo_rinfo.land_area_hyde_nodata :=
  ⟨((C24_area_ledger demo_consts demo_rinfo demo_grid zero_state (by decide)
      (by decide)).1.1).trans demo_hyde_total, by decide, by decide⟩

end Moirai

namespace Moirai

theorem grown_list_start (valid : Nat → Prop) [DecidablePred valid] (L0 : Nat → Nat)
    (n0 : Nat) : grown_list valid L0 n0 L0 n0 0 := by
  refine ⟨by simp, fun p h1 h2 => by omega, fun _ _ => rfl⟩

theorem grown_list_step (valid : Nat → Prop) [DecidablePred valid] (L0 : Nat → Nat)
    (n0 : Nat) (L : Nat → Nat) (num m : Nat) (h : grown_list valid L0 n0 L num m) :
    grown_list valid L0 n0 (if valid m then store L num m else L)
      (if valid m then num + 1 else num) (m + 1) := by
  obtain ⟨h1, h2, h3⟩ := h
  by_cases hv : valid m
  · simp only [hv, if_true]
    refine ⟨?_, fun p hp1 hp2 => ?_, fun p hp => ?_⟩
    · rw [Finset.range_succ, Finset.filter_insert, if_pos hv,
        Finset.card_insert_of_not_mem (by simp), h1]
      ring
    · by_cases hpn : p = num
      · simp [store, hpn]
      · simp only [store, hpn, if_false]
        have := h2 p hp1 (by omega)
        omega
    · have hpn : p ≠ num := by omega
      simp only [store, hpn, if_false]
      exact h3 p hp
  · simp only [hv, if_false]
    refine ⟨?_, fun p hp1 hp2 => ?_, h3⟩
    · rw [Finset.range_succ, Finset.filter_insert, if_neg hv]
      exact h1
    · have := h2 p hp1 hp2
      omega

section
variable {c : Consts} {ri : rinfo_struct} {g : Grids}

theorem unknown_country_iff (hN : c.NOMATCH < 0) (i : Nat) :
    index_error c ri g i ↔ unknown_country c ri g i := by
  unfold index_error unknown_country
  rw [fao_index_nomatch_iff hN]

/-- The three cell lists after a cell loop from cell 0 whose first index error is at cell
`k`: they have grown by the valid cells up to cell `k`. -/
theorem cell_loop_lists_err (c : Consts) (ri : rinfo_struct) (g : Grids) (n k : Nat)
    (s : State) (hk : index_error c ri g k) (hkn : k < n)
    (hfirst : ∀ j, j < k → ¬ index_error c ri g j) :
    grown_list (fun f => g.land_area_hyde f ≠ ri.land_area_hyde_nodata)
      s.lists.land_cells_hyde s.lists.num_land_cells_hyde
      (cell_loop c ri g n 0 s).2.lists.land_cells_hyde
      (cell_loop c ri g n 0 s).2.lists.num_land_cells_hyde (k + 1) ∧
    grown_list (fun f => g.land_area_sage f ≠ ri.land_area_sage_nodata)
      s.lists.land_cells_sage s.lists.num_land_cells_sage
      (cell_loop c ri g n 0 s).2.lists.land_cells_sage
      (cell_loop c ri g n 0 s).2.lists.num_land_cells_sage (k + 1) ∧
    grown_list (fun f => g.aez_bounds_new f ≠ ri.aez_new_nodata)
      s.lists.land_cells_aez_new s.lists.num_land_cells_aez_new
      (cell_loop c ri g n 0 s).2.lists.land_cells_aez_new
      (cell_loop c ri g n 0 s).2.lists.num_land_cells_aez_new (k + 1) :=
  cell_loop_inv_err
    (fun j t =>
      grown_list (fun f => g.land_area_hyde f ≠ ri.land_area_hyde_nodata)
        s.lists.land_cells_hyde s.lists.num_land_cells_hyde
        t.lists.land_cells_hyde t.lists.num_land_cells_hyde j ∧
      grown_list (fun f => g.land_area_sage f ≠ ri.land_area_sage_nodata)
        s.lists.land_cells_sage s.lists.num_land_cells_sage
        t.lists.land_cells_sage t.lists.num_land_cells_sage j ∧
      grown_list (fun f => g.aez_bounds_new f ≠ ri.aez_new_nodata)
        s.lists.land_cells_aez_new s.lists.num_land_cells_aez_new
        t.lists.land_cells_aez_new t.lists.num_land_cells_aez_new j)
    k hk n 0 s (Nat.zero_le _) (by omega) (fun j _ hj => hfirst j hj)
    ⟨grown_list_start _ _ _, grown_list_start _ _ _, grown_list_start _ _ _⟩
    (fun j t _ _ ⟨a1, a2, a3⟩ => by
      beta_reduce
      rw [cell_body_lists]
      exact ⟨grown_list_step _ _ _ _ _ _ a1, grown_list_step _ _ _ _ _ _ a2,
        grown_list_step _ _ _ _ _ _ a3⟩)

/-- C25. When the first cell with a valid new zone and a valid country code absent from
the country table is cell `k` of the grid, `get_land_cells` returns `ERROR_IND` and rolls
nothing back: every cell `i < k` holds the record (masks, `country87_gtap`, `region_gcam`,
working areas and all other fields) that it holds after a run that returns `OK` on inputs
that agree on the cells `0 .. k-1`; the record of every cell after `k` is the one at loop
entry, no array being written there; and each of the counters `num_land_cells_hyde`,
`num_land_cells_sage` and `num_land_cells_aez_new` has grown by the number of valid cells
with index at most `k`, the entries added to the lists being cells with index at most
`k`. -/
theorem C25_no_rollback (c : Consts) (ri : rinfo_struct) (g : Grids) (s : State) (k : Nat)
    (hE : c.ERROR_IND ≠ OK) (hN : c.NOMATCH < 0)
    (hk : unknown_country c ri g k) (hkn : k < c.NUM_CELLS)
    (hfirst : ∀ j, j < k → ¬ unknown_country c ri g j) :
    (get_land_cells c ri g s).1 = c.ERROR_IND ∧
    (∀ g', (∀ j, j < k → SameAt g g' j) → (get_land_cells c ri g' s).1 = OK →
      ∀ i, i < k → (get_land_cells c ri g s).2.cell i = (get_land_cells c ri g' s).2.cell i) ∧
    (∀ j, k < j → (get_land_cells c ri g s).2.cell j = (enter_get_land_cells s).cell j) ∧
    grown_list (fun f => g.land_area_hyde f ≠ ri.land_area_hyde_nodata)
      s.lists.land_cells_hyde s.lists.num_land_cells_hyde
      (get_land_cells c ri g s).2.lists.land_cells_hyde
      (get_land_cells c ri g s).2.lists.num_land_cells_hyde (k + 1) ∧
    grown_list (fun f => g.land_area_sage f ≠ ri.land_area_sage_nodata)
      s.lists.land_cells_sage s.lists.num_land_cells_sage
      (get_land_cells c ri g s).2.lists.land_cells_sage
      (get_land_cells c ri g s).2.lists.num_land_cells_sage (k + 1) ∧
    grown_list (fun f => g.aez_bounds_new f ≠ ri.aez_new_nodata)
      s.lists.land_cells_aez_new s.lists.num_land_cells_aez_new
      (get_land_cells c ri g s).2.lists.land_cells_aez_new
      (get_land_cells c ri g s).2.lists.num_land_cells_aez_new (k + 1) := by
  have hk' : index_error c ri g k := (unknown_country_iff hN k).mpr hk
  have hfirst' : ∀ j, j < k → ¬ index_error c ri g j := fun j hj h =>
    hfirst j hj ((unknown_country_iff hN j).mp h)
  refine ⟨?_, fun g' hsame hok' i hi => ?_, fun j hj => ?_,
    cell_loop_lists_err c ri g c.NUM_CELLS k (enter_get_land_cells s) hk' hkn hfirst'⟩
  · unfold get_land_cells
    rw [cell_loop_code]
    exact if_pos ⟨k, by omega, Nat.zero_le _, hk'⟩
  · rw [(get_land_cells_ok hE s hok').2 i (by omega)]
    unfold get_land_cells
    rw [cell_loop_cell]
    have hc : (0 ≤ i ∧ i < 0 + c.NUM_CELLS ∧ ∀ k', k' < i → 0 ≤ k' → ¬ index_error c ri g k') :=
      ⟨Nat.zero_le _, by omega, fun k' h1 _ => hfirst' k' (by omega)⟩
    rw [if_pos hc]
    exact cell_body_congr (hsame i hi) rfl
  · unfold get_land_cells
    rw [cell_loop_cell]
    have hc : ¬ (0 ≤ j ∧ j < 0 + c.NUM_CELLS ∧
        ∀ k', k' < j → 0 ≤ k' → ¬ index_error c ri g k') :=
      fun ⟨_, _, h⟩ => h k hj (Nat.zero_le _) hk'
    rw [if_neg hc]

end

/-- C25 at the sample grid with the unknown country at cell 5: the run returns `ERROR_IND`,
cell 2 holds what it holds after the run on the sample grid, which returns `OK`, cell 6
holds the record of loop entry, and the hyde counter is 5, the valid cells up to cell 5
being the cells 0, 2, 3, 4 and 5. -/
theorem C25_no_rollback_witness :
    (get_land_cells demo_consts demo_rinfo unknown_grid zero_state).1 = demo_consts.ERROR_IND ∧
    (get_land_cells demo_consts demo_rinfo unknown_grid zero_state).2.cell 2 =
      (get_land_cells demo_consts demo_rinfo demo_grid zero_state).2.cell 2 ∧
    (get_land_cells demo_consts demo_rinfo unknown_grid zero_state).2.cell 6 =
      (enter_get_land_cells zero_state).cell 6 ∧
    (get_land_cells demo_consts demo_rinfo unknown_grid zero_state).2.lists.num_land_cells_hyde
      = 5 :=
  have h := C25_no_rollback demo_consts demo_rinfo unknown_grid zero_state 5 (by decide)
    (by decide) (by decide) (by decide) (by decide)
  ⟨h.1,
    h.2.1 demo_grid
      (fun j hj =>
        { aez_bounds_orig := rfl, aez_bounds_new := rfl, land_area_sage := rfl
          land_area_hyde := rfl, cell_area_hyde := rfl
          country_fao := by
            have hj5 : j ≠ 5 := by omega
            simp only [unknown_grid, hj5, if_false]
          potveg_thematic := rfl, countrycodes_fao := rfl, ctry2ctry87codes_gtap := rfl
          ctry2regioncodes_gcam := rfl })
      (by decide) 2 (by decide),
    h.2.2.1 6 (by decide), by decide⟩

end Moirai

namespace Moirai
section
variable {c : Consts} {ri : rinfo_struct} {g : Grids} {proc : ProcLulc}

end
end Moirai

namespace Moirai

end Moirai

namespace Moirai

/-- A float composite of a non-negative code and a zone code below the multiplier whose
exact value is at most `2 ^ 24` is that exact value. -/
theorem composite_code_packed (c : Consts) (p z : Int) (hp : 0 ≤ p) (hz : 0 ≤ z)
    (hzM : z < c.FAOCTRY2GCAMCTRYAEZID)
    (hb : p * c.FAOCTRY2GCAMCTRYAEZID + z ≤ 2 ^ 24) :
    composite_code c p z = p * c.FAOCTRY2GCAMCTRYAEZID + z := by
  have hM : 0 < c.FAOCTRY2GCAMCTRYAEZID := lt_of_le_of_lt hz hzM
  have hpM : 0 ≤ p * c.FAOCTRY2GCAMCTRYAEZID := Int.mul_nonneg hp (le_of_lt hM)
  have e0 : float_round 0 = 0 := float_round_exact 0 (by decide)
  have ez : float_round z = z := float_round_exact z (by unfold float_exact; omega)
  rcases eq_or_lt_of_le hp with h0 | hpos
  · subst h0
    unfold composite_code
    rw [e0, Int.zero_mul, e0, Int.zero_add, ez, ez, Int.zero_mul, Int.zero_add]
  · have hle : c.FAOCTRY2GCAMCTRYAEZID ≤ p * c.FAOCTRY2GCAMCTRYAEZID := by nlinarith
    have hle2 : p ≤ p * c.FAOCTRY2GCAMCTRYAEZID := by nlinarith
    exact composite_code_exact c p z (by unfold float_exact; omega) (by unfold float_exact; omega)
      (by unfold float_exact; omega) (by unfold float_exact; omega)
      (by unfold float_exact; omega)

/-- The exact composite of a non-negative code and a zone code below the multiplier gives
back the code as its quotient and the zone as its remainder by the multiplier. -/
theorem exact_composite_div_mod (M p z : Int) (hp : 0 ≤ p) (hz : 0 ≤ z) (hzM : z < M) :
    (p * M + z).tdiv M = p ∧ (p * M + z).tmod M = z := by
  have hM : 0 < M := lt_of_le_of_lt hz hzM
  have hc : 0 ≤ p * M + z := Int.add_nonneg (Int.mul_nonneg hp (le_of_lt hM)) hz
  rw [Int.tdiv_eq_ediv hc (le_of_lt hM), Int.tmod_eq_emod hc (le_of_lt hM)]
  constructor
  · rw [Int.add_comm, Int.add_mul_ediv_right _ _ (ne_of_gt hM), Int.ediv_eq_zero_of_lt hz hzM,
      Int.zero_add]
  · rw [Int.add_comm, Int.add_mul_emod_self, Int.emod_eq_of_lt hz hzM]

/-- C28, as amended. The composite code of `get_land_cells`, computed in float, packs its
two identifiers without loss as long as the exact composite is at most `2 ^ 24`: for all
codes `p, p' >= 0` and zone codes `z, z'` with `0 <= z, z' < FAOCTRY2GCAMCTRYAEZID` and
`p * FAOCTRY2GCAMCTRYAEZID + z`, `p' * FAOCTRY2GCAMCTRYAEZID + z'` at most `2 ^ 24`, the
composites are these exact values, equal composites have equal codes and equal zones, and the
code and the zone are the quotient and the remainder of the composite by the multiplier
(with C's truncating division); and the composites that a run returning `OK` stores for a
cell are the composite codes of the stored country code, of the stored region code (of
`NOMATCH` where the region raster keeps `NODATA` for want of a region) and of the stored
zone. -/
theorem C28_composite_packing (c : Consts) (p p' z z' : Int) (hp : 0 ≤ p) (hp' : 0 ≤ p')
    (hz : 0 ≤ z) (hzM : z < c.FAOCTRY2GCAMCTRYAEZID)
    (hz' : 0 ≤ z') (hzM' : z' < c.FAOCTRY2GCAMCTRYAEZID)
    (hb : p * c.FAOCTRY2GCAMCTRYAEZID + z ≤ 2 ^ 24)
    (hb' : p' * c.FAOCTRY2GCAMCTRYAEZID + z' ≤ 2 ^ 24) :
    composite_code c p z = p * c.FAOCTRY2GCAMCTRYAEZID + z ∧
    (composite_code c p z = composite_code c p' z' → p = p' ∧ z = z') ∧
    (composite_code c p z).tdiv c.FAOCTRY2GCAMCTRYAEZID = p ∧
    (composite_code c p z).tmod c.FAOCTRY2GCAMCTRYAEZID = z ∧
    (∀ (ri : rinfo_struct) (g : Grids) (i : Nat) (s : State), c.ERROR_IND ≠ OK →
      (get_land_cells c ri g s).1 = OK → i < c.NUM_CELLS → canonical_written c ri g i →
        ((get_land_cells c ri g s).2.cell i).ctryaez_raster =
          composite_code c ((get_land_cells c ri g s).2.cell i).country_out
            ((get_land_cells c ri g s).2.cell i).aez_out ∧
        ((get_land_cells c ri g s).2.cell i).regionaez_raster =
          composite_code c
            (if g.ctry2ctry87codes_gtap (fao_index_of c g (g.country_fao i)) ≠ c.NOMATCH ∧
                g.ctry2regioncodes_gcam (fao_index_of c g (g.country_fao i)) = c.NOMATCH
              then c.NOMATCH else ((get_land_cells c ri g s).2.cell i).region_raster)
            ((get_land_cells c ri g s).2.cell i).aez_out) := by
  have e1 := composite_code_packed c p z hp hz hzM hb
  have e2 := composite_code_packed c p' z' hp' hz' hzM' hb'
  obtain ⟨d1, d2⟩ := exact_composite_div_mod c.FAOCTRY2GCAMCTRYAEZID p z hp hz hzM
  obtain ⟨d3, d4⟩ := exact_composite_div_mod c.FAOCTRY2GCAMCTRYAEZID p' z' hp' hz' hzM'
  refine ⟨e1, ?_, ?_, ?_, ?_⟩
  · intro h
    rw [e1, e2] at h
    constructor
    · rw [← d1, ← d3, h]
    · rw [← d2, ← d4, h]
  · rw [e1]; exact d1
  · rw [e1]; exact d2
  · intro ri g i s hE hok hi hw
    obtain ⟨a1, a2, a3, a4⟩ := ok_canonical hE s hok hi hw
    rw [a1, composite_code_round_right, composite_code_round_right]
    refine ⟨a2, ?_⟩
    by_cases hx : g.ctry2ctry87codes_gtap (fao_index_of c g (g.country_fao i)) ≠ c.NOMATCH ∧
        g.ctry2regioncodes_gcam (fao_index_of c g (g.country_fao i)) = c.NOMATCH
    · rw [if_pos hx]; exact (a3 hx).2
    · rw [if_neg hx]; exact a4 hx

/-- C28 as stated fails for the composite that `get_land_cells` computes: with multiplier
1000 the codes and zones `(20001, 7)` and `(20001, 8)` both give the float composite
20001008, whose remainder by 1000 is 8; and just above `2 ^ 24 = 16777216` the pairs
`(16777, 216)` and `(16777, 217)` both give 16777216. -/
theorem C28_counterexample :
    demo_consts.FAOCTRY2GCAMCTRYAEZID = 1000 ∧
    composite_code demo_consts 20001 7 = 20001008 ∧
    composite_code demo_consts 20001 8 = 20001008 ∧
    composite_code demo_consts 20001 7 = composite_code demo_consts 20001 8 ∧
    (composite_code demo_consts 20001 7).tmod demo_consts.FAOCTRY2GCAMCTRYAEZID ≠ 7 ∧
    composite_code demo_consts 16777 216 = 16777216 ∧
    composite_code demo_consts 16777 217 = 16777216 := by
  decide

/-- C28, as amended, at the sample constants: country 8 and zone 12 give 8012, from which 8
and 12 are recovered, and 8012 differs from the composite 5012 of region 5 and zone 12. -/
theorem C28_composite_packing_witness :
    composite_code demo_consts 8 12 = 8012 ∧
    (composite_code demo_consts 8 12 = composite_code demo_consts 5 12 →
      (8 : Int) = 5 ∧ (12 : Int) = 12) ∧
    (composite_code demo_consts 8 12).tdiv demo_consts.FAOCTRY2GCAMCTRYAEZID = 8 ∧
    (composite_code demo_consts 8 12).tmod demo_consts.FAOCTRY2GCAMCTRYAEZID = 12 :=
  have h := C28_composite_packing demo_consts 8 5 12 12 (by decide) (by decide) (by decide)
    (by decide) (by decide) (by decide) (by decide) (by decide)
  ⟨h.1, h.2.1, h.2.2.1, h.2.2.2.1⟩

end Moirai
